import Mathlib

/-! Pico Game Controller: the input-processing core.

A shallow embedding of `src/pico_game_controller.c`.

* C arrays are total functions from the index (`Nat → α`); a store is `upd`.
* `uint32_t` values are naturals below `2^32` and unsigned arithmetic is taken
  modulo `2^32` (`toU32`).  `int` is 32 bits wide: a conversion to `int` and
  every `int` operation is read in two's complement (`toInt32`).  `uint8_t`
  and `uint16_t` values are reduced modulo `2^8` and `2^16` where the code
  narrows them.
* The globals form the record `State`.  The hardware-written `volatile`
  counters `enc_val`, the switch lines read by `gpio_get` and the answer of
  `tud_hid_ready()` are inputs of each function, one snapshot per call.
* The levels driven by `gpio_put` are kept in `State.gpio_out`; the reports
  handed to the USB stack are returned as a list of `HidOut`.
* The keycodes `HID_KEY_*` of the table `SW_KEYCODE` come from a header of the
  USB stack, so `key_mode` takes the table as an argument.
* A `for` loop with a fixed range is `forUp`, `forDown` or `forUpOpt`; the
  `while` loop of `joy_mode` takes a bound on its iterations and returns
  `none` when the bound is reached, and so does `joy_mode`.
-/

namespace PicoGameController

/-! ## Configuration constants -/

/-- Number of switches. -/
def SW_COUNT : Nat := 11

/-- Number of encoders. -/
def ENC_COUNT : Nat := 2

/-- Encoder PPR. -/
def ENC_PPR : Nat := 24

/-- Four pulses per PPR. -/
def ENC_PULSE : Nat := ENC_PPR * 4

/-- Delta rollover threshold. -/
def ENC_ROLLOVER : Nat := ENC_PULSE * 2

/-- Cycles before HID falls back to reactive. -/
def REACTIVE_TIMEOUT_MAX : Nat := 100000

/-- Number of consistent cycles needed. -/
def ENC_DEBOUNCE_CYCLES : Nat := 10000

/-- Largest `uint32_t`. -/
def UINT32_MAX : Nat := 4294967295

/-- Input pin of each switch. -/
def SW_GPIO : Nat → Nat
  | 0 => 4
  | 1 => 6
  | 2 => 8
  | 3 => 10
  | 4 => 12
  | 5 => 14
  | 6 => 16
  | 7 => 18
  | 8 => 20
  | 9 => 22
  | 10 => 27
  | _ => 0

/-- Output pin of each indicator. -/
def LED_GPIO : Nat → Nat
  | 0 => 5
  | 1 => 7
  | 2 => 9
  | 3 => 11
  | 4 => 13
  | 5 => 15
  | 6 => 17
  | 7 => 19
  | 8 => 21
  | 9 => 26
  | 10 => 28
  | _ => 0

/-- Reverse encoders: both entries of the table are `false`. -/
def ENC_REV : Nat → Bool := fun _ => false

/-! ## Machine arithmetic -/

/-- Conversion to `uint32_t`: the value modulo `2^32`. -/
def toU32 (x : Int) : Nat := (x % 4294967296).toNat

/-- Conversion to `int`: the two's-complement reading of the value modulo `2^32`. -/
def toInt32 (x : Int) : Int :=
  if x % 4294967296 < 2147483648 then x % 4294967296 else x % 4294967296 - 4294967296

/-- Store into a C array: `a[i] = v`. -/
def upd {α : Type} (a : Nat → α) (i : Nat) (v : α) : Nat → α :=
  fun j => if j = i then v else a j

/-- Loop `for (i = 0; i < n; i++) body(i)`. -/
def forUp {σ : Type} (body : Nat → σ → σ) : Nat → σ → σ
  | 0, s => s
  | n + 1, s => body n (forUp body n s)

/-- Loop `for (i = n - 1; i >= 0; i--) body(i)`. -/
def forDown {σ : Type} (body : Nat → σ → σ) : Nat → σ → σ
  | 0, s => s
  | n + 1, s => forDown body n (body n s)

/-- Loop `for (i = 0; i < n; i++) body(i)` whose body may fail to return. -/
def forUpOpt {σ : Type} (body : Nat → σ → Option σ) : Nat → σ → Option σ
  | 0, s => some s
  | n + 1, s => (forUpOpt body n s).bind (body n)

/-! ## Program state -/

/-- The joystick report `struct report`. -/
structure Report where
  buttons : Nat
  joy0 : Nat
  joy1 : Nat

/-- The two functions `loop_mode` can point to. -/
inductive LoopMode where
  | joy
  | key
  deriving DecidableEq

/-- The report types of `hid_report_type_t`. -/
inductive HidReportType where
  | invalid
  | input
  | output
  | feature
  deriving DecidableEq

/-- A report handed to the USB stack. -/
inductive HidOut where
  /-- From `tud_hid_n_report(0x00, REPORT_ID_JOYSTICK, &report, sizeof(report))`. -/
  | joystick (r : Report)
  /-- From `tud_hid_n_report(0x00, REPORT_ID_KEYBOARD, &nkro_report, sizeof(nkro_report))`. -/
  | keyboard (nkro : Nat → Nat)
  /-- From `tud_hid_mouse_report(REPORT_ID_MOUSE, 0x00, x, y, 0, 0)`: the two `int` arguments. -/
  | mouse (x y : Int)

/-- The global variables of the program, and the level last driven on each output pin. -/
structure State where
  prev_enc_val : Nat → Nat
  cur_enc_val : Nat → Int
  enc_debounce_val : Nat → Nat → Nat
  enc_debounce_idx : Nat → Nat
  enc_changed : Nat → Bool
  sw_val : Nat → Bool
  prev_sw_val : Nat → Bool
  sw_changed : Bool
  leds_changed : Bool
  reactive_timeout_count : Nat
  loop_mode : LoopMode
  lights_report : Nat → Nat
  report : Report
  gpio_out : Nat → Bool

/-! ## HID / reactive lights -/

/-- Body of the loop of `update_lights` for indicator `i`. -/
def update_lights_led (s : State) (i : Nat) (out : Nat → Bool) : Nat → Bool :=
  if s.reactive_timeout_count ≥ REACTIVE_TIMEOUT_MAX then
    if s.sw_val i then upd out ( LED_GPIO i) true else upd out ( LED_GPIO i) false
  else
    if s.lights_report i = 0 then upd out ( LED_GPIO i) false else upd out ( LED_GPIO i) true

/-- Function `update_lights`. -/
def update_lights (s : State) : State :=
  let s1 : State :=
    if s.reactive_timeout_count < REACTIVE_TIMEOUT_MAX then
      { s with reactive_timeout_count := s.reactive_timeout_count + 1 }
    else s
  if s1.leds_changed then
    { s1 with
      gpio_out := forUp (update_lights_led s1) SW_COUNT s1.gpio_out
      leds_changed := false }
  else s1

/-! ## Encoder delta -/

/-- The values of `delta` and `changeType` in `joy_mode` after the rollover
branch, for `prev_enc_val[i] = prev` and `enc_val[i] = enc`. -/
def encDelta (prev enc : Nat) : Int × Int :=
  let d0 : Int × Int :=
    if enc > prev then (toInt32 (toU32 ((enc : Int) - prev)), 1)
    else (toInt32 (toU32 ((prev : Int) - enc)), -1)
  if d0.1 > (ENC_ROLLOVER : Int) then
    (toInt32 (toU32 ((UINT32_MAX : Int) - toU32 d0.1 + 1)), toInt32 (d0.2 * -1))
  else d0

/-- The factor `ENC_REV[i] ? 1 : -1`. -/
def encPolarity (rev : Bool) : Int := if rev then 1 else -1

/-- The `int` expression `(ENC_REV[i] ? 1 : -1) * delta * changeType` of `joy_mode`. -/
def joyStep (rev : Bool) (prev enc : Nat) : Int :=
  toInt32 (toInt32 (encPolarity rev * (encDelta prev enc).1) * (encDelta prev enc).2)

/-- The value of `delta[i]` in `key_mode` after
`delta[i] *= changeType * (ENC_REV[i] ? 1 : -1)`. -/
def mouseDelta (rev : Bool) (prev enc : Nat) : Int :=
  toInt32 ((encDelta prev enc).1 * toInt32 ((encDelta prev enc).2 * encPolarity rev))

/-- The loop `while (cur_enc_val[i] < 0) cur_enc_val[i] = ENC_PULSE - cur_enc_val[i];`
on a 32-bit `int`: `fuel` bounds the number of times the condition is tested,
and the result is `none` when the loop has not ended by then. -/
def normalizeLoop : Nat → Int → Option Int
  | 0, _ => none
  | fuel + 1, cur =>
    if cur < 0 then normalizeLoop fuel (toInt32 ((ENC_PULSE : Int) - cur)) else some cur

/-! ## Joystick axis scaling -/

/-- Search upwards from `k`, for at most `fuel` steps, for the first shift with
`2^52 * d ≤ n * 2^k`: the binary exponent that gives the quotient `n / d` a
53-bit significand. -/
def normShift (n d : Nat) : Nat → Nat → Nat
  | 0, k => k
  | fuel + 1, k => if 2 ^ 52 * d ≤ n * 2 ^ k then k else normShift n d fuel (k + 1)

/-- The significand of the binary64 quotient `n / d` at shift `k`: the integer
nearest to `n * 2^k / d`, ties to even. -/
def roundedQuot (n d k : Nat) : Nat :=
  let q := n * 2 ^ k / d
  let r := n * 2 ^ k % d
  if 2 * r > d ∨ (2 * r = d ∧ q % 2 = 1) then q + 1 else q

/-- The expression `((double)cur / ENC_PULSE) * 256` converted to `uint8_t`, in
IEEE 754 binary64 with round-to-nearest-even: `(double)cur` and `ENC_PULSE`
are exact, the quotient is rounded to 53 significant bits
(`roundedQuot / 2^k`), the product with the power of two 256 is exact, and
the conversion to an integer drops the fraction.  C leaves the conversion
undefined when the integer is outside `0..255`; here its low byte is taken. -/
def axisByte (cur : Int) : Nat :=
  let n := cur.natAbs
  let k := normShift n ENC_PULSE 64 0
  let t : Nat := roundedQuot n ENC_PULSE k * 256 / 2 ^ k
  if 0 ≤ cur then t % 256 else ((-(t : Int)) % 256).toNat

/-! ## Gamepad mode -/

/-- Body of the button loop of `joy_mode`, on `translate_buttons` and the state. -/
def joy_mode_button (i : Nat) (a : Nat × State) : Nat × State :=
  (((a.1 <<< 1) ||| (if a.2.sw_val i then 1 else 0)) % 65536,
   { a.2 with prev_sw_val := upd a.2.prev_sw_val i (a.2.sw_val i) })

/-- The block `if (sw_changed) { ... }` of `joy_mode`, when `sw_changed` holds. -/
def joy_mode_buttons (s : State) : State :=
  let a := forDown joy_mode_button SW_COUNT (0, s)
  { a.2 with
    report := { a.2.report with buttons := a.1 }
    sw_changed := false }

/-- Body of the encoder loop of `joy_mode`, on `send_report` and the state. -/
def joy_mode_enc (fuel : Nat) (enc_val : Nat → Nat) (i : Nat) (a : Bool × State) :
    Option (Bool × State) :=
  let r : Option (Bool × State) :=
    if a.2.enc_changed i then
      (normalizeLoop fuel
        (toInt32 (a.2.cur_enc_val i
          + joyStep (ENC_REV i) (a.2.prev_enc_val i) (enc_val i)))).map
        (fun c => (true,
          { a.2 with
            cur_enc_val := upd a.2.cur_enc_val i c
            prev_enc_val := upd a.2.prev_enc_val i (enc_val i) }))
    else some a
  r.map (fun b => (b.1,
    { b.2 with
      report :=
        { b.2.report with
          joy0 := axisByte (b.2.cur_enc_val 0)
          joy1 := axisByte (b.2.cur_enc_val 1) }
      enc_changed := upd b.2.enc_changed i false }))

/-- Function `joy_mode`; `ready` is the answer of `tud_hid_ready()`, `enc_val`
the encoder counters during the call, `fuel` the bound handed to
`normalizeLoop`.  The result is `none` when a normalisation loop does not end. -/
def joy_mode (fuel : Nat) (ready : Bool) (enc_val : Nat → Nat) (s : State) :
    Option (State × List HidOut) :=
  if ready then
    let a0 : Bool × State := if s.sw_changed then (true, joy_mode_buttons s) else (false, s)
    (forUpOpt (joy_mode_enc fuel enc_val) ENC_COUNT a0).map
      (fun a => (a.2, if a.1 then [HidOut.joystick a.2.report] else []))
  else some (s, [])

/-! ## Keyboard mode -/

/-- Body of the switch loop of `key_mode`, on `nkro_report` and the state;
`keycode` is the table `SW_KEYCODE`. -/
def key_mode_switch (keycode : Nat → Nat) (i : Nat) (a : (Nat → Nat) × State) :
    (Nat → Nat) × State :=
  if a.2.sw_val i then
    let bit := keycode i % 8
    let byte := (keycode i / 8 + 1) % 256
    let nkro : Nat → Nat :=
      if keycode i ≥ 240 ∧ keycode i ≤ 247 then
        upd a.1 0 ((a.1 0 ||| (1 <<< bit)) % 256)
      else if byte > 0 ∧ byte ≤ 31 then
        upd a.1 byte ((a.1 byte ||| (1 <<< bit)) % 256)
      else a.1
    (nkro, { a.2 with prev_sw_val := upd a.2.prev_sw_val i (a.2.sw_val i) })
  else a

/-- The 32-byte `nkro_report` that `key_mode` builds from the state. -/
def nkroReport (keycode : Nat → Nat) (s : State) : Nat → Nat :=
  (forUp (key_mode_switch keycode) SW_COUNT (fun _ => 0, s)).1

/-- Body of the inner encoder loop of `key_mode`, on `delta` and the state. -/
def key_mode_delta (enc_val : Nat → Nat) (i : Nat) (a : (Nat → Int) × State) :
    (Nat → Int) × State :=
  (upd a.1 i (mouseDelta (ENC_REV i) (a.2.prev_enc_val i) (enc_val i)),
   { a.2 with prev_enc_val := upd a.2.prev_enc_val i (enc_val i) })

/-- Body of the outer encoder loop of `key_mode`, on `should_send_mouse`,
`delta` and the state. -/
def key_mode_enc (enc_val : Nat → Nat) (i : Nat) (a : Bool × (Nat → Int) × State) :
    Bool × (Nat → Int) × State :=
  if a.2.2.enc_changed i then
    let b := forUp (key_mode_delta enc_val) ENC_COUNT a.2
    (true, b.1, { b.2 with enc_changed := upd b.2.enc_changed 0 false })
  else a

/-- Function `key_mode`; `keycode` is the table `SW_KEYCODE`, `ready` the
answer of `tud_hid_ready()` (also inside the wait before the mouse report,
which therefore falls through), `enc_val` the encoder counters during the call. -/
def key_mode (keycode : Nat → Nat) (ready : Bool) (enc_val : Nat → Nat) (s : State) :
    State × List HidOut :=
  if ready then
    let k : State × List HidOut :=
      if s.sw_changed then
        let a := forUp (key_mode_switch keycode) SW_COUNT (fun _ => 0, s)
        ({ a.2 with sw_changed := false }, [HidOut.keyboard a.1])
      else (s, [])
    let m := forUp (key_mode_enc enc_val) ENC_COUNT (false, fun _ => 0, k.1)
    if m.1 then (m.2.2, k.2 ++ [HidOut.mouse (m.2.1 0) (m.2.1 1)])
    else (m.2.2, k.2)
  else (s, [])

/-! ## Update input states -/

/-- Body of the switch loop of `update_inputs`; `pins` is `gpio_get`. -/
def update_inputs_switch (pins : Nat → Bool) (i : Nat) (s : State) : State :=
  let s1 : State :=
    if pins ( SW_GPIO i) then { s with sw_val := upd s.sw_val i false }
    else { s with sw_val := upd s.sw_val i true }
  if !s1.sw_changed && (s1.sw_val i != s1.prev_sw_val i) then
    { s1 with sw_changed := true }
  else s1

/-- The debounce scan `for (j = 1; j < ENC_DEBOUNCE_CYCLES - 1; j++)` from
index `j` with `n` iterations left: the value of `enc_changed[i]` at its end.
The two differences are `uint32_t`, so they are compared with 0 as naturals. -/
def debounceScan (buf : Nat → Nat) (dir : Int) : Nat → Nat → Bool
  | 0, _ => true
  | n + 1, j =>
    if (dir > 0 ∧ toU32 ((buf j : Int) - buf (j + 1)) < 0)
        ∨ (dir < 0 ∧ toU32 ((buf j : Int) - buf (j + 1)) > 0) then false
    else debounceScan buf dir n (j + 1)

/-- Body of the encoder loop of `update_inputs`.  The cursor
`enc_debounce_idx[i]` is a `uint8_t`, so its increment is taken modulo 256. -/
def update_inputs_enc (enc_val : Nat → Nat) (i : Nat) (s : State) : State :=
  let buf := upd (s.enc_debounce_val i) (s.enc_debounce_idx i) (enc_val i)
  let idx := ((s.enc_debounce_idx i + 1) % 256) % ENC_DEBOUNCE_CYCLES
  let s1 : State :=
    { s with
      enc_debounce_val := upd s.enc_debounce_val i buf
      enc_debounce_idx := upd s.enc_debounce_idx i idx }
  if enc_val i ≠ buf ((idx + ENC_DEBOUNCE_CYCLES + 1) % ENC_DEBOUNCE_CYCLES) then
    { s1 with
      enc_changed := upd s1.enc_changed i
        (debounceScan buf (toInt32 (toU32 ((buf 0 : Int) - buf 1)))
          (ENC_DEBOUNCE_CYCLES - 2) 1) }
  else s1

/-- The first half of `update_inputs`: the switch loop, then
`if (sw_changed && reactive_timeout_count >= REACTIVE_TIMEOUT_MAX) leds_changed = true;`. -/
def update_inputs_switches (pins : Nat → Bool) (s : State) : State :=
  let s1 := forUp (update_inputs_switch pins) SW_COUNT s
  if s1.sw_changed ∧ s1.reactive_timeout_count ≥ REACTIVE_TIMEOUT_MAX then
    { s1 with leds_changed := true }
  else s1

/-- Function `update_inputs`; `pins` is `gpio_get`, `enc_val` the encoder
counters during the call. -/
def update_inputs (pins : Nat → Bool) (enc_val : Nat → Nat) (s : State) : State :=
  forUp (update_inputs_enc enc_val) ENC_COUNT (update_inputs_switches pins s)

/-! ## Start-up, main loop and host writes -/

/-- The state left by `init` (with the static initialisers of the globals);
`pins` is `gpio_get`.  Pin 25 is driven high. -/
def init (pins : Nat → Bool) : State :=
  { prev_enc_val := fun _ => 0
    cur_enc_val := fun _ => 0
    enc_debounce_val := fun _ _ => 0
    enc_debounce_idx := fun _ => 0
    enc_changed := fun _ => false
    sw_val := fun _ => false
    prev_sw_val := fun _ => false
    sw_changed := false
    leds_changed := false
    reactive_timeout_count := REACTIVE_TIMEOUT_MAX
    loop_mode := if pins ( SW_GPIO 0) then LoopMode.joy else LoopMode.key
    lights_report := fun _ => 0
    report := { buttons := 0, joy0 := 0, joy1 := 0 }
    gpio_out := upd (fun _ => false) 25 true }

/-- What one iteration of the main loop reads from outside. -/
structure CycleInput where
  /-- The switch lines seen by `update_inputs`. -/
  pins : Nat → Bool
  /-- The encoder counters during `update_inputs`. -/
  enc_in : Nat → Nat
  /-- The encoder counters during the report function. -/
  enc_rep : Nat → Nat
  /-- The answer of `tud_hid_ready()`. -/
  ready : Bool

/-- One iteration of `while (1)` in `main` without a host write:
`update_inputs(); loop_mode(); update_lights();`. -/
def main_cycle (fuel : Nat) (keycode : Nat → Nat) (inp : CycleInput) (s : State) :
    Option (State × List HidOut) :=
  let s1 := update_inputs inp.pins inp.enc_in s
  match s1.loop_mode with
  | LoopMode.joy =>
    (joy_mode fuel inp.ready inp.enc_rep s1).map (fun r => (update_lights r.1, r.2))
  | LoopMode.key =>
    some (update_lights (key_mode keycode inp.ready inp.enc_rep s1).1,
      (key_mode keycode inp.ready inp.enc_rep s1).2)

/-- Successive iterations of the main loop, one per element of `inps`. -/
def main_cycles (fuel : Nat) (keycode : Nat → Nat) : List CycleInput → State → Option State
  | [], s => some s
  | inp :: rest, s =>
    (main_cycle fuel keycode inp s).bind (fun r => main_cycles fuel keycode rest r.1)

/-- Successive calls of `update_inputs`, one per element of `samples`, each
element giving the encoder counters of that call. -/
def feed_inputs (pins : Nat → Bool) : List (Nat → Nat) → State → State
  | [], s => s
  | e :: rest, s => feed_inputs pins rest (update_inputs pins e s)

/-- Body of the copy loop of `tud_hid_set_report_cb`; `none` when `buffer[i + 1]`
lies past the end of the buffer. -/
def set_report_copy (buffer : List Nat) (i : Nat) (s : State) : Option State :=
  (buffer.get? (i + 1)).map (fun b => { s with lights_report := upd s.lights_report i (b % 256) })

/-- Function `tud_hid_set_report_cb`; `bufsize` is the length of `buffer`, and
the result is `none` when an index past the end of the buffer is read.  What
the call does then, with the byte that lies behind the buffer, is given by
`tud_hid_set_report_cb_mem`. -/
def tud_hid_set_report_cb (s : State) (report_id : Nat) (report_type : HidReportType)
    (buffer : List Nat) : Option State :=
  if report_id = 2 ∧ report_type = HidReportType.output then
    match buffer.get? 0 with
    | none => none
    | some b0 =>
      if b0 = 2 ∧ buffer.length ≥ 11 then
        (forUpOpt (set_report_copy buffer) 11 s).map
          (fun s1 => { s1 with reactive_timeout_count := 0, leds_changed := true })
      else some s
  else some s

/-! ## Specification functions and sample inputs -/

/-- The first `n` terms `f 1, ..., f n` of a sequence of raw samples, as inputs
of `feed_inputs`: term `k` is what both encoder counters hold during call `k`. -/
def rawSamples (f : Nat → Nat) (n : Nat) : List (Nat → Nat) :=
  (List.range n).map (fun k _ => f (k + 1))

/-- A sequence of raw samples that rises from 5 to 7 at call 9985, falls back
to 5 at call 9986 and is 6 at call 10000. -/
def bounceSample (m : Nat) : Nat :=
  if m = 9985 then 7 else if m = 10000 then 6 else 5

/-- Encoder counters with encoder 0 at 1 and encoder 1 at 0. -/
def firstPulse : Nat → Nat := fun i => if i = 0 then 1 else 0

/-- The button mask of the first `n` switches: the sum of `2^i` over the pressed
switches `i < n`. -/
def buttonMask (sw : Nat → Bool) (n : Nat) : Nat :=
  Finset.sum (Finset.range n) (fun i => if sw i then 2 ^ i else 0)

/-- Keycode `c` is mapped to bit `k` of byte `b` of the keyboard report: a
keycode in `240..247` to byte 0, a keycode below 240 to byte `c / 8 + 1`, in
both cases to bit `c % 8`. -/
def nkroTarget (c b k : Nat) : Prop :=
  (240 ≤ c ∧ c ≤ 247 ∧ b = 0 ∧ k = c % 8) ∨ (c < 240 ∧ b = c / 8 + 1 ∧ k = c % 8)

/-- The state left by `init` with all lines high, then switch `i0` alone pressed
and `sw_changed` set. -/
def onlyPressed (i0 : Nat) : State :=
  { init (fun _ => true) with sw_val := fun i => decide (i = i0), sw_changed := true }

/-- Switch lines with the line of switch `i0` alone low. -/
def pressLine (i0 : Nat) : Nat → Bool := fun pin => decide (pin ≠ SW_GPIO i0)

/-- A keycode table with the distinct keycodes `4, 5, ..., 14`. -/
def sampleKeycode : Nat → Nat := fun i => if i < 11 then 4 + i else 0

/-- Encoder counters with both encoders at 1. -/
def bothPulse : Nat → Nat := fun _ => 1

/-- A lighting payload that is accepted and lights every indicator. -/
def allLitPayload : List Nat := [2, 1, 1, 1, 1, 1, 1, 1, 1, 1, 1, 1]

/-- A main-loop iteration with every switch released, both encoder counters
at 0 and the transport ready. -/
def quietInput : CycleInput :=
  { pins := fun _ => true, enc_in := fun _ => 0, enc_rep := fun _ => 0, ready := true }

/-! ## Events between two instants -/

/-- The byte the callback finds at `buffer[i]`: the byte of the buffer when
`i < bufsize`, and the byte `behind i` that lies behind the buffer in memory
when the index is past its end. -/
def buffer_at (buffer : List Nat) (behind : Nat → Nat) (i : Nat) : Nat :=
  (buffer.get? i).getD (behind i)

/-- Body of the copy loop of `tud_hid_set_report_cb`, with the memory behind
the buffer given: `lights_report.buttons[i] = buffer[i + 1]`. -/
def set_report_copy_mem (buffer : List Nat) (behind : Nat → Nat) (i : Nat) (s : State) : State :=
  { s with lights_report := upd s.lights_report i (buffer_at buffer behind (i + 1) % 256) }

/-- Function `tud_hid_set_report_cb` on every input, with the memory behind
the buffer given by `behind`; `bufsize` is the length of `buffer`.  The test
reads `buffer[0]` before it looks at `bufsize`, and the copy loop reads
`buffer[1] .. buffer[11]` once `bufsize >= sizeof(lights_report) = 11`, so with
`bufsize = 0` or `bufsize = 11` a byte of `behind` is read; the call returns
in every case. -/
def tud_hid_set_report_cb_mem (s : State) (report_id : Nat) (report_type : HidReportType)
    (buffer : List Nat) (behind : Nat → Nat) : State :=
  if report_id = 2 ∧ report_type = HidReportType.output
      ∧ buffer_at buffer behind 0 = 2 ∧ buffer.length ≥ 11 then
    let s1 := forUp (set_report_copy_mem buffer behind) 11 s
    { s1 with reactive_timeout_count := 0, leds_changed := true }
  else s

/-- One thing that happens to the globals: an iteration of the main loop
without a host write, a call of `tud_hid_set_report_cb` (made from
`tud_task()`) with any arguments and any memory behind the buffer, or a call
of `update_inputs` or `update_lights` on its own. -/
inductive Event where
  | cycle (inp : CycleInput)
  | write (report_id : Nat) (report_type : HidReportType) (buffer : List Nat)
      (behind : Nat → Nat)
  | inputs (pins : Nat → Bool) (enc_val : Nat → Nat)
  | lights

/-- The state after one event; `none` when the normalisation loop of
`joy_mode` has not ended within `fuel` tests.  Every other call returns. -/
def apply_event (fuel : Nat) (keycode : Nat → Nat) (ev : Event) (s : State) : Option State :=
  match ev with
  | Event.cycle inp => (main_cycle fuel keycode inp s).map (fun r => r.1)
  | Event.write report_id report_type buffer behind =>
    some (tud_hid_set_report_cb_mem s report_id report_type buffer behind)
  | Event.inputs pins enc_val => some (update_inputs pins enc_val s)
  | Event.lights => some (update_lights s)

/-- The state after a sequence of events. -/
def run_events (fuel : Nat) (keycode : Nat → Nat) : List Event → State → Option State
  | [], s => some s
  | ev :: rest, s => (apply_event fuel keycode ev s).bind (run_events fuel keycode rest)

/-- Whether an event is a single call of `update_lights`, `update_inputs` or
`tud_hid_set_report_cb`, as opposed to a whole iteration of the main loop. -/
def single_call : Event → Bool
  | Event.cycle _ => false
  | _ => true

/-- The loop `while (cur_enc_val[i] < 0) cur_enc_val[i] = ENC_PULSE - cur_enc_val[i];`
as in `normalizeLoop`, returning also how many times its body has run, counted
from `iters`. -/
def normalizeLoopIter : Nat → Int → Nat → Option (Int × Nat)
  | 0, _, _ => none
  | fuel + 1, cur, iters =>
    if cur < 0 then normalizeLoopIter fuel (toInt32 ((ENC_PULSE : Int) - cur)) (iters + 1)
    else some (cur, iters)

/-- A lighting payload with the identifier byte and only ten pattern bytes. -/
def shortPayload : List Nat := [2, 1, 1, 1, 1, 1, 1, 1, 1, 1, 1]

/-- A main-loop iteration with switch 0 alone pressed, both encoder counters
at 0 and the transport ready. -/
def pressInput : CycleInput :=
  { pins := pressLine 0, enc_in := fun _ => 0, enc_rep := fun _ => 0, ready := true }

/-- A main-loop iteration with every switch released, both encoder counters
at 1 and the transport ready. -/
def pulseInput : CycleInput :=
  { pins := fun _ => true, enc_in := bothPulse, enc_rep := bothPulse, ready := true }

/-! ## Machine arithmetic lemmas -/

theorem toU32_cast (x : Int) : ((toU32 x : Nat) : Int) = x % 4294967296 := by
  unfold toU32; omega

theorem toInt32_toU32 (x : Int) : toInt32 (toU32 x) = toInt32 x := by
  unfold toInt32; rw [toU32_cast]; simp only [Int.emod_emod_of_dvd, dvd_refl]

theorem toInt32_of_range (x : Int) (h1 : -2147483648 ≤ x) (h2 : x < 2147483648) :
    toInt32 x = x := by
  unfold toInt32; split_ifs <;> omega

theorem toInt32_range (x : Int) : -2147483648 ≤ toInt32 x ∧ toInt32 x < 2147483648 := by
  unfold toInt32; split_ifs <;> omega

theorem toInt32_neg_of_ne (x : Int) (h : toInt32 x ≠ -2147483648) :
    toInt32 (-x) = - toInt32 x := by
  unfold toInt32 at *; split_ifs at * <;> omega

/-- The rollover assignment `delta = UINT32_MAX - delta + 1` negates an `int` in `193..`. -/
theorem rollover_negates (d : Int) (h1 : -2147483648 < d) (h2 : d < 2147483648) :
    toInt32 ((UINT32_MAX : Int) - toU32 d + 1) = -d := by
  rw [toU32_cast]
  have h : toInt32 ((UINT32_MAX : Int) - d % 4294967296 + 1) = toInt32 (-d) := by
    unfold UINT32_MAX toInt32; split_ifs <;> omega
  rw [h]
  exact toInt32_of_range _ (by omega) (by omega)

/-- Whatever branch is taken, `delta * changeType` is the wrapped difference. -/
theorem encDelta_prod (prev enc : Nat) (hk : toInt32 ((enc : Int) - prev) ≠ -2147483648) :
    (encDelta prev enc).1 * (encDelta prev enc).2 = toInt32 ((enc : Int) - prev)
    ∧ (encDelta prev enc).1 ≠ -2147483648
    ∧ ((encDelta prev enc).2 = 1 ∨ (encDelta prev enc).2 = -1) := by
  have hneg : toInt32 ((prev : Int) - enc) = - toInt32 ((enc : Int) - prev) := by
    have h := toInt32_neg_of_ne _ hk
    rwa [neg_sub] at h
  have hr := toInt32_range ((enc : Int) - prev)
  have e1 : toInt32 ((1 : Int) * -1) = -1 := by decide
  have e2 : toInt32 ((-1 : Int) * -1) = 1 := by decide
  unfold encDelta
  simp only [toInt32_toU32]
  by_cases h : enc > prev
  · simp only [h, if_true]
    by_cases h2 : toInt32 ((enc : Int) - prev) > (ENC_ROLLOVER : Int)
    · simp only [h2, if_true]
      rw [rollover_negates (toInt32 ((enc : Int) - prev)) (by omega) (by omega), e1]
      exact ⟨by ring, by omega, by simp⟩
    · simp only [h2, if_false]
      exact ⟨by ring, hk, by simp⟩
  · simp only [h, if_false]
    rw [hneg]
    by_cases h2 : - toInt32 ((enc : Int) - prev) > (ENC_ROLLOVER : Int)
    · simp only [h2, if_true]
      rw [rollover_negates (- toInt32 ((enc : Int) - prev)) (by omega) (by omega), e2]
      exact ⟨by ring, by omega, by simp⟩
    · simp only [h2, if_false]
      exact ⟨by ring, by omega, by simp⟩

theorem joyStep_eq (rev : Bool) (prev enc : Nat)
    (hk : toInt32 ((enc : Int) - prev) ≠ -2147483648) :
    joyStep rev prev enc = encPolarity rev * toInt32 ((enc : Int) - prev) := by
  obtain ⟨hprod, hne, hct⟩ := encDelta_prod prev enc hk
  have hr := toInt32_range ((enc : Int) - prev)
  unfold joyStep
  generalize (encDelta prev enc).1 = d at *
  generalize (encDelta prev enc).2 = c at *
  generalize toInt32 ((enc : Int) - prev) = k at *
  have hd : -2147483648 < d ∧ d < 2147483648 := by
    rcases hct with rfl | rfl <;> omega
  cases rev <;> simp only [encPolarity, if_true, if_false, Bool.false_eq_true] <;>
    rcases hct with rfl | rfl <;>
    rw [toInt32_of_range (_ * d) (by omega) (by omega),
      toInt32_of_range _ (by omega) (by omega)] <;>
    omega

theorem mouseDelta_eq (rev : Bool) (prev enc : Nat)
    (hk : toInt32 ((enc : Int) - prev) ≠ -2147483648) :
    mouseDelta rev prev enc = encPolarity rev * toInt32 ((enc : Int) - prev) := by
  obtain ⟨hprod, hne, hct⟩ := encDelta_prod prev enc hk
  have hr := toInt32_range ((enc : Int) - prev)
  unfold mouseDelta
  generalize (encDelta prev enc).1 = d at *
  generalize (encDelta prev enc).2 = c at *
  generalize toInt32 ((enc : Int) - prev) = k at *
  have hd : -2147483648 < d ∧ d < 2147483648 := by
    rcases hct with rfl | rfl <;> omega
  have e1 : toInt32 1 = 1 := by decide
  have e2 : toInt32 (-1) = -1 := by decide
  cases rev <;> simp only [encPolarity, if_true, if_false, Bool.false_eq_true] <;>
    rcases hct with rfl | rfl <;>
    norm_num <;>
    simp only [e1, e2] <;>
    rw [toInt32_of_range _ (by omega) (by omega)] <;>
    omega

/-! ## Claims -/

/-- C1: for 32-bit `prev_enc_val[i]` and `enc_val[i]` whose wrapped difference
`k` (the signed 32-bit reading of `enc_val[i] - prev_enc_val[i]` modulo `2^32`)
is not `INT32_MIN`, and for either polarity, the step
`(ENC_REV[i] ? 1 : -1) * delta * changeType` that `joy_mode` adds to
`cur_enc_val[i]` equals `s * k`, with `s = 1` when reversed and `-1` otherwise;
hence any other pair of counter values with the same wrapped difference, on
either side of the `0 / UINT32_MAX` boundary, gives the same step. -/
theorem C1_joy_step_is_wrapped_difference (rev : Bool) (prev enc : Nat)
    (hprev : prev < 4294967296) (henc : enc < 4294967296)
    (hk : toInt32 ((enc : Int) - prev) ≠ -2147483648) :
    joyStep rev prev enc = (if rev then 1 else -1) * toInt32 ((enc : Int) - prev)
    ∧ ∀ prev2 enc2 : Nat, prev2 < 4294967296 → enc2 < 4294967296 →
        toInt32 ((enc2 : Int) - prev2) = toInt32 ((enc : Int) - prev) →
        joyStep rev prev2 enc2 = joyStep rev prev enc := by
  refine ⟨joyStep_eq rev prev enc hk, ?_⟩
  intro prev2 enc2 _ _ h
  rw [joyStep_eq rev prev enc hk, joyStep_eq rev prev2 enc2 (by rw [h]; exact hk), h]

/-- Witness of C1 at `prev_enc_val[i] = UINT32_MAX - 2`, `enc_val[i] = 1`, not reversed. -/
theorem C1_joy_step_is_wrapped_difference_witness :
    joyStep false 4294967293 1 = (if false then 1 else -1) * toInt32 (((1 : Nat) : Int) - (4294967293 : Nat))
    ∧ ∀ prev2 enc2 : Nat, prev2 < 4294967296 → enc2 < 4294967296 →
        toInt32 ((enc2 : Int) - prev2) = toInt32 (((1 : Nat) : Int) - (4294967293 : Nat)) →
        joyStep false prev2 enc2 = joyStep false 4294967293 1 :=
  C1_joy_step_is_wrapped_difference false 4294967293 1 (by decide) (by decide) (by decide)

/-- C2 (the code at the failing input): with `ENC_ROLLOVER = 192`, for
`prev_enc_val[i] = UINT32_MAX - 2` and `enc_val[i] = 1` the rollover branch of
`joy_mode` is not taken, because `delta` is an `int` holding `-4`: the code
leaves `delta = -4` and `changeType = -1`, where an ordinary increase from 0
to 4 gives `delta = 4` and `changeType = 1`.  Only the products
`delta * changeType` agree. -/
theorem C2_wraparound_delta_and_change_type :
    ENC_ROLLOVER = 192
    ∧ encDelta (UINT32_MAX - 2) 1 = (-4, -1)
    ∧ encDelta 0 4 = (4, 1)
    ∧ (encDelta (UINT32_MAX - 2) 1).1 * (encDelta (UINT32_MAX - 2) 1).2
        = (encDelta 0 4).1 * (encDelta 0 4).2 := by
  decide

/-! ## Loop lemmas -/

theorem forUp_invariant {σ : Type} (P : σ → Prop) (body : Nat → σ → σ)
    (h : ∀ i s, P s → P (body i s)) (n : Nat) (s : σ) (hs : P s) : P (forUp body n s) := by
  induction n with
  | zero => exact hs
  | succ n ih => exact h n _ ih

theorem forDown_invariant {σ : Type} (P : σ → Prop) (body : Nat → σ → σ)
    (h : ∀ i s, P s → P (body i s)) (n : Nat) (s : σ) (hs : P s) : P (forDown body n s) := by
  induction n generalizing s with
  | zero => exact hs
  | succ n ih => exact ih _ (h n s hs)

theorem forUpOpt_invariant {σ : Type} (P : σ → Prop) (body : Nat → σ → Option σ)
    (h : ∀ i s t, P s → body i s = some t → P t) (n : Nat) (s t : σ) (hs : P s)
    (ht : forUpOpt body n s = some t) : P t := by
  induction n generalizing t with
  | zero =>
    simp only [forUpOpt, Option.some.injEq] at ht
    exact ht ▸ hs
  | succ n ih =>
    simp only [forUpOpt, Option.bind_eq_some] at ht
    obtain ⟨u, hu, hut⟩ := ht
    exact h n u t (ih u hu) hut

/-! ## The encoder part of `update_inputs` -/

theorem update_inputs_switch_enc (pins : Nat → Bool) (i : Nat) (s : State) :
    (update_inputs_switch pins i s).enc_debounce_val = s.enc_debounce_val
    ∧ (update_inputs_switch pins i s).enc_debounce_idx = s.enc_debounce_idx
    ∧ (update_inputs_switch pins i s).enc_changed = s.enc_changed
    ∧ (update_inputs_switch pins i s).prev_enc_val = s.prev_enc_val
    ∧ (update_inputs_switch pins i s).cur_enc_val = s.cur_enc_val := by
  unfold update_inputs_switch
  dsimp only
  split_ifs <;> exact ⟨rfl, rfl, rfl, rfl, rfl⟩

theorem update_inputs_enc_val (e : Nat → Nat) (i j : Nat) (s : State) :
    (update_inputs_enc e i s).enc_debounce_val j
      = if j = i then upd (s.enc_debounce_val i) (s.enc_debounce_idx i) (e i)
        else s.enc_debounce_val j := by
  unfold update_inputs_enc
  dsimp only
  split_ifs with h1 h2 h2
  all_goals first
    | (subst h2; simp only [upd, if_true])
    | simp only [upd, if_neg h2]

theorem update_inputs_enc_idx (e : Nat → Nat) (i j : Nat) (s : State) :
    (update_inputs_enc e i s).enc_debounce_idx j
      = if j = i then ((s.enc_debounce_idx i + 1) % 256) % ENC_DEBOUNCE_CYCLES
        else s.enc_debounce_idx j := by
  unfold update_inputs_enc
  dsimp only
  split_ifs with h1 h2 h2
  all_goals first
    | (subst h2; simp only [upd, if_true])
    | simp only [upd, if_neg h2]

theorem update_inputs_enc_changed (e : Nat → Nat) (i j : Nat) (s : State) :
    (update_inputs_enc e i s).enc_changed j
      = if j = i then
          (if e i ≠ (update_inputs_enc e i s).enc_debounce_val i
              (((update_inputs_enc e i s).enc_debounce_idx i + ENC_DEBOUNCE_CYCLES + 1)
                % ENC_DEBOUNCE_CYCLES) then
            debounceScan ((update_inputs_enc e i s).enc_debounce_val i)
              (toInt32 (toU32 (((update_inputs_enc e i s).enc_debounce_val i 0 : Int)
                - (update_inputs_enc e i s).enc_debounce_val i 1)))
              (ENC_DEBOUNCE_CYCLES - 2) 1
          else s.enc_changed i)
        else s.enc_changed j := by
  rw [update_inputs_enc_val, update_inputs_enc_idx]
  simp only [if_true]
  unfold update_inputs_enc
  dsimp only
  by_cases h2 : j = i
  · subst h2
    simp only [if_true]
    split_ifs with h1
    · simp only [upd, if_true]
    · rfl
  · simp only [if_neg h2]
    split_ifs with h1
    · simp only [upd, if_neg h2]
    · rfl

/-- The first half of `update_inputs` leaves the encoder fields alone. -/
theorem update_inputs_switches_enc (pins : Nat → Bool) (s : State) :
    (update_inputs_switches pins s).enc_debounce_val = s.enc_debounce_val
    ∧ (update_inputs_switches pins s).enc_debounce_idx = s.enc_debounce_idx
    ∧ (update_inputs_switches pins s).enc_changed = s.enc_changed
    ∧ (update_inputs_switches pins s).prev_enc_val = s.prev_enc_val
    ∧ (update_inputs_switches pins s).cur_enc_val = s.cur_enc_val := by
  have h := forUp_invariant
      (fun t => t.enc_debounce_val = s.enc_debounce_val
        ∧ t.enc_debounce_idx = s.enc_debounce_idx ∧ t.enc_changed = s.enc_changed
        ∧ t.prev_enc_val = s.prev_enc_val ∧ t.cur_enc_val = s.cur_enc_val)
      (update_inputs_switch pins) (fun i t ht => by
        obtain ⟨h1, h2, h3, h4, h5⟩ := update_inputs_switch_enc pins i t
        exact ⟨h1.trans ht.1, h2.trans ht.2.1, h3.trans ht.2.2.1, h4.trans ht.2.2.2.1,
          h5.trans ht.2.2.2.2⟩) SW_COUNT s ⟨rfl, rfl, rfl, rfl, rfl⟩
  unfold update_inputs_switches
  dsimp only
  split_ifs <;> exact h

theorem update_inputs_val (pins : Nat → Bool) (e : Nat → Nat) (s : State) (i : Nat)
    (hi : i < 2) :
    (update_inputs pins e s).enc_debounce_val i
      = upd (s.enc_debounce_val i) (s.enc_debounce_idx i) (e i) := by
  obtain ⟨h1, h2, _⟩ := update_inputs_switches_enc pins s
  unfold update_inputs
  simp only [ENC_COUNT, forUp]
  interval_cases i <;>
    simp [update_inputs_enc_val, update_inputs_enc_idx, h1, h2]

theorem update_inputs_idx (pins : Nat → Bool) (e : Nat → Nat) (s : State) (i : Nat)
    (hi : i < 2) :
    (update_inputs pins e s).enc_debounce_idx i
      = ((s.enc_debounce_idx i + 1) % 256) % ENC_DEBOUNCE_CYCLES := by
  obtain ⟨_, h2, _⟩ := update_inputs_switches_enc pins s
  unfold update_inputs
  simp only [ENC_COUNT, forUp]
  interval_cases i <;> simp [update_inputs_enc_idx, h2]

theorem update_inputs_changed (pins : Nat → Bool) (e : Nat → Nat) (s : State) (i : Nat)
    (hi : i < 2) :
    (update_inputs pins e s).enc_changed i
      = if e i ≠ (update_inputs pins e s).enc_debounce_val i
            (((update_inputs pins e s).enc_debounce_idx i + ENC_DEBOUNCE_CYCLES + 1)
              % ENC_DEBOUNCE_CYCLES) then
          debounceScan ((update_inputs pins e s).enc_debounce_val i)
            (toInt32 (toU32 (((update_inputs pins e s).enc_debounce_val i 0 : Int)
              - (update_inputs pins e s).enc_debounce_val i 1)))
            (ENC_DEBOUNCE_CYCLES - 2) 1
        else s.enc_changed i := by
  obtain ⟨h1, h2, h3, _⟩ := update_inputs_switches_enc pins s
  rw [update_inputs_val pins e s i hi, update_inputs_idx pins e s i hi]
  unfold update_inputs
  simp only [ENC_COUNT, forUp]
  interval_cases i <;>
    simp [update_inputs_enc_changed, update_inputs_enc_val, update_inputs_enc_idx, h1, h2, h3]

/-! ## Feeding a sequence of raw samples to `update_inputs` -/

theorem feed_inputs_append (pins : Nat → Bool) (l : List (Nat → Nat)) (e : Nat → Nat)
    (s : State) :
    feed_inputs pins (l ++ [e]) s = update_inputs pins e (feed_inputs pins l s) := by
  induction l generalizing s with
  | nil => rfl
  | cons a l ih => exact ih (update_inputs pins a s)

theorem feed_rawSamples_succ (pins : Nat → Bool) (f : Nat → Nat) (n : Nat) (s : State) :
    feed_inputs pins (rawSamples f (n + 1)) s
      = update_inputs pins (fun _ => f (n + 1)) (feed_inputs pins (rawSamples f n) s) := by
  unfold rawSamples
  rw [List.range_succ, List.map_append, List.map_singleton, feed_inputs_append]

/-- After `n` calls from the state left by `init` the cursor is `n % 256`. -/
theorem feed_idx (pins : Nat → Bool) (f : Nat → Nat) (i : Nat) (hi : i < 2) (n : Nat) :
    (feed_inputs pins (rawSamples f n) (init pins)).enc_debounce_idx i = n % 256 := by
  induction n with
  | zero => rfl
  | succ n ih =>
    rw [feed_rawSamples_succ, update_inputs_idx _ _ _ i hi, ih]
    unfold ENC_DEBOUNCE_CYCLES
    omega

/-- After `n` calls the sample of call `m`, one of the last 256, is in slot `(m - 1) % 256`. -/
theorem feed_slot (pins : Nat → Bool) (f : Nat → Nat) (i : Nat) (hi : i < 2) (n m : Nat)
    (h1 : 1 ≤ m) (h2 : m ≤ n) (h3 : n < m + 256) :
    (feed_inputs pins (rawSamples f n) (init pins)).enc_debounce_val i ((m - 1) % 256)
      = f m := by
  induction n with
  | zero => omega
  | succ n ih =>
    rw [feed_rawSamples_succ, update_inputs_val _ _ _ i hi, feed_idx pins f i hi n]
    unfold upd
    by_cases hm : m = n + 1
    · subst hm
      simp
    · have hne : (m - 1) % 256 ≠ n % 256 := by omega
      rw [if_neg hne]
      exact ih (by omega) (by omega)

/-- Slots from 256 on are never written: they keep the zero of `init`. -/
theorem feed_high (pins : Nat → Bool) (f : Nat → Nat) (i : Nat) (hi : i < 2) (n j : Nat)
    (hj : 256 ≤ j) :
    (feed_inputs pins (rawSamples f n) (init pins)).enc_debounce_val i j = 0 := by
  induction n with
  | zero => rfl
  | succ n ih =>
    rw [feed_rawSamples_succ, update_inputs_val _ _ _ i hi, feed_idx pins f i hi n]
    unfold upd
    have hne : j ≠ n % 256 := by omega
    rw [if_neg hne]
    exact ih

/-! ## The debounce scan -/

/-- With `dir ≥ 0` no pair cancels, since a `uint32_t` difference is never below 0. -/
theorem debounceScan_of_nonneg (buf : Nat → Nat) (dir : Int) (hdir : 0 ≤ dir) (n j : Nat) :
    debounceScan buf dir n j = true := by
  induction n generalizing j with
  | zero => rfl
  | succ n ih =>
    unfold debounceScan
    have h : ¬ ((dir > 0 ∧ toU32 ((buf j : Int) - buf (j + 1)) < 0)
        ∨ (dir < 0 ∧ toU32 ((buf j : Int) - buf (j + 1)) > 0)) := by
      rintro (⟨_, h⟩ | ⟨h, _⟩)
      · exact Nat.not_lt_zero _ h
      · omega
    rw [if_neg h]
    exact ih (j + 1)

/-- With `dir < 0` any scanned pair of different values cancels. -/
theorem debounceScan_of_neg (buf : Nat → Nat) (dir : Int) (hdir : dir < 0) (n j k : Nat)
    (hjk : j ≤ k) (hk : k < j + n) (hne : buf k ≠ buf (k + 1))
    (hb1 : buf k < 4294967296) (hb2 : buf (k + 1) < 4294967296) :
    debounceScan buf dir n j = false := by
  induction n generalizing j with
  | zero => omega
  | succ n ih =>
    unfold debounceScan
    split_ifs with h
    · rfl
    · by_cases hj : j = k
      · subst hj
        exfalso
        apply h
        right
        refine ⟨hdir, ?_⟩
        unfold toU32
        omega
      · exact ih (j + 1) (by omega) (by omega)

/-- With `dir < 0` the scan is cancelled at `j = 1` when slots 1 and 2 differ. -/
theorem debounceScan_first_pair (buf : Nat → Nat) (dir : Int) (hdir : dir < 0)
    (hne : buf 1 ≠ buf 2) (hb1 : buf 1 < 4294967296) (hb2 : buf 2 < 4294967296) :
    debounceScan buf dir (ENC_DEBOUNCE_CYCLES - 2) 1 = false :=
  debounceScan_of_neg buf dir hdir _ 1 1 (le_refl 1) (by decide) hne hb1 hb2

/-- The flag after call `n`, in terms of the buffer and cursor after that call. -/
theorem feed_changed_last (pins : Nat → Bool) (f : Nat → Nat) (i : Nat) (hi : i < 2)
    (n : Nat) (hn : 0 < n) :
    (feed_inputs pins (rawSamples f n) (init pins)).enc_changed i
      = if f n ≠ (feed_inputs pins (rawSamples f n) (init pins)).enc_debounce_val i
            (((feed_inputs pins (rawSamples f n) (init pins)).enc_debounce_idx i
              + ENC_DEBOUNCE_CYCLES + 1) % ENC_DEBOUNCE_CYCLES) then
          debounceScan ((feed_inputs pins (rawSamples f n) (init pins)).enc_debounce_val i)
            (toInt32 (toU32
              (((feed_inputs pins (rawSamples f n) (init pins)).enc_debounce_val i 0 : Int)
              - (feed_inputs pins (rawSamples f n) (init pins)).enc_debounce_val i 1)))
            (ENC_DEBOUNCE_CYCLES - 2) 1
        else (feed_inputs pins (rawSamples f (n - 1)) (init pins)).enc_changed i := by
  obtain ⟨k, rfl⟩ : ∃ k, n = k + 1 := ⟨n - 1, by omega⟩
  have h := update_inputs_changed pins (fun _ => f (k + 1))
    (feed_inputs pins (rawSamples f k) (init pins)) i hi
  rw [← feed_rawSamples_succ] at h
  exact h

/-- The run `1, 2, ..., ENC_DEBOUNCE_CYCLES` leaves the flag of encoder `i` false. -/
theorem increasing_run_cancelled (pins : Nat → Bool) (i : Nat) (hi : i < 2) :
    (feed_inputs pins (rawSamples (fun m => m) ENC_DEBOUNCE_CYCLES) (init pins)).enc_changed i
      = false := by
  rw [feed_changed_last pins _ i hi _ (by decide)]
  have hidx : (feed_inputs pins (rawSamples (fun m => m) ENC_DEBOUNCE_CYCLES)
      (init pins)).enc_debounce_idx i = 16 := feed_idx pins (fun m => m) i hi _
  have h0 : (feed_inputs pins (rawSamples (fun m => m) ENC_DEBOUNCE_CYCLES)
      (init pins)).enc_debounce_val i 0 = 9985 := by
    have h := feed_slot pins (fun m => m) i hi ENC_DEBOUNCE_CYCLES 9985 (by decide) (by decide)
      (by decide)
    norm_num [bounceSample] at h
    exact h
  have h1 : (feed_inputs pins (rawSamples (fun m => m) ENC_DEBOUNCE_CYCLES)
      (init pins)).enc_debounce_val i 1 = 9986 := by
    have h := feed_slot pins (fun m => m) i hi ENC_DEBOUNCE_CYCLES 9986 (by decide) (by decide)
      (by decide)
    norm_num [bounceSample] at h
    exact h
  have h2 : (feed_inputs pins (rawSamples (fun m => m) ENC_DEBOUNCE_CYCLES)
      (init pins)).enc_debounce_val i 2 = 9987 := by
    have h := feed_slot pins (fun m => m) i hi ENC_DEBOUNCE_CYCLES 9987 (by decide) (by decide)
      (by decide)
    norm_num [bounceSample] at h
    exact h
  have h17 : (feed_inputs pins (rawSamples (fun m => m) ENC_DEBOUNCE_CYCLES)
      (init pins)).enc_debounce_val i 17 = 9746 := by
    have h := feed_slot pins (fun m => m) i hi ENC_DEBOUNCE_CYCLES 9746 (by decide) (by decide)
      (by decide)
    norm_num [bounceSample] at h
    exact h
  have e17 : (16 + ENC_DEBOUNCE_CYCLES + 1) % ENC_DEBOUNCE_CYCLES = 17 := by decide
  rw [hidx, e17, h17, h0, h1]
  have hne : ENC_DEBOUNCE_CYCLES ≠ 9746 := by decide
  rw [if_pos hne]
  have hdir : toInt32 (toU32 (((9985 : Nat) : Int) - (9986 : Nat))) < 0 := by decide
  refine debounceScan_first_pair _ _ hdir ?_ ?_ ?_
  · rw [h1, h2]; decide
  · rw [h1]; decide
  · rw [h2]; decide

/-- The run `bounceSample 1, ..., bounceSample ENC_DEBOUNCE_CYCLES` leaves the flag true. -/
theorem bounce_run_accepted (pins : Nat → Bool) (i : Nat) (hi : i < 2) :
    (feed_inputs pins (rawSamples bounceSample ENC_DEBOUNCE_CYCLES) (init pins)).enc_changed i
      = true := by
  rw [feed_changed_last pins _ i hi _ (by decide)]
  have hidx : (feed_inputs pins (rawSamples bounceSample ENC_DEBOUNCE_CYCLES)
      (init pins)).enc_debounce_idx i = 16 := feed_idx pins bounceSample i hi _
  have h0 : (feed_inputs pins (rawSamples bounceSample ENC_DEBOUNCE_CYCLES)
      (init pins)).enc_debounce_val i 0 = 7 := by
    have h := feed_slot pins bounceSample i hi ENC_DEBOUNCE_CYCLES 9985 (by decide) (by decide)
      (by decide)
    norm_num [bounceSample] at h
    exact h
  have h1 : (feed_inputs pins (rawSamples bounceSample ENC_DEBOUNCE_CYCLES)
      (init pins)).enc_debounce_val i 1 = 5 := by
    have h := feed_slot pins bounceSample i hi ENC_DEBOUNCE_CYCLES 9986 (by decide) (by decide)
      (by decide)
    norm_num [bounceSample] at h
    exact h
  have h17 : (feed_inputs pins (rawSamples bounceSample ENC_DEBOUNCE_CYCLES)
      (init pins)).enc_debounce_val i 17 = 5 := by
    have h := feed_slot pins bounceSample i hi ENC_DEBOUNCE_CYCLES 9746 (by decide) (by decide)
      (by decide)
    norm_num [bounceSample] at h
    exact h
  have e17 : (16 + ENC_DEBOUNCE_CYCLES + 1) % ENC_DEBOUNCE_CYCLES = 17 := by decide
  rw [hidx, e17, h17, h0, h1]
  have hne : bounceSample ENC_DEBOUNCE_CYCLES ≠ 5 := by decide
  rw [if_pos hne]
  exact debounceScan_of_nonneg _ _ (by decide) _ _

/-- C3 (the code at the failing input): from the state left by `init`, the
strictly increasing raw samples `1, 2, ..., ENC_DEBOUNCE_CYCLES`, fed to
`update_inputs` one per call, leave `enc_changed[i]` false after the
`ENC_DEBOUNCE_CYCLES`-th call, for both encoders: slot 0 holds 9985 and slot 1
holds 9986, so `dir < 0`, and the `uint32_t` difference of slots 1 and 2 is
above 0, which cancels the flag. -/
theorem C3_increasing_run_leaves_flag_false (pins : Nat → Bool) :
    (∀ m : Nat, (fun k : Nat => k) m < (fun k : Nat => k) (m + 1))
    ∧ (feed_inputs pins (rawSamples (fun k => k) ENC_DEBOUNCE_CYCLES) (init pins)).enc_changed 0
        = false
    ∧ (feed_inputs pins (rawSamples (fun k => k) ENC_DEBOUNCE_CYCLES) (init pins)).enc_changed 1
        = false :=
  ⟨fun m => Nat.lt_succ_self m, increasing_run_cancelled pins 0 (by decide),
    increasing_run_cancelled pins 1 (by decide)⟩

/-- C4 (the code at the failing input): from the state left by `init`, where
`enc_changed[i]` is false, the `ENC_DEBOUNCE_CYCLES` raw samples `bounceSample`
contain an increase (5 to 7 at call 9985) and a decrease (7 to 5 at call
9986), yet `enc_changed[i]` is true after the last call of `update_inputs`,
for both encoders: slot 0 holds 7 and slot 1 holds 5, so `dir > 0`, and a
`uint32_t` difference is never below 0. -/
theorem C4_bounce_run_leaves_flag_true (pins : Nat → Bool) :
    (init pins).enc_changed 0 = false ∧ (init pins).enc_changed 1 = false
    ∧ bounceSample 9984 < bounceSample 9985 ∧ bounceSample 9986 < bounceSample 9985
    ∧ (rawSamples bounceSample ENC_DEBOUNCE_CYCLES).length = ENC_DEBOUNCE_CYCLES
    ∧ (feed_inputs pins (rawSamples bounceSample ENC_DEBOUNCE_CYCLES) (init pins)).enc_changed 0
        = true
    ∧ (feed_inputs pins (rawSamples bounceSample ENC_DEBOUNCE_CYCLES) (init pins)).enc_changed 1
        = true :=
  ⟨rfl, rfl, by decide, by decide, by simp [rawSamples],
    bounce_run_accepted pins 0 (by decide), bounce_run_accepted pins 1 (by decide)⟩

/-! ## The encoder loop of `joy_mode` -/

theorem update_inputs_enc_pos (e : Nat → Nat) (i : Nat) (s : State) :
    (update_inputs_enc e i s).prev_enc_val = s.prev_enc_val
    ∧ (update_inputs_enc e i s).cur_enc_val = s.cur_enc_val := by
  unfold update_inputs_enc
  dsimp only
  split_ifs <;> exact ⟨rfl, rfl⟩

/-- Function `update_inputs` leaves `prev_enc_val` and `cur_enc_val` alone. -/
theorem update_inputs_pos (pins : Nat → Bool) (e : Nat → Nat) (s : State) :
    (update_inputs pins e s).prev_enc_val = s.prev_enc_val
    ∧ (update_inputs pins e s).cur_enc_val = s.cur_enc_val := by
  obtain ⟨_, _, _, h4, h5⟩ := update_inputs_switches_enc pins s
  have h := forUp_invariant
    (fun t => t.prev_enc_val = s.prev_enc_val ∧ t.cur_enc_val = s.cur_enc_val)
    (update_inputs_enc e) (fun i t ht => by
      obtain ⟨h1, h2⟩ := update_inputs_enc_pos e i t
      exact ⟨h1.trans ht.1, h2.trans ht.2⟩) ENC_COUNT (update_inputs_switches pins s) ⟨h4, h5⟩
  exact h

theorem joy_mode_button_enc (i : Nat) (a : Nat × State) :
    (joy_mode_button i a).2.enc_changed = a.2.enc_changed
    ∧ (joy_mode_button i a).2.prev_enc_val = a.2.prev_enc_val
    ∧ (joy_mode_button i a).2.cur_enc_val = a.2.cur_enc_val :=
  ⟨rfl, rfl, rfl⟩

/-- The button block of `joy_mode` leaves the encoder fields alone. -/
theorem joy_mode_buttons_enc (s : State) :
    (joy_mode_buttons s).enc_changed = s.enc_changed
    ∧ (joy_mode_buttons s).prev_enc_val = s.prev_enc_val
    ∧ (joy_mode_buttons s).cur_enc_val = s.cur_enc_val := by
  have h := forDown_invariant
    (fun a : Nat × State => a.2.enc_changed = s.enc_changed
      ∧ a.2.prev_enc_val = s.prev_enc_val ∧ a.2.cur_enc_val = s.cur_enc_val)
    joy_mode_button (fun i a ha => by
      obtain ⟨h1, h2, h3⟩ := joy_mode_button_enc i a
      exact ⟨h1.trans ha.1, h2.trans ha.2.1, h3.trans ha.2.2⟩) SW_COUNT (0, s) ⟨rfl, rfl, rfl⟩
  exact h

/-- The encoder body of `joy_mode` when the flag of encoder `i` is set and the
normalisation loop ends with `c`. -/
theorem joy_mode_enc_of_changed (fuel : Nat) (e : Nat → Nat) (i : Nat) (a : Bool × State)
    (c : Int) (h : a.2.enc_changed i = true)
    (hc : normalizeLoop fuel (toInt32 (a.2.cur_enc_val i
      + joyStep (ENC_REV i) (a.2.prev_enc_val i) (e i))) = some c) :
    ∃ b, joy_mode_enc fuel e i a = some b ∧ b.1 = true
      ∧ b.2.cur_enc_val = upd a.2.cur_enc_val i c
      ∧ b.2.prev_enc_val = upd a.2.prev_enc_val i (e i)
      ∧ b.2.enc_changed = upd a.2.enc_changed i false := by
  unfold joy_mode_enc
  simp only [h, if_true, hc, Option.map_some']
  exact ⟨_, rfl, rfl, rfl, rfl, rfl⟩

/-- The encoder body of `joy_mode` when the flag of encoder `i` is clear. -/
theorem joy_mode_enc_of_unchanged (fuel : Nat) (e : Nat → Nat) (i : Nat) (a : Bool × State)
    (h : a.2.enc_changed i = false) :
    ∃ b, joy_mode_enc fuel e i a = some b ∧ b.1 = a.1
      ∧ b.2.cur_enc_val = a.2.cur_enc_val
      ∧ b.2.prev_enc_val = a.2.prev_enc_val
      ∧ b.2.enc_changed = upd a.2.enc_changed i false := by
  unfold joy_mode_enc
  simp only [h, Bool.false_eq_true, if_false, Option.map_some']
  exact ⟨_, rfl, rfl, rfl, rfl, rfl⟩

/-- A non-negative position leaves the normalisation loop at its first test. -/
theorem normalizeLoop_of_nonneg (fuel : Nat) (cur : Int) (h : 0 ≤ cur) :
    normalizeLoop (fuel + 1) cur = some cur := by
  unfold normalizeLoop
  rw [if_neg (by omega)]

/-- A negative position whose reflection `ENC_PULSE - cur` fits an `int` leaves
the normalisation loop after one pass. -/
theorem normalizeLoop_of_neg (fuel : Nat) (cur : Int) (h : cur < 0)
    (hr : -2147483551 ≤ cur) :
    normalizeLoop (fuel + 2) cur = some ((ENC_PULSE : Int) - cur) := by
  have hp : (ENC_PULSE : Int) = 96 := by decide
  unfold normalizeLoop
  rw [if_pos h, toInt32_of_range _ (by omega) (by omega)]
  exact normalizeLoop_of_nonneg fuel _ (by omega)

/-- One pulse on encoder 0 from the state left by `init` sets its flag. -/
theorem firstPulse_flags (pins : Nat → Bool) :
    (update_inputs pins firstPulse (init pins)).enc_changed 0 = true
    ∧ (update_inputs pins firstPulse (init pins)).enc_changed 1 = false := by
  have hv : (init pins).enc_debounce_val = fun _ _ => 0 := rfl
  have hx : (init pins).enc_debounce_idx = fun _ => 0 := rfl
  have hch : (init pins).enc_changed = fun _ => false := rfl
  constructor
  · rw [update_inputs_changed _ _ _ 0 (by decide), update_inputs_val _ _ _ 0 (by decide),
      update_inputs_idx _ _ _ 0 (by decide), hv, hx]
    have h : firstPulse 0 ≠ upd (fun _ => 0) 0
        (firstPulse 0) (((0 + 1) % 256 % ENC_DEBOUNCE_CYCLES
          + ENC_DEBOUNCE_CYCLES + 1) % ENC_DEBOUNCE_CYCLES) := by
      decide
    rw [if_pos h]
    exact debounceScan_of_nonneg _ _ (by decide) _ _
  · rw [update_inputs_changed _ _ _ 1 (by decide), update_inputs_val _ _ _ 1 (by decide),
      update_inputs_idx _ _ _ 1 (by decide), hv, hx, hch]
    have h : ¬ firstPulse 1 ≠ upd (fun _ => 0) 0
        (firstPulse 1) (((0 + 1) % 256 % ENC_DEBOUNCE_CYCLES
          + ENC_DEBOUNCE_CYCLES + 1) % ENC_DEBOUNCE_CYCLES) := by
      decide
    rw [if_neg h]

/-- The encoder loop of `joy_mode` on a state with zero positions, the flag
of encoder 0 set and the counter of encoder 0 at 1. -/
theorem firstPulse_loop (fuel : Nat) (s1 : State) (hc0 : s1.enc_changed 0 = true)
    (hc1 : s1.enc_changed 1 = false) (hp : s1.prev_enc_val = fun _ => 0)
    (hcur : s1.cur_enc_val = fun _ => 0) (a0 : Bool × State)
    (h1 : a0.2.enc_changed = s1.enc_changed) (h2 : a0.2.prev_enc_val = s1.prev_enc_val)
    (h3 : a0.2.cur_enc_val = s1.cur_enc_val) :
    ∃ a, forUpOpt (joy_mode_enc (fuel + 2) firstPulse) ENC_COUNT a0 = some a
      ∧ a.2.cur_enc_val 0 = 97 := by
  have hstep : toInt32 ((0 : Int) + joyStep (ENC_REV 0) 0 (firstPulse 0)) = -1 := by decide
  have hn : normalizeLoop (fuel + 2) (toInt32 (a0.2.cur_enc_val 0
      + joyStep (ENC_REV 0) (a0.2.prev_enc_val 0) (firstPulse 0))) = some 97 := by
    rw [h2, h3, hp, hcur, hstep, normalizeLoop_of_neg fuel (-1) (by decide) (by decide)]
    rfl
  obtain ⟨b, hb, _, hbc, _, hbe⟩ :=
    joy_mode_enc_of_changed (fuel + 2) firstPulse 0 a0 97 (by rw [h1]; exact hc0) hn
  obtain ⟨b2, hb2, _, hb2c, _, _⟩ :=
    joy_mode_enc_of_unchanged (fuel + 2) firstPulse 1 b (by
      rw [hbe, h1]; simp only [upd]; exact hc1)
  refine ⟨b2, ?_, ?_⟩
  · simp only [ENC_COUNT, forUpOpt, Option.some_bind, hb, hb2]
  · rw [hb2c, hbc]
    simp only [upd, if_true]

/-- Function `joy_mode`, transport ready, on a state with zero positions, the
flag of encoder 0 set and the counter of encoder 0 at 1. -/
theorem firstPulse_joy_mode (fuel : Nat) (s1 : State) (hc0 : s1.enc_changed 0 = true)
    (hc1 : s1.enc_changed 1 = false) (hp : s1.prev_enc_val = fun _ => 0)
    (hcur : s1.cur_enc_val = fun _ => 0) :
    ∃ r, joy_mode (fuel + 2) true firstPulse s1 = some r ∧ r.1.cur_enc_val 0 = 97 := by
  obtain ⟨hb1, hb2, hb3⟩ := joy_mode_buttons_enc s1
  unfold joy_mode
  simp only [if_true]
  cases hsw : s1.sw_changed
  · obtain ⟨a, ha, ha2⟩ := firstPulse_loop fuel s1 hc0 hc1 hp hcur (false, s1) rfl rfl rfl
    simp only [Bool.false_eq_true, if_false, ha, Option.map_some']
    exact ⟨_, rfl, ha2⟩
  · obtain ⟨a, ha, ha2⟩ :=
      firstPulse_loop fuel s1 hc0 hc1 hp hcur (true, joy_mode_buttons s1) hb1 hb2 hb3
    simp only [if_true, ha, Option.map_some']
    exact ⟨_, rfl, ha2⟩

/-- After one pulse on encoder 0 from the state left by `init`, `joy_mode`
returns with `cur_enc_val[0] = 97`. -/
theorem firstPulse_position (fuel : Nat) (pins : Nat → Bool) :
    ∃ r, joy_mode (fuel + 2) true firstPulse (update_inputs pins firstPulse (init pins)) = some r
      ∧ r.1.cur_enc_val 0 = 97 :=
  firstPulse_joy_mode fuel _ (firstPulse_flags pins).1 (firstPulse_flags pins).2
    (update_inputs_pos pins firstPulse (init pins)).1
    (update_inputs_pos pins firstPulse (init pins)).2

/-- C5 (the code at the failing input): from the state left by `init`, one
call of `update_inputs` with the counter of encoder 0 at 1 sets
`enc_changed[0]`, and `joy_mode` (transport ready) then returns with
`cur_enc_val[0] = 97`, outside `0 .. ENC_PULSE - 1`: the step is `-1`, and the
loop replaces `-1` by `ENC_PULSE - (-1)`. -/
theorem C5_position_leaves_range (fuel : Nat) (pins : Nat → Bool) :
    ∃ r, joy_mode (fuel + 2) true firstPulse (update_inputs pins firstPulse (init pins)) = some r
      ∧ r.1.cur_enc_val 0 = 97 ∧ ¬ (r.1.cur_enc_val 0 < (ENC_PULSE : Int)) := by
  obtain ⟨r, hr, h97⟩ := firstPulse_position fuel pins
  exact ⟨r, hr, h97, by rw [h97]; decide⟩

/-! ## Frame and report lemmas for `joy_mode` -/

/-- What the encoder body of `joy_mode` leaves alone, and the axis bytes it stores. -/
theorem joy_mode_enc_frame (fuel : Nat) (e : Nat → Nat) (i : Nat) (a b : Bool × State)
    (h : joy_mode_enc fuel e i a = some b) :
    (b.2.sw_val = a.2.sw_val ∧ b.2.prev_sw_val = a.2.prev_sw_val
      ∧ b.2.sw_changed = a.2.sw_changed ∧ b.2.report.buttons = a.2.report.buttons)
    ∧ (b.2.leds_changed = a.2.leds_changed
      ∧ b.2.reactive_timeout_count = a.2.reactive_timeout_count
      ∧ b.2.loop_mode = a.2.loop_mode ∧ b.2.lights_report = a.2.lights_report
      ∧ b.2.gpio_out = a.2.gpio_out)
    ∧ (b.2.report.joy0 = axisByte (b.2.cur_enc_val 0)
      ∧ b.2.report.joy1 = axisByte (b.2.cur_enc_val 1)) := by
  unfold joy_mode_enc at h
  dsimp only at h
  split_ifs at h with hc
  · cases hn : normalizeLoop fuel (toInt32 (a.2.cur_enc_val i
        + joyStep (ENC_REV i) (a.2.prev_enc_val i) (e i))) with
    | none =>
      rw [hn] at h
      simp only [Option.map_none', reduceCtorEq] at h
    | some c =>
      rw [hn] at h
      simp only [Option.map_some', Option.some.injEq] at h
      subst h
      exact ⟨⟨rfl, rfl, rfl, rfl⟩, ⟨rfl, rfl, rfl, rfl, rfl⟩, rfl, rfl⟩
  · simp only [Option.map_some', Option.some.injEq] at h
    subst h
    exact ⟨⟨rfl, rfl, rfl, rfl⟩, ⟨rfl, rfl, rfl, rfl, rfl⟩, rfl, rfl⟩

/-- The encoder loop of `joy_mode`, when it returns. -/
theorem joy_mode_loop_frame (fuel : Nat) (e : Nat → Nat) (a0 a : Bool × State)
    (h : forUpOpt (joy_mode_enc fuel e) ENC_COUNT a0 = some a) :
    (a.2.sw_val = a0.2.sw_val ∧ a.2.prev_sw_val = a0.2.prev_sw_val
      ∧ a.2.sw_changed = a0.2.sw_changed ∧ a.2.report.buttons = a0.2.report.buttons)
    ∧ (a.2.leds_changed = a0.2.leds_changed
      ∧ a.2.reactive_timeout_count = a0.2.reactive_timeout_count
      ∧ a.2.loop_mode = a0.2.loop_mode ∧ a.2.lights_report = a0.2.lights_report
      ∧ a.2.gpio_out = a0.2.gpio_out)
    ∧ (a.2.report.joy0 = axisByte (a.2.cur_enc_val 0)
      ∧ a.2.report.joy1 = axisByte (a.2.cur_enc_val 1)) := by
  simp only [ENC_COUNT, forUpOpt, Option.some_bind, Option.bind_eq_some] at h
  obtain ⟨u, hu, hua⟩ := h
  obtain ⟨⟨u1, u2, u3, u4⟩, ⟨u5, u6, u7, u8, u9⟩, _⟩ := joy_mode_enc_frame fuel e 0 a0 u hu
  obtain ⟨⟨v1, v2, v3, v4⟩, ⟨v5, v6, v7, v8, v9⟩, hj⟩ := joy_mode_enc_frame fuel e 1 u a hua
  exact ⟨⟨v1.trans u1, v2.trans u2, v3.trans u3, v4.trans u4⟩,
    ⟨v5.trans u5, v6.trans u6, v7.trans u7, v8.trans u8, v9.trans u9⟩, hj⟩

/-- The encoder body of `joy_mode` returns when its normalisation loop ends. -/
theorem joy_mode_enc_returns (fuel : Nat) (e : Nat → Nat) (i : Nat) (a : Bool × State)
    (h : a.2.enc_changed i = true → (normalizeLoop fuel (toInt32 (a.2.cur_enc_val i
      + joyStep (ENC_REV i) (a.2.prev_enc_val i) (e i)))).isSome = true) :
    ∃ b, joy_mode_enc fuel e i a = some b
      ∧ (∀ j, j ≠ i → b.2.enc_changed j = a.2.enc_changed j
          ∧ b.2.cur_enc_val j = a.2.cur_enc_val j ∧ b.2.prev_enc_val j = a.2.prev_enc_val j) := by
  cases hc : a.2.enc_changed i
  · obtain ⟨b, hb, _, h2, h3, h4⟩ := joy_mode_enc_of_unchanged fuel e i a hc
    refine ⟨b, hb, fun j hj => ?_⟩
    rw [h2, h3, h4]
    simp only [upd, if_neg hj, and_self]
  · obtain ⟨c, hcn⟩ := Option.isSome_iff_exists.mp (h hc)
    obtain ⟨b, hb, _, h2, h3, h4⟩ := joy_mode_enc_of_changed fuel e i a c hc hcn
    refine ⟨b, hb, fun j hj => ?_⟩
    rw [h2, h3, h4]
    simp only [upd, if_neg hj, and_self]

/-- The encoder loop of `joy_mode` returns when the normalisation loop of each
flagged encoder ends. -/
theorem joy_mode_loop_returns (fuel : Nat) (e : Nat → Nat) (a0 : Bool × State)
    (h : ∀ i, i < 2 → a0.2.enc_changed i = true →
      (normalizeLoop fuel (toInt32 (a0.2.cur_enc_val i
        + joyStep (ENC_REV i) (a0.2.prev_enc_val i) (e i)))).isSome = true) :
    ∃ a, forUpOpt (joy_mode_enc fuel e) ENC_COUNT a0 = some a := by
  obtain ⟨u, hu, hframe⟩ := joy_mode_enc_returns fuel e 0 a0 (h 0 (by decide))
  obtain ⟨f1, f2, f3⟩ := hframe 1 (by decide)
  obtain ⟨a, ha, _⟩ := joy_mode_enc_returns fuel e 1 u (by
    rw [f1, f2, f3]; exact h 1 (by decide))
  exact ⟨a, by simp only [ENC_COUNT, forUpOpt, Option.some_bind, hu, ha]⟩

/-- Function `joy_mode` returns when the normalisation loop of each flagged encoder ends. -/
theorem joy_mode_returns (fuel : Nat) (ready : Bool) (e : Nat → Nat) (s : State)
    (h : ∀ i, i < 2 → s.enc_changed i = true →
      (normalizeLoop fuel (toInt32 (s.cur_enc_val i
        + joyStep (ENC_REV i) (s.prev_enc_val i) (e i)))).isSome = true) :
    ∃ r, joy_mode fuel ready e s = some r := by
  obtain ⟨hb1, hb2, hb3⟩ := joy_mode_buttons_enc s
  unfold joy_mode
  cases ready
  · exact ⟨_, rfl⟩
  · simp only [if_true]
    cases hsw : s.sw_changed
    · obtain ⟨a, ha⟩ := joy_mode_loop_returns fuel e (false, s) h
      simp only [Bool.false_eq_true, if_false, ha, Option.map_some']
      exact ⟨_, rfl⟩
    · obtain ⟨a, ha⟩ := joy_mode_loop_returns fuel e (true, joy_mode_buttons s) (by
        intro i hi
        show (joy_mode_buttons s).enc_changed i = true → _
        rw [hb1]
        show _ → (normalizeLoop fuel (toInt32 ((joy_mode_buttons s).cur_enc_val i +
          joyStep (ENC_REV i) ((joy_mode_buttons s).prev_enc_val i) (e i)))).isSome = true
        rw [hb2, hb3]
        exact h i hi)
      simp only [if_true, ha, Option.map_some']
      exact ⟨_, rfl⟩

/-- The axis bytes of the report after `joy_mode`, transport ready. -/
theorem joy_mode_axes (fuel : Nat) (e : Nat → Nat) (s : State) (r : State × List HidOut)
    (h : joy_mode fuel true e s = some r) :
    r.1.report.joy0 = axisByte (r.1.cur_enc_val 0)
    ∧ r.1.report.joy1 = axisByte (r.1.cur_enc_val 1) := by
  unfold joy_mode at h
  simp only [if_true, Option.map_eq_some'] at h
  obtain ⟨a, ha, rfl⟩ := h
  exact (joy_mode_loop_frame fuel e _ a ha).2.2

/-- The binary64 computation of the axis byte agrees with exact arithmetic on `0 .. 95`. -/
theorem axisByte_exact : ∀ n : Nat, n < 96 →
    axisByte (n : Int) = 256 * n / 96 ∧ axisByte (n : Int) < 256 := by
  decide

/-- C6: with `ENC_PULSE = 96`, for every position `p` with `0 ≤ p < 96` the
axis byte that `joy_mode` stores, `((double)p / ENC_PULSE) * 256` converted to
`uint8_t`, equals `floor(256 * p / 96)` of exact arithmetic and is below 256;
position 48 gives 128; and when `joy_mode` runs with the transport ready (and
its normalisation loops end) it returns with `report.joy0` computed from
`cur_enc_val[0]` and `report.joy1` from `cur_enc_val[1]`. -/
theorem C6_axis_scaling :
    (∀ p : Int, 0 ≤ p → p < (ENC_PULSE : Int) →
      (axisByte p : Int) = 256 * p / 96 ∧ axisByte p < 256)
    ∧ axisByte 48 = 128
    ∧ (∀ (fuel : Nat) (e : Nat → Nat) (s : State),
        (∀ i, i < 2 → s.enc_changed i = true →
          (normalizeLoop fuel (toInt32 (s.cur_enc_val i
            + joyStep (ENC_REV i) (s.prev_enc_val i) (e i)))).isSome = true) →
        ∃ r, joy_mode fuel true e s = some r
          ∧ r.1.report.joy0 = axisByte (r.1.cur_enc_val 0)
          ∧ r.1.report.joy1 = axisByte (r.1.cur_enc_val 1)) := by
  refine ⟨?_, by decide, ?_⟩
  · intro p h0 h1
    have hp : (ENC_PULSE : Int) = 96 := by decide
    obtain ⟨n, rfl⟩ := Int.eq_ofNat_of_zero_le h0
    obtain ⟨h2, h3⟩ := axisByte_exact n (by omega)
    exact ⟨by omega, h3⟩
  · intro fuel e s h
    obtain ⟨r, hr⟩ := joy_mode_returns fuel true e s h
    exact ⟨r, hr, joy_mode_axes fuel e s r hr⟩

/-- Witness of C6 at position 48 and at `joy_mode` on the state left by `init`. -/
theorem C6_axis_scaling_witness :
    ((axisByte 48 : Int) = 256 * 48 / 96 ∧ axisByte 48 < 256)
    ∧ ∃ r, joy_mode 1 true (fun _ => 0) (init (fun _ => true)) = some r
        ∧ r.1.report.joy0 = axisByte (r.1.cur_enc_val 0)
        ∧ r.1.report.joy1 = axisByte (r.1.cur_enc_val 1) :=
  ⟨C6_axis_scaling.1 48 (by decide) (by decide),
    C6_axis_scaling.2.2 1 (fun _ => 0) (init (fun _ => true))
      (fun _ _ h => Bool.noConfusion h)⟩

/-! ## The button block of `joy_mode` -/

theorem buttonMask_succ (sw : Nat → Bool) (n : Nat) :
    buttonMask sw (n + 1) = buttonMask sw n + (if sw n then 2 ^ n else 0) := by
  unfold buttonMask
  rw [Finset.sum_range_succ]

theorem buttonMask_lt (sw : Nat → Bool) (n : Nat) : buttonMask sw n < 2 ^ n := by
  induction n with
  | zero => simp [buttonMask]
  | succ n ih =>
    rw [buttonMask_succ, pow_succ]
    split_ifs <;> omega

/-- Bit `i` of the mask is set exactly when `i < n` and switch `i` is pressed. -/
theorem buttonMask_testBit (sw : Nat → Bool) (n i : Nat) :
    (buttonMask sw n).testBit i = (decide (i < n) && sw i) := by
  induction n with
  | zero => simp [buttonMask]
  | succ n ih =>
    rw [buttonMask_succ]
    have hlt := buttonMask_lt sw n
    rcases Nat.lt_trichotomy i n with h | h | h
    · have e : (decide (i < n + 1)) = true := by simp; omega
      have e2 : (decide (i < n)) = true := by simp; omega
      rw [e, Bool.true_and]
      rw [e2, Bool.true_and] at ih
      split_ifs with hs
      · rw [Nat.add_comm, Nat.testBit_two_pow_add_gt h, ih]
      · rw [Nat.add_zero, ih]
    · subst h
      have e : (decide (i < i + 1)) = true := by simp
      rw [e, Bool.true_and]
      have e2 : (buttonMask sw i).testBit i = false := Nat.testBit_lt_two_pow hlt
      split_ifs with hs
      · rw [Nat.add_comm, Nat.testBit_two_pow_add_eq, e2, hs]
        rfl
      · rw [Nat.add_zero, e2]
        simpa using hs
    · have e : (decide (i < n + 1)) = false := by simp; omega
      rw [e, Bool.false_and]
      apply Nat.testBit_lt_two_pow
      have h1 : 2 ^ (n + 1) ≤ 2 ^ i := Nat.pow_le_pow_right (by decide) (by omega)
      have h2 : buttonMask sw n + (if sw n = true then 2 ^ n else 0) < 2 ^ (n + 1) := by
        rw [pow_succ]
        split_ifs <;> omega
      omega

theorem shiftLeft_one_lor_bit (t : Nat) (b : Bool) :
    (t <<< 1) ||| (if b then 1 else 0) = 2 * t + (if b then 1 else 0) := by
  have h : (if b then 1 else 0) < 2 ^ 1 := by cases b <;> decide
  have h2 := Nat.mul_add_lt_is_or h t
  rw [Nat.shiftLeft_eq, Nat.mul_comm, ← h2]

/-- The button loop of `joy_mode` from switch `n - 1` down to switch 0. -/
theorem joy_mode_button_loop (n : Nat) (t : Nat) (st : State) :
    (forDown joy_mode_button n (t, st)).2.sw_val = st.sw_val
    ∧ (∀ j, (forDown joy_mode_button n (t, st)).2.prev_sw_val j
        = if j < n then st.sw_val j else st.prev_sw_val j)
    ∧ ((t + 1) * 2 ^ n ≤ 65536 →
        (forDown joy_mode_button n (t, st)).1 = t * 2 ^ n + buttonMask st.sw_val n) := by
  induction n generalizing t st with
  | zero =>
    refine ⟨rfl, fun j => ?_, fun _ => ?_⟩
    · simp [forDown]
    · simp [forDown, buttonMask]
  | succ n ih =>
    obtain ⟨h1, h2, h3⟩ := ih (((t <<< 1) ||| (if st.sw_val n then 1 else 0)) % 65536)
      { st with prev_sw_val := upd st.prev_sw_val n (st.sw_val n) }
    refine ⟨h1, fun j => ?_, fun hb => ?_⟩
    · show (forDown joy_mode_button n (joy_mode_button n (t, st))).2.prev_sw_val j = _
      show (forDown joy_mode_button n ((((t <<< 1) ||| (if st.sw_val n then 1 else 0)) % 65536),
        { st with prev_sw_val := upd st.prev_sw_val n (st.sw_val n) })).2.prev_sw_val j = _
      rw [h2 j]
      simp only [upd]
      by_cases hj : j < n
      · rw [if_pos hj, if_pos (by omega)]
      · rw [if_neg hj]
        by_cases hjn : j = n
        · subst hjn
          rw [if_pos rfl, if_pos (by omega)]
        · rw [if_neg hjn, if_neg (by omega)]
    · show (forDown joy_mode_button n ((((t <<< 1) ||| (if st.sw_val n then 1 else 0)) % 65536),
        { st with prev_sw_val := upd st.prev_sw_val n (st.sw_val n) })).1 = _
      have hpos : 1 ≤ 2 ^ n := Nat.two_pow_pos n
      have hbit : (if st.sw_val n then 1 else 0) ≤ 1 := by split_ifs <;> omega
      have e1 : (t + 1) * 2 ^ (n + 1) = (2 * t + 2) * 2 ^ n := by rw [pow_succ]; ring
      rw [e1] at hb
      have ht : 2 * t + 2 ≤ 65536 := le_trans (Nat.le_mul_of_pos_right _ hpos) hb
      have hnext : (2 * t + (if st.sw_val n then 1 else 0) + 1) * 2 ^ n ≤ 65536 :=
        le_trans (Nat.mul_le_mul_right _ (by omega)) hb
      rw [shiftLeft_one_lor_bit] at h3 ⊢
      rw [Nat.mod_eq_of_lt (by omega)] at h3 ⊢
      rw [h3 hnext, buttonMask_succ, pow_succ]
      split_ifs <;> ring

/-- The button block of `joy_mode`. -/
theorem joy_mode_buttons_spec (s : State) :
    (joy_mode_buttons s).report.buttons = buttonMask s.sw_val SW_COUNT
    ∧ (∀ i, i < SW_COUNT → (joy_mode_buttons s).prev_sw_val i = s.sw_val i)
    ∧ (joy_mode_buttons s).sw_val = s.sw_val
    ∧ (joy_mode_buttons s).sw_changed = false := by
  obtain ⟨h1, h2, h3⟩ := joy_mode_button_loop SW_COUNT 0 s
  refine ⟨?_, fun i hi => ?_, h1, rfl⟩
  · show (forDown joy_mode_button SW_COUNT (0, s)).1 = _
    rw [h3 (by decide)]
    simp
  · show (forDown joy_mode_button SW_COUNT (0, s)).2.prev_sw_val i = _
    rw [h2 i, if_pos hi]

/-- C8: for every switch-state vector, when `joy_mode` runs with the transport
ready and `sw_changed` set (and its normalisation loops end), it returns with
`report.buttons` equal to the sum over `i` in `0..10` of
`sw_val[i] ? 2^i : 0`, that is, bit `i` is set iff `i < 11` and switch `i` is
pressed, so bits 11..15 are zero; afterwards `prev_sw_val[i] = sw_val[i]` for
every switch, `sw_val` is as before and `sw_changed` is false. -/
theorem C8_joystick_button_packing (fuel : Nat) (e : Nat → Nat) (s : State)
    (hsw : s.sw_changed = true)
    (hterm : ∀ i, i < 2 → s.enc_changed i = true →
      (normalizeLoop fuel (toInt32 (s.cur_enc_val i
        + joyStep (ENC_REV i) (s.prev_enc_val i) (e i)))).isSome = true) :
    ∃ r, joy_mode fuel true e s = some r
      ∧ r.1.report.buttons
          = Finset.sum (Finset.range 11) (fun i => if s.sw_val i then 2 ^ i else 0)
      ∧ (∀ i, r.1.report.buttons.testBit i = (decide (i < 11) && s.sw_val i))
      ∧ (∀ i, i < 11 → r.1.prev_sw_val i = r.1.sw_val i)
      ∧ r.1.sw_val = s.sw_val
      ∧ r.1.sw_changed = false := by
  obtain ⟨r, hr⟩ := joy_mode_returns fuel true e s hterm
  refine ⟨r, hr, ?_⟩
  unfold joy_mode at hr
  simp only [if_true, hsw, Option.map_eq_some'] at hr
  obtain ⟨a, ha, rfl⟩ := hr
  obtain ⟨⟨f1, f2, f3, f4⟩, _, _⟩ := joy_mode_loop_frame fuel e _ a ha
  obtain ⟨b1, b2, b3, b4⟩ := joy_mode_buttons_spec s
  have hbut : a.2.report.buttons = buttonMask s.sw_val SW_COUNT := f4.trans b1
  refine ⟨hbut, fun i => ?_, fun i hi => ?_, f1.trans b3, f3.trans b4⟩
  · rw [hbut]
    exact buttonMask_testBit s.sw_val SW_COUNT i
  · show a.2.prev_sw_val i = a.2.sw_val i
    rw [f2, f1]
    show (joy_mode_buttons s).prev_sw_val i = (joy_mode_buttons s).sw_val i
    rw [b2 i hi, b3]

/-- Witness of C8: switch 3 alone pressed, on the state left by `init` with
`sw_changed` set. -/
theorem C8_joystick_button_packing_witness :
    ∃ r, joy_mode 1 true (fun _ => 0)
        { init (fun _ => true) with sw_changed := true, sw_val := fun i => decide (i = 3) }
        = some r
      ∧ r.1.report.buttons
          = Finset.sum (Finset.range 11) (fun i => if decide (i = 3) then 2 ^ i else 0)
      ∧ (∀ i, r.1.report.buttons.testBit i = (decide (i < 11) && decide (i = 3)))
      ∧ (∀ i, i < 11 → r.1.prev_sw_val i = r.1.sw_val i)
      ∧ r.1.sw_val = (fun i => decide (i = 3))
      ∧ r.1.sw_changed = false :=
  C8_joystick_button_packing 1 (fun _ => 0)
    { init (fun _ => true) with sw_changed := true, sw_val := fun i => decide (i = 3) }
    rfl (fun _ _ h => Bool.noConfusion h)

/-! ## The keyboard report of `key_mode` -/

/-- Setting bit `bit` of a byte. -/
theorem byte_set_bit (x bit k : Nat) (hx : x < 256) (hbit : bit < 8) :
    (x ||| (1 <<< bit)) % 256 < 256
    ∧ (((x ||| (1 <<< bit)) % 256).testBit k = true ↔ (x.testBit k = true ∨ k = bit)) := by
  have h1 : (1 <<< bit) < 2 ^ 8 := by
    rw [Nat.one_shiftLeft]
    exact Nat.pow_lt_pow_right (by decide) hbit
  have h2 : x ||| (1 <<< bit) < 2 ^ 8 := Nat.or_lt_two_pow (by omega) h1
  have h3 : (x ||| (1 <<< bit)) % 256 = x ||| (1 <<< bit) := Nat.mod_eq_of_lt (by omega)
  refine ⟨Nat.mod_lt _ (by decide), ?_⟩
  rw [h3, Nat.testBit_or, Nat.one_shiftLeft, Nat.testBit_two_pow, Bool.or_eq_true,
    decide_eq_true_eq]
  constructor
  · rintro (h | h)
    · exact Or.inl h
    · exact Or.inr h.symm
  · rintro (h | h)
    · exact Or.inl h
    · exact Or.inr h.symm

theorem key_mode_switch_fst (kc : Nat → Nat) (n : Nat) (R : Nat → Nat) (st : State) :
    (key_mode_switch kc n (R, st)).1
      = if st.sw_val n = true then
          (if kc n ≥ 240 ∧ kc n ≤ 247 then
            upd R 0 ((R 0 ||| (1 <<< (kc n % 8))) % 256)
          else if (kc n / 8 + 1) % 256 > 0 ∧ (kc n / 8 + 1) % 256 ≤ 31 then
            upd R ((kc n / 8 + 1) % 256)
              ((R ((kc n / 8 + 1) % 256) ||| (1 <<< (kc n % 8))) % 256)
          else R)
        else R := by
  unfold key_mode_switch
  dsimp only
  split_ifs <;> rfl

/-- Storing a byte with one more bit set. -/
theorem upd_set_bit (R : Nat → Nat) (hR : ∀ b, R b < 256) (B bit : Nat) (hbit : bit < 8) :
    (∀ b, upd R B ((R B ||| (1 <<< bit)) % 256) b < 256)
    ∧ (∀ b k, (upd R B ((R B ||| (1 <<< bit)) % 256) b).testBit k = true
        ↔ ((R b).testBit k = true ∨ (b = B ∧ k = bit)))
    ∧ (∀ b, b ≠ B → upd R B ((R B ||| (1 <<< bit)) % 256) b = R b) := by
  refine ⟨fun b => ?_, fun b k => ?_, fun b hb => ?_⟩
  · unfold upd
    split_ifs
    · exact (byte_set_bit (R B) bit 0 (hR B) hbit).1
    · exact hR b
  · unfold upd
    split_ifs with h
    · subst h
      rw [(byte_set_bit (R b) bit k (hR b) hbit).2]
      simp
    · simp [h]
  · unfold upd
    rw [if_neg hb]

/-- Effect of the switch body of `key_mode` on `nkro_report`. -/
theorem key_mode_switch_report (kc : Nat → Nat) (n : Nat) (hc : kc n < 256)
    (R : Nat → Nat) (st : State) (hR : ∀ b, R b < 256) :
    (∀ b, (key_mode_switch kc n (R, st)).1 b < 256)
    ∧ (∀ b k, ((key_mode_switch kc n (R, st)).1 b).testBit k = true
        ↔ ((R b).testBit k = true ∨ (st.sw_val n = true ∧ nkroTarget (kc n) b k)))
    ∧ (∀ b, 32 ≤ b → (key_mode_switch kc n (R, st)).1 b = R b) := by
  have hbit : kc n % 8 < 8 := Nat.mod_lt _ (by decide)
  have hbyte : (kc n / 8 + 1) % 256 = kc n / 8 + 1 := Nat.mod_eq_of_lt (by omega)
  rw [key_mode_switch_fst, hbyte]
  unfold nkroTarget
  cases hs : st.sw_val n
  · simp only [Bool.false_eq_true, if_false, false_and, or_false]
    exact ⟨hR, fun _ _ => trivial, fun _ _ => trivial⟩
  · simp only [if_true, true_and]
    by_cases h1 : kc n ≥ 240 ∧ kc n ≤ 247
    · rw [if_pos h1]
      obtain ⟨u1, u2, u3⟩ := upd_set_bit R hR 0 (kc n % 8) hbit
      refine ⟨u1, fun b k => ?_, fun b hb => u3 b (by omega)⟩
      rw [u2 b k]
      constructor
      · rintro (h | ⟨h, h'⟩)
        · exact Or.inl h
        · exact Or.inr (Or.inl ⟨h1.1, h1.2, h, h'⟩)
      · rintro (h | h | h)
        · exact Or.inl h
        · exact Or.inr ⟨h.2.2.1, h.2.2.2⟩
        · omega
    · rw [if_neg h1]
      by_cases h2 : kc n / 8 + 1 > 0 ∧ kc n / 8 + 1 ≤ 31
      · rw [if_pos h2]
        obtain ⟨u1, u2, u3⟩ := upd_set_bit R hR (kc n / 8 + 1) (kc n % 8) hbit
        refine ⟨u1, fun b k => ?_, fun b hb => u3 b (by omega)⟩
        rw [u2 b k]
        constructor
        · rintro (h | ⟨h, h'⟩)
          · exact Or.inl h
          · exact Or.inr (Or.inr ⟨by omega, h, h'⟩)
        · rintro (h | h | h)
          · exact Or.inl h
          · omega
          · exact Or.inr ⟨h.2.1, h.2.2⟩
      · rw [if_neg h2]
        refine ⟨hR, fun b k => ?_, fun _ _ => rfl⟩
        constructor
        · exact Or.inl
        · rintro (h | h | h)
          · exact h
          · omega
          · omega

/-- The switch body of `key_mode` changes only `prev_sw_val`, at index `n`. -/
theorem key_mode_switch_snd (kc : Nat → Nat) (n : Nat) (R : Nat → Nat) (st : State) :
    (key_mode_switch kc n (R, st)).2
      = { st with prev_sw_val :=
            if st.sw_val n = true then upd st.prev_sw_val n (st.sw_val n)
            else st.prev_sw_val } := by
  unfold key_mode_switch
  dsimp only
  split_ifs <;> rfl

/-- The switch loop of `key_mode` over the first `n` switches. -/
theorem key_mode_switch_loop (kc : Nat → Nat) (hkc : ∀ i, kc i < 256) (s : State) (n : Nat) :
    (∃ q, (forUp (key_mode_switch kc) n (fun _ => 0, s)).2 = { s with prev_sw_val := q }
      ∧ ∀ j, q j = if j < n ∧ s.sw_val j = true then true else s.prev_sw_val j)
    ∧ (∀ b, (forUp (key_mode_switch kc) n (fun _ => 0, s)).1 b < 256)
    ∧ (∀ b k, ((forUp (key_mode_switch kc) n (fun _ => 0, s)).1 b).testBit k = true
        ↔ ∃ i, i < n ∧ s.sw_val i = true ∧ nkroTarget (kc i) b k)
    ∧ (∀ b, 32 ≤ b → (forUp (key_mode_switch kc) n (fun _ => 0, s)).1 b = 0) := by
  induction n with
  | zero =>
    refine ⟨⟨s.prev_sw_val, rfl, fun j => by simp⟩, fun b => by simp [forUp],
      fun b k => by simp [forUp], fun b _ => rfl⟩
  | succ n ih =>
    obtain ⟨⟨q, hq, hq2⟩, hlt, hbits, hhigh⟩ := ih
    have hstep : forUp (key_mode_switch kc) (n + 1) (fun _ => 0, s)
        = key_mode_switch kc n ((forUp (key_mode_switch kc) n (fun _ => 0, s)).1,
            (forUp (key_mode_switch kc) n (fun _ => 0, s)).2) := rfl
    rw [hstep]
    obtain ⟨v1, v2, v3⟩ := key_mode_switch_report kc n (hkc n)
      (forUp (key_mode_switch kc) n (fun _ => 0, s)).1
      (forUp (key_mode_switch kc) n (fun _ => 0, s)).2 hlt
    have hsw : (forUp (key_mode_switch kc) n (fun _ => 0, s)).2.sw_val = s.sw_val := by
      rw [hq]
    refine ⟨?_, v1, fun b k => ?_, fun b hb => ?_⟩
    · rw [key_mode_switch_snd, hq]
      refine ⟨_, rfl, fun j => ?_⟩
      dsimp only
      by_cases hs : s.sw_val n = true
      · rw [if_pos hs]
        unfold upd
        by_cases hj : j = n
        · subst hj
          rw [if_pos rfl, if_pos ⟨by omega, hs⟩, hs]
        · rw [if_neg hj, hq2 j]
          by_cases hj2 : j < n ∧ s.sw_val j = true
          · rw [if_pos hj2, if_pos ⟨by omega, hj2.2⟩]
          · rw [if_neg hj2, if_neg (by
              rintro ⟨h1, h2⟩
              exact hj2 ⟨by omega, h2⟩)]
      · rw [if_neg hs, hq2 j]
        by_cases hj2 : j < n ∧ s.sw_val j = true
        · rw [if_pos hj2, if_pos ⟨by omega, hj2.2⟩]
        · rw [if_neg hj2, if_neg (by
            rintro ⟨h1, h2⟩
            by_cases hjn : j = n
            · subst hjn; exact hs h2
            · exact hj2 ⟨by omega, h2⟩)]
    · rw [v2 b k, hbits b k, hsw]
      constructor
      · rintro (⟨i, hi, h⟩ | h)
        · exact ⟨i, by omega, h⟩
        · exact ⟨n, by omega, h⟩
      · rintro ⟨i, hi, h⟩
        by_cases hin : i = n
        · subst hin; exact Or.inr h
        · exact Or.inl ⟨i, by omega, h⟩
    · rw [v3 b hb, hhigh b hb]

/-! ## The shape of `update_inputs` -/

theorem update_inputs_switch_eq (pins : Nat → Bool) (i : Nat) (s : State) :
    update_inputs_switch pins i s
      = { s with
          sw_val := upd s.sw_val i (!pins ( SW_GPIO i))
          sw_changed := s.sw_changed || ((!pins ( SW_GPIO i)) != s.prev_sw_val i) } := by
  unfold update_inputs_switch
  cases hp : pins ( SW_GPIO i) <;> cases hc : s.sw_changed <;> cases hv : s.prev_sw_val i <;>
    simp [upd, hc, hv]

/-- The switch loop of `update_inputs` over the first `n` switches. -/
theorem update_inputs_switch_loop (pins : Nat → Bool) (s : State) (n : Nat) :
    ∃ v w, forUp (update_inputs_switch pins) n s = { s with sw_val := v, sw_changed := w }
      ∧ (∀ j, v j = if j < n then !pins ( SW_GPIO j) else s.sw_val j)
      ∧ (w = true ↔ (s.sw_changed = true
          ∨ ∃ i, i < n ∧ (!pins ( SW_GPIO i)) ≠ s.prev_sw_val i)) := by
  induction n with
  | zero =>
    exact ⟨s.sw_val, s.sw_changed, rfl, fun j => by simp, by simp⟩
  | succ n ih =>
    obtain ⟨v, w, h, hv, hw⟩ := ih
    have hstep : forUp (update_inputs_switch pins) (n + 1) s
        = update_inputs_switch pins n (forUp (update_inputs_switch pins) n s) := rfl
    rw [hstep, h, update_inputs_switch_eq]
    refine ⟨_, _, rfl, fun j => ?_, ?_⟩
    · dsimp only
      unfold upd
      by_cases hj : j = n
      · subst hj
        rw [if_pos rfl, if_pos (by omega)]
      · rw [if_neg hj, hv j]
        by_cases hj2 : j < n
        · rw [if_pos hj2, if_pos (by omega)]
        · rw [if_neg hj2, if_neg (by omega)]
    · dsimp only
      rw [Bool.or_eq_true, hw, bne_iff_ne]
      constructor
      · rintro ((h1 | ⟨i, hi, h1⟩) | h1)
        · exact Or.inl h1
        · exact Or.inr ⟨i, by omega, h1⟩
        · exact Or.inr ⟨n, by omega, h1⟩
      · rintro (h1 | ⟨i, hi, h1⟩)
        · exact Or.inl (Or.inl h1)
        · by_cases hin : i = n
          · subst hin; exact Or.inr h1
          · exact Or.inl (Or.inr ⟨i, by omega, h1⟩)

theorem update_inputs_enc_shape (e : Nat → Nat) (i : Nat) (s : State) :
    ∃ a b c, update_inputs_enc e i s
      = { s with enc_debounce_val := a, enc_debounce_idx := b, enc_changed := c } := by
  unfold update_inputs_enc
  dsimp only
  split_ifs
  · exact ⟨_, _, _, rfl⟩
  · exact ⟨_, _, _, rfl⟩

/-- The fields `update_inputs` writes, with the new switch values and flags. -/
theorem update_inputs_shape (pins : Nat → Bool) (e : Nat → Nat) (s : State) :
    ∃ v w l a b c, update_inputs pins e s
        = { s with
            sw_val := v
            sw_changed := w
            leds_changed := l
            enc_debounce_val := a
            enc_debounce_idx := b
            enc_changed := c }
      ∧ (∀ j, v j = if j < SW_COUNT then !pins ( SW_GPIO j) else s.sw_val j)
      ∧ (w = true ↔ (s.sw_changed = true
          ∨ ∃ i, i < SW_COUNT ∧ (!pins ( SW_GPIO i)) ≠ s.prev_sw_val i))
      ∧ (l = true ↔ (s.leds_changed = true
          ∨ (w = true ∧ s.reactive_timeout_count ≥ REACTIVE_TIMEOUT_MAX))) := by
  obtain ⟨v, w, h, hv, hw⟩ := update_inputs_switch_loop pins s SW_COUNT
  have h2 : ∃ l, update_inputs_switches pins s
      = { s with sw_val := v, sw_changed := w, leds_changed := l }
      ∧ (l = true ↔ (s.leds_changed = true
          ∨ (w = true ∧ s.reactive_timeout_count ≥ REACTIVE_TIMEOUT_MAX))) := by
    unfold update_inputs_switches
    dsimp only
    rw [h]
    dsimp only
    split_ifs with hc
    · exact ⟨true, rfl, by simp [hc]⟩
    · refine ⟨s.leds_changed, rfl, ?_⟩
      constructor
      · exact Or.inl
      · rintro (h1 | h1)
        · exact h1
        · exact absurd h1 hc
  obtain ⟨l, h3, hl⟩ := h2
  unfold update_inputs
  simp only [ENC_COUNT, forUp]
  obtain ⟨a0, b0, c0, h0⟩ := update_inputs_enc_shape e 0 (update_inputs_switches pins s)
  rw [h0]
  obtain ⟨a1, b1, c1, h1⟩ := update_inputs_enc_shape e 1
    { update_inputs_switches pins s with
      enc_debounce_val := a0, enc_debounce_idx := b0, enc_changed := c0 }
  rw [h1, h3]
  exact ⟨v, w, l, a1, b1, c1, rfl, hv, hw, hl⟩

/-! ## The shape of `key_mode` -/

theorem key_mode_switch_shape (kc : Nat → Nat) (s : State) (R0 : Nat → Nat) (n : Nat) :
    ∃ q, (forUp (key_mode_switch kc) n (R0, s)).2 = { s with prev_sw_val := q } := by
  induction n with
  | zero => exact ⟨s.prev_sw_val, rfl⟩
  | succ n ih =>
    obtain ⟨q, hq⟩ := ih
    have hstep : forUp (key_mode_switch kc) (n + 1) (R0, s)
        = key_mode_switch kc n ((forUp (key_mode_switch kc) n (R0, s)).1,
            (forUp (key_mode_switch kc) n (R0, s)).2) := rfl
    rw [hstep, key_mode_switch_snd, hq]
    exact ⟨_, rfl⟩

theorem key_mode_delta_shape (e : Nat → Nat) (st : State) (d0 : Nat → Int) (n : Nat) :
    ∃ p, (forUp (key_mode_delta e) n (d0, st)).2 = { st with prev_enc_val := p } := by
  induction n with
  | zero => exact ⟨st.prev_enc_val, rfl⟩
  | succ n ih =>
    obtain ⟨p, hp⟩ := ih
    have hstep : forUp (key_mode_delta e) (n + 1) (d0, st)
        = key_mode_delta e n (forUp (key_mode_delta e) n (d0, st)) := rfl
    have hbody : (key_mode_delta e n (forUp (key_mode_delta e) n (d0, st))).2
        = { (forUp (key_mode_delta e) n (d0, st)).2 with
            prev_enc_val := upd (forUp (key_mode_delta e) n (d0, st)).2.prev_enc_val n (e n) } :=
      rfl
    rw [hstep, hbody, hp]
    exact ⟨_, rfl⟩

theorem key_mode_enc_shape (e : Nat → Nat) (i : Nat) (a : Bool × (Nat → Int) × State) :
    ∃ p c, (key_mode_enc e i a).2.2 = { a.2.2 with prev_enc_val := p, enc_changed := c } := by
  unfold key_mode_enc
  split_ifs
  · obtain ⟨p, hp⟩ := key_mode_delta_shape e a.2.2 a.2.1 ENC_COUNT
    dsimp only
    rw [hp]
    exact ⟨_, _, rfl⟩
  · exact ⟨_, _, rfl⟩

/-- The mouse part of `key_mode` writes only `prev_enc_val` and `enc_changed`. -/
theorem key_mode_mouse_shape (e : Nat → Nat) (k : State) :
    ∃ p c, (forUp (key_mode_enc e) ENC_COUNT (false, fun _ => 0, k)).2.2
      = { k with prev_enc_val := p, enc_changed := c } := by
  simp only [ENC_COUNT, forUp]
  obtain ⟨p0, c0, h0⟩ := key_mode_enc_shape e 0 (false, fun _ => 0, k)
  obtain ⟨p1, c1, h1⟩ := key_mode_enc_shape e 1 (key_mode_enc e 0 (false, fun _ => 0, k))
  rw [h1, h0]
  exact ⟨_, _, rfl⟩

/-- The fields `key_mode` writes. -/
theorem key_mode_shape (kc : Nat → Nat) (ready : Bool) (e : Nat → Nat) (s : State) :
    ∃ q w p c, (key_mode kc ready e s).1
      = { s with prev_sw_val := q, sw_changed := w, prev_enc_val := p, enc_changed := c } := by
  unfold key_mode
  cases ready
  · exact ⟨_, _, _, _, rfl⟩
  · simp only [if_true]
    cases hsw : s.sw_changed
    · simp only [Bool.false_eq_true, if_false]
      obtain ⟨p, c, h⟩ := key_mode_mouse_shape e s
      split_ifs
      · dsimp only; rw [h]; exact ⟨s.prev_sw_val, false, p, c, by rw [← hsw]⟩
      · dsimp only; rw [h]; exact ⟨s.prev_sw_val, false, p, c, by rw [← hsw]⟩
    · simp only [if_true]
      obtain ⟨q, hq⟩ := key_mode_switch_shape kc s (fun _ => 0) SW_COUNT
      obtain ⟨p, c, h⟩ := key_mode_mouse_shape e
        { (forUp (key_mode_switch kc) SW_COUNT (fun _ => 0, s)).2 with sw_changed := false }
      split_ifs
      · dsimp only; rw [h, hq]; exact ⟨_, _, _, _, rfl⟩
      · dsimp only; rw [h, hq]; exact ⟨_, _, _, _, rfl⟩

/-- Function `key_mode`, transport ready and `sw_changed` set: the keyboard
report sent first is `nkroReport`, and `prev_sw_val` follows the pressed switches. -/
theorem key_mode_keyboard (kc : Nat → Nat) (hkc : ∀ i, kc i < 256) (e : Nat → Nat) (s : State)
    (hsw : s.sw_changed = true) :
    ∃ q p c rest, (key_mode kc true e s).1
        = { s with prev_sw_val := q, sw_changed := false, prev_enc_val := p, enc_changed := c }
      ∧ (key_mode kc true e s).2 = HidOut.keyboard (nkroReport kc s) :: rest
      ∧ (∀ j, q j = if j < SW_COUNT ∧ s.sw_val j = true then true else s.prev_sw_val j) := by
  obtain ⟨⟨q, hq, hq2⟩, _⟩ := key_mode_switch_loop kc hkc s SW_COUNT
  obtain ⟨p, c, h⟩ := key_mode_mouse_shape e
    { (forUp (key_mode_switch kc) SW_COUNT (fun _ => 0, s)).2 with sw_changed := false }
  unfold key_mode nkroReport
  simp only [if_true, hsw]
  split_ifs
  · dsimp only
    rw [h, hq]
    exact ⟨q, _, _, _, rfl, rfl, hq2⟩
  · dsimp only
    rw [h, hq]
    exact ⟨q, _, _, _, rfl, rfl, hq2⟩

/-- The fields `update_lights` writes. -/
theorem update_lights_shape (s : State) :
    ∃ n g l, update_lights s
      = { s with reactive_timeout_count := n, gpio_out := g, leds_changed := l } := by
  unfold update_lights
  dsimp only
  split_ifs
  · exact ⟨_, _, _, rfl⟩
  · exact ⟨_, _, _, rfl⟩
  · exact ⟨_, _, _, rfl⟩
  · exact ⟨_, _, _, rfl⟩

/-- The bits of the keyboard report that `key_mode` builds. -/
theorem nkroReport_spec (kc : Nat → Nat) (hkc : ∀ i, kc i < 256) (s : State) :
    (∀ b k, (nkroReport kc s b).testBit k = true
        ↔ ∃ i, i < SW_COUNT ∧ s.sw_val i = true ∧ nkroTarget (kc i) b k)
    ∧ (∀ b, 32 ≤ b → nkroReport kc s b = 0)
    ∧ (∀ b, nkroReport kc s b < 256) := by
  obtain ⟨_, h1, h2, h3⟩ := key_mode_switch_loop kc hkc s SW_COUNT
  exact ⟨h2, h3, h1⟩

/-- A report with no pressed switch mapped into it is all zero. -/
theorem nkroReport_eq_zero (kc : Nat → Nat) (hkc : ∀ i, kc i < 256) (s : State)
    (h : ∀ i, i < SW_COUNT → s.sw_val i = true → 248 ≤ kc i) (b : Nat) :
    nkroReport kc s b = 0 := by
  apply Nat.eq_of_testBit_eq
  intro k
  rw [Nat.zero_testBit]
  cases hb : (nkroReport kc s b).testBit k
  · rfl
  · exfalso
    obtain ⟨i, hi, hs, ht⟩ := ((nkroReport_spec kc hkc s).1 b k).mp hb
    have := h i hi hs
    unfold nkroTarget at ht
    omega

/-- One cycle of `update_inputs` then `key_mode`, transport ready, with a
switch whose line differs from its `prev_sw_val`. -/
theorem key_cycle_keyboard (kc : Nat → Nat) (hkc : ∀ i, kc i < 256) (pins : Nat → Bool)
    (e1 e2 : Nat → Nat) (s0 : State) (i0 : Nat) (hi0 : i0 < SW_COUNT)
    (hdiff : (!pins ( SW_GPIO i0)) ≠ s0.prev_sw_val i0) :
    (∀ j, j < SW_COUNT → (update_inputs pins e1 s0).sw_val j = !pins ( SW_GPIO j))
    ∧ (∃ rest, (key_mode kc true e2 (update_inputs pins e1 s0)).2
        = HidOut.keyboard (nkroReport kc (update_inputs pins e1 s0)) :: rest)
    ∧ (∀ j, j < SW_COUNT → (!pins ( SW_GPIO j)) = true →
        (update_lights (key_mode kc true e2 (update_inputs pins e1 s0)).1).prev_sw_val j = true) := by
  obtain ⟨v, w, l, a, b, c, hs1, hv, hw, _⟩ := update_inputs_shape pins e1 s0
  have hw1 : (update_inputs pins e1 s0).sw_changed = true := by
    rw [hs1]
    exact hw.mpr (Or.inr ⟨i0, hi0, hdiff⟩)
  have hv1 : ∀ j, j < SW_COUNT → (update_inputs pins e1 s0).sw_val j = !pins ( SW_GPIO j) := by
    intro j hj
    rw [hs1]
    show v j = _
    rw [hv j, if_pos hj]
  obtain ⟨q, p, c2, rest, hk1, hk2, hq⟩ :=
    key_mode_keyboard kc hkc e2 (update_inputs pins e1 s0) hw1
  refine ⟨hv1, ⟨rest, hk2⟩, fun j hj hp => ?_⟩
  obtain ⟨n, g, l2, hl⟩ := update_lights_shape (key_mode kc true e2 (update_inputs pins e1 s0)).1
  rw [hl, hk1]
  show q j = true
  rw [hq j, if_pos ⟨hj, by rw [hv1 j hj]; exact hp⟩]

/-- C7 (the claim as stated fails): with keycode 250, which is outside
`240..247`, and only switch 0 pressed, the keyboard report has no bit set at
all; in particular the bit at byte `250 / 8 + 1`, bit `250 % 8` is clear. -/
theorem C7_keycode_250_sets_no_bit :
    ¬ (240 ≤ 250 ∧ 250 ≤ 247)
    ∧ (onlyPressed 0).sw_val 0 = true
    ∧ (∀ b, nkroReport (fun _ => 250) (onlyPressed 0) b = 0)
    ∧ (nkroReport (fun _ => 250) (onlyPressed 0) (250 / 8 + 1)).testBit (250 % 8) = false := by
  have h : ∀ b, nkroReport (fun _ => 250) (onlyPressed 0) b = 0 :=
    nkroReport_eq_zero (fun _ => 250) (fun _ => show (250 : Nat) < 256 by decide)
      (onlyPressed 0) (fun _ _ _ => show (248 : Nat) ≤ 250 by decide)
  refine ⟨by decide, rfl, h, ?_⟩
  rw [h]
  exact Nat.zero_testBit _

/-- C7 (as amended): for every switch-state vector and every 8-bit keycode
table, bit `k` of byte `b` of the 32-byte keyboard report that `key_mode`
builds is set iff some pressed switch `i` has a keycode `c` with either
`240 ≤ c ≤ 247`, `b = 0`, `k = c % 8` or `c < 240`, `b = c / 8 + 1`,
`k = c % 8`; pressed switches with keycodes `248..255` alone leave the report
zero; no byte index outside `0..31` is written; and `key_mode` sends this
report when the transport is ready and `sw_changed` is set.  Consequently, for
a keycode `c < 240`, in the cycle where that switch alone is pressed the
report has exactly one bit set, at byte `c / 8 + 1`, bit `c % 8`, and in the
next cycle, with the switch released, a report is sent again and has that bit
clear. -/
theorem C7_nkro_mapping (kc : Nat → Nat) (hkc : ∀ i, kc i < 256) :
    (∀ (s : State) (b k : Nat), (nkroReport kc s b).testBit k = true
        ↔ ∃ i, i < 11 ∧ s.sw_val i = true
            ∧ ((240 ≤ kc i ∧ kc i ≤ 247 ∧ b = 0 ∧ k = kc i % 8)
              ∨ (kc i < 240 ∧ b = kc i / 8 + 1 ∧ k = kc i % 8)))
    ∧ (∀ s : State, (∀ i, i < 11 → s.sw_val i = true → 248 ≤ kc i) →
        ∀ b, nkroReport kc s b = 0)
    ∧ (∀ (s : State) (b : Nat), (32 ≤ b → nkroReport kc s b = 0) ∧ nkroReport kc s b < 256)
    ∧ (∀ (e : Nat → Nat) (s : State), s.sw_changed = true →
        ∃ rest, (key_mode kc true e s).2 = HidOut.keyboard (nkroReport kc s) :: rest)
    ∧ (∀ (i0 : Nat) (s0 : State) (pinsP pinsR : Nat → Bool) (e1 e2 e3 e4 : Nat → Nat),
        i0 < 11 → kc i0 < 240 → s0.prev_sw_val i0 = false →
        (∀ i, i < 11 → pinsP ( SW_GPIO i) = !decide (i = i0)) →
        (∀ i, i < 11 → pinsR ( SW_GPIO i) = true) →
        (∃ rest, (key_mode kc true e2 (update_inputs pinsP e1 s0)).2
            = HidOut.keyboard (nkroReport kc (update_inputs pinsP e1 s0)) :: rest)
        ∧ (∀ b k, (nkroReport kc (update_inputs pinsP e1 s0) b).testBit k = true
            ↔ (b = kc i0 / 8 + 1 ∧ k = kc i0 % 8))
        ∧ (∃ rest, (key_mode kc true e4 (update_inputs pinsR e3
              (update_lights (key_mode kc true e2 (update_inputs pinsP e1 s0)).1))).2
            = HidOut.keyboard (nkroReport kc (update_inputs pinsR e3
              (update_lights (key_mode kc true e2 (update_inputs pinsP e1 s0)).1))) :: rest)
        ∧ (nkroReport kc (update_inputs pinsR e3
              (update_lights (key_mode kc true e2 (update_inputs pinsP e1 s0)).1))
            (kc i0 / 8 + 1)).testBit (kc i0 % 8) = false) := by
  refine ⟨fun s b k => (nkroReport_spec kc hkc s).1 b k,
    fun s h b => nkroReport_eq_zero kc hkc s h b,
    fun s b => ⟨(nkroReport_spec kc hkc s).2.1 b, (nkroReport_spec kc hkc s).2.2 b⟩,
    fun e s hsw => ?_, ?_⟩
  · obtain ⟨_, _, _, rest, _, h, _⟩ := key_mode_keyboard kc hkc e s hsw
    exact ⟨rest, h⟩
  · intro i0 s0 pinsP pinsR e1 e2 e3 e4 hi0 hc hprev hP hR
    have hPi0 : (!pinsP ( SW_GPIO i0)) = true := by rw [hP i0 hi0]; simp
    obtain ⟨hv1, hk1, hq1⟩ := key_cycle_keyboard kc hkc pinsP e1 e2 s0 i0 hi0 (by
      rw [hPi0, hprev]; decide)
    have hprev2 := hq1 i0 hi0 hPi0
    obtain ⟨hv3, hk3, _⟩ := key_cycle_keyboard kc hkc pinsR e3 e4
      (update_lights (key_mode kc true e2 (update_inputs pinsP e1 s0)).1) i0 hi0 (by
        rw [hprev2, hR i0 hi0]; decide)
    refine ⟨hk1, fun b k => ?_, hk3, ?_⟩
    · rw [(nkroReport_spec kc hkc _).1 b k]
      unfold nkroTarget
      constructor
      · rintro ⟨i, hi, hs, ht⟩
        rw [hv1 i hi, hP i hi] at hs
        have hii : i = i0 := by simpa using hs
        subst hii
        rcases ht with h | h
        · omega
        · exact ⟨h.2.1, h.2.2⟩
      · rintro ⟨hb, hk⟩
        exact ⟨i0, hi0, by rw [hv1 i0 hi0]; exact hPi0, Or.inr ⟨hc, hb, hk⟩⟩
    · rw [nkroReport_eq_zero kc hkc _ (fun i hi hs => by
        rw [hv3 i hi, hR i hi] at hs
        exact absurd hs (by decide))]
      exact Nat.zero_testBit _

/-- Witness of C7: the table `sampleKeycode`, switch 0 (keycode 4) pressed
alone from the state left by `init`, then released. -/
theorem C7_nkro_mapping_witness :
    (∃ rest, (key_mode sampleKeycode true (fun _ => 0)
          (update_inputs (pressLine 0) (fun _ => 0) (init (fun _ => true)))).2
        = HidOut.keyboard (nkroReport sampleKeycode
            (update_inputs (pressLine 0) (fun _ => 0) (init (fun _ => true)))) :: rest)
    ∧ (∀ b k, (nkroReport sampleKeycode
          (update_inputs (pressLine 0) (fun _ => 0) (init (fun _ => true))) b).testBit k = true
        ↔ (b = sampleKeycode 0 / 8 + 1 ∧ k = sampleKeycode 0 % 8))
    ∧ (∃ rest, (key_mode sampleKeycode true (fun _ => 0) (update_inputs (fun _ => true)
          (fun _ => 0) (update_lights (key_mode sampleKeycode true (fun _ => 0)
            (update_inputs (pressLine 0) (fun _ => 0) (init (fun _ => true)))).1))).2
        = HidOut.keyboard (nkroReport sampleKeycode (update_inputs (fun _ => true)
          (fun _ => 0) (update_lights (key_mode sampleKeycode true (fun _ => 0)
            (update_inputs (pressLine 0) (fun _ => 0) (init (fun _ => true)))).1))) :: rest)
    ∧ (nkroReport sampleKeycode (update_inputs (fun _ => true)
          (fun _ => 0) (update_lights (key_mode sampleKeycode true (fun _ => 0)
            (update_inputs (pressLine 0) (fun _ => 0) (init (fun _ => true)))).1))
        (sampleKeycode 0 / 8 + 1)).testBit (sampleKeycode 0 % 8) = false :=
  (C7_nkro_mapping sampleKeycode (fun i => by unfold sampleKeycode; split_ifs <;> omega)).2.2.2.2
    0 (init (fun _ => true)) (pressLine 0) (fun _ => true) (fun _ => 0) (fun _ => 0)
    (fun _ => 0) (fun _ => 0) (by decide) (by decide) rfl (by decide) (fun _ _ => rfl)

/-! ## The mouse part of `key_mode` -/

/-- The inner encoder loop of `key_mode`. -/
theorem key_mode_delta_loop (e : Nat → Nat) (d : Nat → Int) (st : State) :
    forUp (key_mode_delta e) ENC_COUNT (d, st)
      = (upd (upd d 0 (mouseDelta (ENC_REV 0) (st.prev_enc_val 0) (e 0))) 1
          (mouseDelta (ENC_REV 1) (st.prev_enc_val 1) (e 1)),
        { st with prev_enc_val := upd (upd st.prev_enc_val 0 (e 0)) 1 (e 1) }) :=
  rfl

/-- The outer encoder body of `key_mode` when the flag of encoder `i` is set. -/
theorem key_mode_enc_of_changed (e : Nat → Nat) (i : Nat) (a : Bool × (Nat → Int) × State)
    (h : a.2.2.enc_changed i = true) :
    key_mode_enc e i a
      = (true,
        upd (upd a.2.1 0 (mouseDelta (ENC_REV 0) (a.2.2.prev_enc_val 0) (e 0))) 1
          (mouseDelta (ENC_REV 1) (a.2.2.prev_enc_val 1) (e 1)),
        { a.2.2 with
          prev_enc_val := upd (upd a.2.2.prev_enc_val 0 (e 0)) 1 (e 1)
          enc_changed := upd a.2.2.enc_changed 0 false }) := by
  unfold key_mode_enc
  rw [if_pos h]
  have hl := key_mode_delta_loop e a.2.1 a.2.2
  dsimp only
  rw [show a.2 = (a.2.1, a.2.2) from rfl, hl]

/-- With both flags set the second pass of the outer loop recomputes both
deltas against the `prev_enc_val` the first pass has just stored. -/
theorem key_mode_mouse_both (e : Nat → Nat) (k : State) (h0 : k.enc_changed 0 = true)
    (h1 : k.enc_changed 1 = true) :
    (forUp (key_mode_enc e) ENC_COUNT (false, fun _ => 0, k)).1 = true
    ∧ (forUp (key_mode_enc e) ENC_COUNT (false, fun _ => 0, k)).2.1 0
        = mouseDelta (ENC_REV 0) (e 0) (e 0)
    ∧ (forUp (key_mode_enc e) ENC_COUNT (false, fun _ => 0, k)).2.1 1
        = mouseDelta (ENC_REV 1) (e 1) (e 1) := by
  have hstep : forUp (key_mode_enc e) ENC_COUNT (false, fun _ => 0, k)
      = key_mode_enc e 1 (key_mode_enc e 0 (false, fun _ => 0, k)) := rfl
  rw [hstep, key_mode_enc_of_changed e 0 _ h0, key_mode_enc_of_changed e 1 _ (by
    show upd k.enc_changed 0 false 1 = true
    unfold upd
    rw [if_neg (by decide)]
    exact h1)]
  exact ⟨rfl, rfl, rfl⟩

/-- Function `key_mode`, transport ready, no switch change, both encoder flags set. -/
theorem key_mode_both_flagged (kc : Nat → Nat) (e : Nat → Nat) (s : State)
    (hsw : s.sw_changed = false) (h0 : s.enc_changed 0 = true) (h1 : s.enc_changed 1 = true) :
    (key_mode kc true e s).2
      = [HidOut.mouse (mouseDelta (ENC_REV 0) (e 0) (e 0))
          (mouseDelta (ENC_REV 1) (e 1) (e 1))] := by
  obtain ⟨m1, m2, m3⟩ := key_mode_mouse_both e s h0 h1
  unfold key_mode
  simp only [if_true, hsw, Bool.false_eq_true, if_false, m1, m2, m3, List.nil_append]

/-- One pulse on both encoders from the state left by `init` sets both flags. -/
theorem bothPulse_flags (pins pins0 : Nat → Bool) :
    (update_inputs pins bothPulse (init pins0)).enc_changed 0 = true
    ∧ (update_inputs pins bothPulse (init pins0)).enc_changed 1 = true := by
  have hv : (init pins0).enc_debounce_val = fun _ _ => 0 := rfl
  have hx : (init pins0).enc_debounce_idx = fun _ => 0 := rfl
  have h : bothPulse 0 ≠ upd (fun _ => 0) 0
      (bothPulse 0) (((0 + 1) % 256 % ENC_DEBOUNCE_CYCLES
        + ENC_DEBOUNCE_CYCLES + 1) % ENC_DEBOUNCE_CYCLES) := by
    decide
  constructor
  · rw [update_inputs_changed _ _ _ 0 (by decide), update_inputs_val _ _ _ 0 (by decide),
      update_inputs_idx _ _ _ 0 (by decide), hv, hx, if_pos h]
    exact debounceScan_of_nonneg _ _ (by decide) _ _
  · have h' : bothPulse 1 ≠ upd (fun _ => 0) 0
        (bothPulse 1) (((0 + 1) % 256 % ENC_DEBOUNCE_CYCLES
          + ENC_DEBOUNCE_CYCLES + 1) % ENC_DEBOUNCE_CYCLES) := by
      decide
    rw [update_inputs_changed _ _ _ 1 (by decide), update_inputs_val _ _ _ 1 (by decide),
      update_inputs_idx _ _ _ 1 (by decide), hv, hx, if_pos h']
    exact debounceScan_of_nonneg _ _ (by decide) _ _

/-- C9 (the code at the failing input): boot in keyboard mode (all switch
lines low during `init`), then one main-loop cycle with all switches released,
both encoder counters at 1 and the transport ready.  `update_inputs` sets both
`enc_changed` flags while `prev_enc_val` is 0 for both encoders, so the claim
asks for the deltas `-1 * (1 - 0) = -1`; `key_mode` hands
`tud_hid_mouse_report` the deltas 0 and 0. -/
theorem C9_mouse_delta_both_flags_set (fuel : Nat) (kc : Nat → Nat) :
    (update_inputs (fun _ => true) bothPulse (init (fun _ => false))).enc_changed 0 = true
    ∧ (update_inputs (fun _ => true) bothPulse (init (fun _ => false))).enc_changed 1 = true
    ∧ (∀ k, encPolarity (ENC_REV k) * toInt32 ((bothPulse k : Int)
        - (update_inputs (fun _ => true) bothPulse (init (fun _ => false))).prev_enc_val k) = -1)
    ∧ (key_mode kc true bothPulse
        (update_inputs (fun _ => true) bothPulse (init (fun _ => false)))).2
        = [HidOut.mouse 0 0]
    ∧ ∃ s, main_cycle fuel kc
        { pins := fun _ => true, enc_in := bothPulse, enc_rep := bothPulse, ready := true }
        (init (fun _ => false)) = some (s, [HidOut.mouse 0 0]) := by
  obtain ⟨h0, h1⟩ := bothPulse_flags (fun _ => true) (fun _ => false)
  obtain ⟨hp, _⟩ := update_inputs_pos (fun _ => true) bothPulse (init (fun _ => false))
  obtain ⟨v, w, l, a, b, c, hs, _, hw, _⟩ :=
    update_inputs_shape (fun _ => true) bothPulse (init (fun _ => false))
  have hsw : (update_inputs (fun _ => true) bothPulse (init (fun _ => false))).sw_changed
      = false := by
    rw [hs]
    show w = false
    cases hw' : w
    · rfl
    · exfalso
      rcases hw.mp hw' with h | ⟨i, _, h⟩
      · exact Bool.noConfusion h
      · exact h rfl
  have hmode : (update_inputs (fun _ => true) bothPulse (init (fun _ => false))).loop_mode
      = LoopMode.key := by
    rw [hs]
    rfl
  have hout := key_mode_both_flagged kc bothPulse _ hsw h0 h1
  have hzero : mouseDelta (ENC_REV 0) (bothPulse 0) (bothPulse 0) = 0
      ∧ mouseDelta (ENC_REV 1) (bothPulse 1) (bothPulse 1) = 0 := by decide
  rw [hzero.1, hzero.2] at hout
  refine ⟨h0, h1, fun k => ?_, hout, ?_⟩
  · rw [hp]
    show encPolarity false * toInt32 (((1 : Nat) : Int) - ((0 : Nat) : Int)) = -1
    decide
  · unfold main_cycle
    simp only [hmode, hout]
    exact ⟨_, rfl⟩

/-! ## Lights -/

theorem upd_apply {α : Type} (a : Nat → α) (i : Nat) (v : α) (j : Nat) :
    upd a i v j = if j = i then v else a j :=
  rfl

theorem LED_GPIO_injective : ∀ i, i < 11 → ∀ j, j < 11 → LED_GPIO i = LED_GPIO j → i = j := by
  decide

/-- The level `update_lights` drives on indicator `i`. -/
theorem update_lights_led_eq (s : State) (i : Nat) (out : Nat → Bool) :
    update_lights_led s i out
      = upd out ( LED_GPIO i)
          (if s.reactive_timeout_count ≥ REACTIVE_TIMEOUT_MAX then s.sw_val i
            else decide (s.lights_report i ≠ 0)) := by
  unfold update_lights_led
  split_ifs with h1 h2 h3
  · rw [h2]
  · simp only [Bool.not_eq_true] at h2
    rw [h2]
  · simp [h3]
  · simp [h3]

/-- A loop that drives indicator `k` to `val k`, over the first `n` indicators. -/
theorem led_loop (val : Nat → Bool) (out : Nat → Bool) (n : Nat) (hn : n ≤ 11) (i : Nat)
    (hi : i < 11) :
    forUp (fun k o => upd o ( LED_GPIO k) (val k)) n out ( LED_GPIO i)
      = if i < n then val i else out ( LED_GPIO i) := by
  induction n with
  | zero => simp [forUp]
  | succ n ih =>
    have hstep : forUp (fun k o => upd o ( LED_GPIO k) (val k)) (n + 1) out
        = upd (forUp (fun k o => upd o ( LED_GPIO k) (val k)) n out) ( LED_GPIO n) (val n) := rfl
    rw [hstep, upd_apply]
    by_cases hin : i = n
    · subst hin
      rw [if_pos rfl, if_pos (show i < i + 1 by omega)]
    · have hne : LED_GPIO i ≠ LED_GPIO n := fun h =>
        hin (LED_GPIO_injective i hi n (by omega) h)
      rw [if_neg hne, ih (by omega)]
      by_cases hlt : i < n
      · rw [if_pos hlt, if_pos (show i < n + 1 by omega)]
      · rw [if_neg hlt, if_neg (show ¬ i < n + 1 by omega)]

/-- The indicator loop of `update_lights`. -/
theorem update_lights_loop (s : State) (out : Nat → Bool) (i : Nat) (hi : i < 11) :
    forUp (update_lights_led s) SW_COUNT out ( LED_GPIO i)
      = if s.reactive_timeout_count ≥ REACTIVE_TIMEOUT_MAX then s.sw_val i
        else decide (s.lights_report i ≠ 0) := by
  have hbody : update_lights_led s = fun k o => upd o ( LED_GPIO k)
      (if s.reactive_timeout_count ≥ REACTIVE_TIMEOUT_MAX then s.sw_val k
        else decide (s.lights_report k ≠ 0)) := by
    funext k o
    exact update_lights_led_eq s k o
  rw [hbody, led_loop _ out SW_COUNT (by decide) i hi, if_pos (show i < SW_COUNT from hi)]

/-- Function `update_lights` with the dirty flag set. -/
theorem update_lights_of_changed (s : State) (h : s.leds_changed = true) :
    (update_lights s).leds_changed = false
    ∧ (update_lights s).reactive_timeout_count
        = (if s.reactive_timeout_count < REACTIVE_TIMEOUT_MAX then s.reactive_timeout_count + 1
          else s.reactive_timeout_count)
    ∧ (update_lights s).lights_report = s.lights_report
    ∧ (update_lights s).sw_val = s.sw_val
    ∧ (∀ i, i < 11 → (update_lights s).gpio_out ( LED_GPIO i)
        = if (update_lights s).reactive_timeout_count ≥ REACTIVE_TIMEOUT_MAX then s.sw_val i
          else decide (s.lights_report i ≠ 0)) := by
  unfold update_lights
  dsimp only
  by_cases hc : s.reactive_timeout_count < REACTIVE_TIMEOUT_MAX
  · simp only [if_pos hc, h, if_true]
    refine ⟨trivial, trivial, trivial, trivial, fun i hi => ?_⟩
    exact update_lights_loop _ _ i hi
  · simp only [if_neg hc, h, if_true]
    refine ⟨trivial, trivial, trivial, trivial, fun i hi => ?_⟩
    exact update_lights_loop _ _ i hi

/-- Function `update_lights` with the dirty flag clear. -/
theorem update_lights_of_unchanged (s : State) (h : s.leds_changed = false) :
    (update_lights s).leds_changed = false
    ∧ (update_lights s).reactive_timeout_count
        = (if s.reactive_timeout_count < REACTIVE_TIMEOUT_MAX then s.reactive_timeout_count + 1
          else s.reactive_timeout_count)
    ∧ (update_lights s).lights_report = s.lights_report
    ∧ (update_lights s).sw_val = s.sw_val
    ∧ (update_lights s).gpio_out = s.gpio_out := by
  unfold update_lights
  dsimp only
  by_cases hc : s.reactive_timeout_count < REACTIVE_TIMEOUT_MAX
  · simp only [if_pos hc, h, Bool.false_eq_true, if_false]
    exact ⟨trivial, trivial, trivial, trivial, trivial⟩
  · simp only [if_neg hc, h, Bool.false_eq_true, if_false]
    exact ⟨trivial, trivial, trivial, trivial, trivial⟩

/-! ## One iteration of the main loop -/

theorem joy_mode_button_shape (n : Nat) (t : Nat) (st : State) :
    ∃ q, (forDown joy_mode_button n (t, st)).2 = { st with prev_sw_val := q } := by
  induction n generalizing t st with
  | zero => exact ⟨st.prev_sw_val, rfl⟩
  | succ n ih =>
    obtain ⟨q, hq⟩ := ih (((t <<< 1) ||| (if st.sw_val n then 1 else 0)) % 65536)
      { st with prev_sw_val := upd st.prev_sw_val n (st.sw_val n) }
    exact ⟨q, hq⟩

/-- What `joy_mode` leaves alone. -/
theorem joy_mode_frame (fuel : Nat) (ready : Bool) (e : Nat → Nat) (s : State)
    (r : State × List HidOut) (h : joy_mode fuel ready e s = some r) :
    r.1.leds_changed = s.leds_changed
    ∧ r.1.reactive_timeout_count = s.reactive_timeout_count
    ∧ r.1.loop_mode = s.loop_mode ∧ r.1.lights_report = s.lights_report
    ∧ r.1.gpio_out = s.gpio_out ∧ r.1.sw_val = s.sw_val := by
  unfold joy_mode at h
  cases ready
  · simp only [Bool.false_eq_true, if_false, Option.some.injEq] at h
    subst h
    exact ⟨rfl, rfl, rfl, rfl, rfl, rfl⟩
  · simp only [if_true, Option.map_eq_some'] at h
    obtain ⟨a, ha, rfl⟩ := h
    obtain ⟨⟨f1, _, _, _⟩, ⟨f5, f6, f7, f8, f9⟩, _⟩ := joy_mode_loop_frame fuel e _ a ha
    cases hsw : s.sw_changed
    · rw [hsw] at f1 f5 f6 f7 f8 f9
      exact ⟨f5, f6, f7, f8, f9, f1⟩
    · rw [hsw] at f1 f5 f6 f7 f8 f9
      obtain ⟨q, hq⟩ := joy_mode_button_shape SW_COUNT 0 s
      have hb : ∃ rep, joy_mode_buttons s
          = { s with prev_sw_val := q, report := rep, sw_changed := false } := by
        unfold joy_mode_buttons
        dsimp only
        rw [hq]
        exact ⟨_, rfl⟩
      obtain ⟨rep, hb⟩ := hb
      simp only [if_true] at f1 f5 f6 f7 f8 f9
      rw [hb] at f1 f5 f6 f7 f8 f9
      exact ⟨f5, f6, f7, f8, f9, f1⟩

/-- What `key_mode` leaves alone. -/
theorem key_mode_frame (kc : Nat → Nat) (ready : Bool) (e : Nat → Nat) (s : State) :
    (key_mode kc ready e s).1.leds_changed = s.leds_changed
    ∧ (key_mode kc ready e s).1.reactive_timeout_count = s.reactive_timeout_count
    ∧ (key_mode kc ready e s).1.loop_mode = s.loop_mode
    ∧ (key_mode kc ready e s).1.lights_report = s.lights_report
    ∧ (key_mode kc ready e s).1.gpio_out = s.gpio_out
    ∧ (key_mode kc ready e s).1.sw_val = s.sw_val := by
  obtain ⟨q, w, p, c, h⟩ := key_mode_shape kc ready e s
  rw [h]
  exact ⟨rfl, rfl, rfl, rfl, rfl, rfl⟩

/-- One iteration of the main loop ends with `update_lights` on a state that
has the lighting fields of the state after `update_inputs`. -/
theorem main_cycle_lights (fuel : Nat) (kc : Nat → Nat) (inp : CycleInput) (s : State)
    (r : State × List HidOut) (h : main_cycle fuel kc inp s = some r) :
    ∃ t, r.1 = update_lights t
      ∧ t.leds_changed = (update_inputs inp.pins inp.enc_in s).leds_changed
      ∧ t.reactive_timeout_count = s.reactive_timeout_count
      ∧ t.loop_mode = s.loop_mode ∧ t.lights_report = s.lights_report
      ∧ t.gpio_out = s.gpio_out
      ∧ t.sw_val = (update_inputs inp.pins inp.enc_in s).sw_val := by
  obtain ⟨v, w, l, a, b, c, hs, _⟩ := update_inputs_shape inp.pins inp.enc_in s
  have hcount : (update_inputs inp.pins inp.enc_in s).reactive_timeout_count
      = s.reactive_timeout_count := by rw [hs]
  have hmode : (update_inputs inp.pins inp.enc_in s).loop_mode = s.loop_mode := by rw [hs]
  have hrep : (update_inputs inp.pins inp.enc_in s).lights_report = s.lights_report := by
    rw [hs]
  have hout : (update_inputs inp.pins inp.enc_in s).gpio_out = s.gpio_out := by rw [hs]
  unfold main_cycle at h
  dsimp only at h
  cases hm : (update_inputs inp.pins inp.enc_in s).loop_mode
  · rw [hm] at h
    simp only [Option.map_eq_some'] at h
    obtain ⟨r0, hr0, rfl⟩ := h
    obtain ⟨f1, f2, f3, f4, f5, f6⟩ := joy_mode_frame fuel inp.ready inp.enc_rep _ r0 hr0
    exact ⟨r0.1, rfl, f1, f2.trans hcount, f3.trans hmode, f4.trans hrep, f5.trans hout, f6⟩
  · rw [hm] at h
    simp only [Option.some.injEq] at h
    subst h
    obtain ⟨f1, f2, f3, f4, f5, f6⟩ :=
      key_mode_frame kc inp.ready inp.enc_rep (update_inputs inp.pins inp.enc_in s)
    exact ⟨_, rfl, f1, f2.trans hcount, f3.trans hmode, f4.trans hrep, f5.trans hout, f6⟩

/-- In keyboard mode one iteration of the main loop always returns. -/
theorem main_cycle_key (fuel : Nat) (kc : Nat → Nat) (inp : CycleInput) (s : State)
    (hm : s.loop_mode = LoopMode.key) :
    ∃ r, main_cycle fuel kc inp s = some r ∧ r.1.loop_mode = LoopMode.key := by
  obtain ⟨v, w, l, a, b, c, hs, _⟩ := update_inputs_shape inp.pins inp.enc_in s
  have hmode : (update_inputs inp.pins inp.enc_in s).loop_mode = LoopMode.key := by
    rw [hs]; exact hm
  have hret : ∃ r, main_cycle fuel kc inp s = some r := by
    unfold main_cycle
    dsimp only
    rw [hmode]
    exact ⟨_, rfl⟩
  obtain ⟨r, hr⟩ := hret
  obtain ⟨t, ht, _, _, h3, _⟩ := main_cycle_lights fuel kc inp s r hr
  obtain ⟨n, g, l2, hl⟩ := update_lights_shape t
  refine ⟨r, hr, ?_⟩
  rw [ht, hl]
  exact h3.trans hm

/-- In keyboard mode any number of iterations of the main loop returns. -/
theorem main_cycles_key (fuel : Nat) (kc : Nat → Nat) (inps : List CycleInput) (s : State)
    (hm : s.loop_mode = LoopMode.key) :
    ∃ s1, main_cycles fuel kc inps s = some s1 := by
  induction inps generalizing s with
  | nil => exact ⟨s, rfl⟩
  | cons inp rest ih =>
    obtain ⟨r, hr, hrm⟩ := main_cycle_key fuel kc inp s hm
    obtain ⟨s1, hs1⟩ := ih r.1 hrm
    exact ⟨s1, by simp only [main_cycles, hr, Option.some_bind, hs1]⟩

/-! ## Lighting over many iterations -/

/-- The dirty flag after `update_inputs`. -/
theorem update_inputs_leds (pins : Nat → Bool) (e : Nat → Nat) (s : State) :
    ((update_inputs pins e s).leds_changed = true
      ↔ (s.leds_changed = true ∨ ((update_inputs pins e s).sw_changed = true
          ∧ s.reactive_timeout_count ≥ REACTIVE_TIMEOUT_MAX)))
    ∧ (∀ j, j < SW_COUNT → (update_inputs pins e s).sw_val j = !pins ( SW_GPIO j)) := by
  obtain ⟨v, w, l, a, b, c, hs, hv, _, hl⟩ := update_inputs_shape pins e s
  rw [hs]
  refine ⟨hl, fun j hj => ?_⟩
  show v j = _
  rw [hv j, if_pos hj]

/-- The switch values after one iteration of the main loop. -/
theorem main_cycle_sw_val (fuel : Nat) (kc : Nat → Nat) (inp : CycleInput) (s : State)
    (r : State × List HidOut) (h : main_cycle fuel kc inp s = some r) (j : Nat)
    (hj : j < SW_COUNT) :
    r.1.sw_val j = !inp.pins ( SW_GPIO j) := by
  obtain ⟨t, ht, _, _, _, _, _, hsw⟩ := main_cycle_lights fuel kc inp s r h
  obtain ⟨n, g, l, hl⟩ := update_lights_shape t
  rw [ht, hl]
  show t.sw_val j = _
  rw [hsw]
  exact (update_inputs_leds inp.pins inp.enc_in s).2 j hj

/-- The first iteration after a host write drives the host pattern. -/
theorem main_cycle_after_write (fuel : Nat) (kc : Nat → Nat) (inp : CycleInput) (s : State)
    (r : State × List HidOut) (h : main_cycle fuel kc inp s = some r)
    (hc : s.reactive_timeout_count = 0) (hl : s.leds_changed = true) :
    r.1.reactive_timeout_count = 1 ∧ r.1.leds_changed = false
    ∧ r.1.lights_report = s.lights_report
    ∧ (∀ i, i < 11 → r.1.gpio_out ( LED_GPIO i) = decide (s.lights_report i ≠ 0)) := by
  obtain ⟨t, ht, t1, t2, _, t4, _, _⟩ := main_cycle_lights fuel kc inp s r h
  have htl : t.leds_changed = true := by
    rw [t1]
    exact (update_inputs_leds inp.pins inp.enc_in s).1.mpr (Or.inl hl)
  obtain ⟨u1, u2, u3, _, u5⟩ := update_lights_of_changed t htl
  have hlt : t.reactive_timeout_count < REACTIVE_TIMEOUT_MAX := by
    rw [t2, hc]; decide
  rw [if_pos hlt, t2, hc] at u2
  rw [ht]
  refine ⟨u2, u1, u3.trans t4, fun i hi => ?_⟩
  rw [u5 i hi, u2, if_neg (by decide), t4]

/-- An iteration in the host regime with the dirty flag clear only counts. -/
theorem main_cycle_host (fuel : Nat) (kc : Nat → Nat) (inp : CycleInput) (s : State)
    (r : State × List HidOut) (h : main_cycle fuel kc inp s = some r)
    (hc : s.reactive_timeout_count < REACTIVE_TIMEOUT_MAX) (hl : s.leds_changed = false) :
    r.1.reactive_timeout_count = s.reactive_timeout_count + 1 ∧ r.1.leds_changed = false
    ∧ r.1.lights_report = s.lights_report ∧ r.1.gpio_out = s.gpio_out := by
  obtain ⟨t, ht, t1, t2, _, t4, t5, _⟩ := main_cycle_lights fuel kc inp s r h
  have htl : t.leds_changed = false := by
    rw [t1]
    cases hu : (update_inputs inp.pins inp.enc_in s).leds_changed
    · rfl
    · exfalso
      rcases (update_inputs_leds inp.pins inp.enc_in s).1.mp hu with h1 | ⟨_, h1⟩
      · rw [hl] at h1; exact Bool.noConfusion h1
      · omega
  obtain ⟨u1, u2, u3, _, u5⟩ := update_lights_of_unchanged t htl
  rw [t2, if_pos hc] at u2
  rw [ht]
  exact ⟨u2, u1, u3.trans t4, u5.trans t5⟩

/-- Iterations in the host regime with the dirty flag clear, up to the timeout. -/
theorem main_cycles_host (fuel : Nat) (kc : Nat → Nat) (inps : List CycleInput)
    (s s1 : State) (h : main_cycles fuel kc inps s = some s1) (hl : s.leds_changed = false)
    (hc : s.reactive_timeout_count + inps.length ≤ REACTIVE_TIMEOUT_MAX) :
    s1.reactive_timeout_count = s.reactive_timeout_count + inps.length
    ∧ s1.leds_changed = false ∧ s1.lights_report = s.lights_report
    ∧ s1.gpio_out = s.gpio_out := by
  induction inps generalizing s with
  | nil =>
    simp only [main_cycles, Option.some.injEq] at h
    subst h
    exact ⟨rfl, hl, rfl, rfl⟩
  | cons inp rest ih =>
    simp only [main_cycles, Option.bind_eq_some] at h
    obtain ⟨r, hr, hrest⟩ := h
    simp only [List.length_cons] at hc
    obtain ⟨r1, r2, r3, r4⟩ := main_cycle_host fuel kc inp s r hr (by omega) hl
    obtain ⟨q1, q2, q3, q4⟩ := ih r.1 hrest r2 (by rw [r1]; omega)
    refine ⟨?_, q2, q3.trans r3, q4.trans r4⟩
    rw [q1, r1, List.length_cons]
    omega

/-- From the state after a host write, `n` iterations (`1 ≤ n ≤ REACTIVE_TIMEOUT_MAX`)
leave the count at `n`, the dirty flag clear and the host pattern on the indicators. -/
theorem main_cycles_after_write (fuel : Nat) (kc : Nat → Nat) (inps : List CycleInput)
    (s s1 : State) (h : main_cycles fuel kc inps s = some s1)
    (hc : s.reactive_timeout_count = 0) (hl : s.leds_changed = true)
    (h1 : 1 ≤ inps.length) (h2 : inps.length ≤ REACTIVE_TIMEOUT_MAX) :
    s1.reactive_timeout_count = inps.length ∧ s1.leds_changed = false
    ∧ s1.lights_report = s.lights_report
    ∧ (∀ i, i < 11 → s1.gpio_out ( LED_GPIO i) = decide (s.lights_report i ≠ 0)) := by
  cases inps with
  | nil => simp at h1
  | cons inp rest =>
    simp only [main_cycles, Option.bind_eq_some] at h
    obtain ⟨r, hr, hrest⟩ := h
    simp only [List.length_cons] at h2 ⊢
    obtain ⟨r1, r2, r3, r4⟩ := main_cycle_after_write fuel kc inp s r hr hc hl
    obtain ⟨q1, q2, q3, q4⟩ := main_cycles_host fuel kc rest r.1 s1 hrest r2 (by rw [r1]; omega)
    refine ⟨by rw [q1, r1]; omega, q2, q3.trans r3, fun i hi => ?_⟩
    rw [q4, r4 i hi]

/-- An iteration in the reactive regime with the dirty flag clear: the
indicators follow the switches when `update_inputs` leaves `sw_changed` set,
and are not driven otherwise. -/
theorem main_cycle_reactive (fuel : Nat) (kc : Nat → Nat) (inp : CycleInput) (s : State)
    (r : State × List HidOut) (h : main_cycle fuel kc inp s = some r)
    (hc : s.reactive_timeout_count ≥ REACTIVE_TIMEOUT_MAX) (hl : s.leds_changed = false) :
    ((update_inputs inp.pins inp.enc_in s).sw_changed = true →
      ∀ i, i < 11 → r.1.gpio_out ( LED_GPIO i) = r.1.sw_val i)
    ∧ ((update_inputs inp.pins inp.enc_in s).sw_changed = false →
      r.1.gpio_out = s.gpio_out) := by
  obtain ⟨t, ht, t1, t2, _, t4, t5, t6⟩ := main_cycle_lights fuel kc inp s r h
  have hnlt : ¬ t.reactive_timeout_count < REACTIVE_TIMEOUT_MAX := by rw [t2]; omega
  constructor
  · intro hsw i hi
    have htl : t.leds_changed = true := by
      rw [t1]
      exact (update_inputs_leds inp.pins inp.enc_in s).1.mpr (Or.inr ⟨hsw, hc⟩)
    obtain ⟨_, u2, _, u4, u5⟩ := update_lights_of_changed t htl
    rw [if_neg hnlt] at u2
    rw [ht, u5 i hi, u2, if_pos (by rw [t2]; exact hc), u4]
  · intro hsw
    have htl : t.leds_changed = false := by
      rw [t1]
      cases hu : (update_inputs inp.pins inp.enc_in s).leds_changed
      · rfl
      · exfalso
        rcases (update_inputs_leds inp.pins inp.enc_in s).1.mp hu with h1 | ⟨h1, _⟩
        · rw [hl] at h1; exact Bool.noConfusion h1
        · rw [hsw] at h1; exact Bool.noConfusion h1
    obtain ⟨_, _, _, _, u5⟩ := update_lights_of_unchanged t htl
    rw [ht, u5, t5]

/-- An accepted host write leaves the count at 0 and the dirty flag set. -/
theorem set_report_accepted (s s0 : State) (buf : List Nat)
    (h : tud_hid_set_report_cb s 2 HidReportType.output buf = some s0)
    (hid : buf.get? 0 = some 2) (hlen : 11 ≤ buf.length) :
    s0.reactive_timeout_count = 0 ∧ s0.leds_changed = true := by
  unfold tud_hid_set_report_cb at h
  simp only [true_and, if_true, hid, ge_iff_le, hlen, and_self, Option.map_eq_some'] at h
  obtain ⟨s1, _, rfl⟩ := h
  exact ⟨rfl, rfl⟩

/-- After iterations that all read every switch line high, no switch is pressed. -/
theorem main_cycles_released (fuel : Nat) (kc : Nat → Nat) (inps : List CycleInput)
    (s s1 : State) (h : main_cycles fuel kc inps s = some s1) (hne : inps ≠ [])
    (hq : ∀ inp, inp ∈ inps → ∀ j, j < SW_COUNT → inp.pins ( SW_GPIO j) = true) :
    ∀ j, j < SW_COUNT → s1.sw_val j = false := by
  induction inps generalizing s with
  | nil => exact absurd rfl hne
  | cons inp rest ih =>
    simp only [main_cycles, Option.bind_eq_some] at h
    obtain ⟨r, hr, hrest⟩ := h
    cases rest with
    | nil =>
      simp only [main_cycles, Option.some.injEq] at hrest
      subst hrest
      intro j hj
      rw [main_cycle_sw_val fuel kc inp s r hr j hj, hq inp (List.mem_cons_self _ _) j hj]
      rfl
    | cons inp2 rest2 =>
      exact ih r.1 hrest (List.cons_ne_nil _ _)
        (fun x hx => hq x (List.mem_cons_of_mem _ hx))

/-- The copy loop of `tud_hid_set_report_cb` returns when the buffer holds the bytes it reads. -/
theorem set_report_copy_loop (buf : List Nat) (s : State) (n : Nat) (h : n + 1 ≤ buf.length) :
    ∃ L, forUpOpt (set_report_copy buf) n s = some { s with lights_report := L }
      ∧ ∀ i, L i = if i < n then ((buf.get? (i + 1)).getD 0) % 256 else s.lights_report i := by
  induction n with
  | zero => exact ⟨s.lights_report, rfl, fun i => by simp⟩
  | succ n ih =>
    obtain ⟨L, hL, hL2⟩ := ih (by omega)
    cases hb : buf.get? (n + 1) with
    | none =>
      rw [List.get?_eq_none] at hb
      omega
    | some b =>
      refine ⟨upd L n (b % 256), ?_, fun i => ?_⟩
      · show (forUpOpt (set_report_copy buf) n s).bind (set_report_copy buf n) = _
        rw [hL, Option.some_bind]
        unfold set_report_copy
        rw [hb]
        rfl
      · rw [upd_apply]
        by_cases hin : i = n
        · subst hin
          rw [if_pos rfl, if_pos (show i < i + 1 by omega), hb]
          rfl
        · rw [if_neg hin, hL2 i]
          by_cases hlt : i < n
          · rw [if_pos hlt, if_pos (show i < n + 1 by omega)]
          · rw [if_neg hlt, if_neg (show ¬ i < n + 1 by omega)]

/-- A host write with the identifier byte 2 and at least 12 bytes is applied. -/
theorem set_report_returns (s : State) (buf : List Nat) (hid : buf.get? 0 = some 2)
    (hlen : 12 ≤ buf.length) :
    ∃ L, tud_hid_set_report_cb s 2 HidReportType.output buf
        = some { s with lights_report := L, reactive_timeout_count := 0, leds_changed := true }
      ∧ ∀ i, i < 11 → L i = ((buf.get? (i + 1)).getD 0) % 256 := by
  obtain ⟨L, hL, hL2⟩ := set_report_copy_loop buf s 11 (by omega)
  refine ⟨L, ?_, fun i hi => by rw [hL2 i, if_pos hi]⟩
  unfold tud_hid_set_report_cb
  simp only [true_and, if_true, hid, ge_iff_le, show 11 ≤ buf.length by omega, and_self, hL,
    Option.map_some']

/-- C10 (the claim as stated fails): boot in keyboard mode, a host write that
lights every indicator, then exactly `REACTIVE_TIMEOUT_MAX` main-loop
iterations with no further host write and every switch released.  The loop
returns, and at its end every indicator line is still driven high although
no switch is pressed. -/
theorem C10_indicators_keep_host_pattern :
    ∃ s0 s1, tud_hid_set_report_cb (init (fun _ => false)) 2 HidReportType.output allLitPayload
        = some s0
      ∧ (List.replicate REACTIVE_TIMEOUT_MAX quietInput).length = REACTIVE_TIMEOUT_MAX
      ∧ main_cycles 0 sampleKeycode (List.replicate REACTIVE_TIMEOUT_MAX quietInput) s0
        = some s1
      ∧ ∀ i, i < 11 → s1.gpio_out ( LED_GPIO i) = true ∧ s1.sw_val i = false := by
  obtain ⟨L, hcb, hL⟩ := set_report_returns (init (fun _ => false)) allLitPayload rfl
    (by decide)
  have hlen : (List.replicate REACTIVE_TIMEOUT_MAX quietInput).length = REACTIVE_TIMEOUT_MAX :=
    List.length_replicate _ _
  obtain ⟨s1, hs1⟩ := main_cycles_key 0 sampleKeycode
    (List.replicate REACTIVE_TIMEOUT_MAX quietInput) _ (show
      ({ init (fun _ => false) with
        lights_report := L, reactive_timeout_count := 0, leds_changed := true } : State).loop_mode
        = LoopMode.key from rfl)
  obtain ⟨_, _, _, h4⟩ := main_cycles_after_write 0 sampleKeycode _ _ s1 hs1 rfl rfl
    (by rw [hlen]; decide) (by rw [hlen])
  have hrel := main_cycles_released 0 sampleKeycode _ _ s1 hs1
    (by
      intro h
      have h2 := congrArg List.length h
      rw [hlen] at h2
      exact absurd h2 (by decide))
    (fun inp hinp j _ => by
      rw [List.eq_of_mem_replicate hinp]
      rfl)
  refine ⟨_, s1, hcb, hlen, hs1, fun i hi => ⟨?_, hrel i hi⟩⟩
  rw [h4 i hi]
  show decide (L i ≠ 0) = true
  rw [hL i hi]
  have hbytes : ∀ k, k < 11 → ((allLitPayload.get? (k + 1)).getD 0) % 256 = 1 := by decide
  rw [hbytes i hi]
  rfl

/-- C10 (as amended): starting from the state just after an accepted host
lighting write, after every sequence of exactly `REACTIVE_TIMEOUT_MAX`
main-loop iterations with no further host write and arbitrary inputs,
`reactive_timeout_count` equals `REACTIVE_TIMEOUT_MAX` (the reactive regime)
and `leds_changed` is false, while each LED line `i` in `0..10` is still
driven as the host pattern says (high iff `lights_report.buttons[i]` is
nonzero).  In the next iteration every LED line `i` is driven to the live
`sw_val[i]` if `update_inputs` leaves `sw_changed` set, and keeps the host
pattern otherwise. -/
theorem C10_lighting_timeout (fuel : Nat) (kc : Nat → Nat) (sPrev s0 s1 : State)
    (buf : List Nat) (inps : List CycleInput)
    (hcb : tud_hid_set_report_cb sPrev 2 HidReportType.output buf = some s0)
    (hid : buf.get? 0 = some 2) (hlen : 11 ≤ buf.length)
    (hn : inps.length = REACTIVE_TIMEOUT_MAX)
    (hrun : main_cycles fuel kc inps s0 = some s1) :
    (s1.reactive_timeout_count = REACTIVE_TIMEOUT_MAX ∧ s1.leds_changed = false
      ∧ ∀ i, i < 11 → s1.gpio_out ( LED_GPIO i) = decide (s0.lights_report i ≠ 0))
    ∧ ∀ (inp : CycleInput) (r : State × List HidOut), main_cycle fuel kc inp s1 = some r →
        ((update_inputs inp.pins inp.enc_in s1).sw_changed = true →
          ∀ i, i < 11 → r.1.gpio_out ( LED_GPIO i) = r.1.sw_val i)
        ∧ ((update_inputs inp.pins inp.enc_in s1).sw_changed = false →
          ∀ i, i < 11 → r.1.gpio_out ( LED_GPIO i) = decide (s0.lights_report i ≠ 0)) := by
  obtain ⟨hc, hl⟩ := set_report_accepted sPrev s0 buf hcb hid hlen
  obtain ⟨h1, h2, _, h4⟩ := main_cycles_after_write fuel kc inps s0 s1 hrun hc hl
    (by rw [hn]; decide) (by rw [hn])
  rw [hn] at h1
  refine ⟨⟨h1, h2, h4⟩, fun inp r hr => ?_⟩
  obtain ⟨g1, g2⟩ := main_cycle_reactive fuel kc inp s1 r hr (by rw [h1]) h2
  exact ⟨g1, fun hsw i hi => by rw [g2 hsw, h4 i hi]⟩

/-- Witness of C10: boot in keyboard mode, the payload `allLitPayload`, then
`REACTIVE_TIMEOUT_MAX` quiet iterations. -/
theorem C10_lighting_timeout_witness :
    ∃ s0 s1, tud_hid_set_report_cb (init (fun _ => false)) 2 HidReportType.output allLitPayload
        = some s0
      ∧ main_cycles 0 sampleKeycode (List.replicate REACTIVE_TIMEOUT_MAX quietInput) s0
        = some s1
      ∧ (s1.reactive_timeout_count = REACTIVE_TIMEOUT_MAX ∧ s1.leds_changed = false
        ∧ ∀ i, i < 11 → s1.gpio_out ( LED_GPIO i) = decide (s0.lights_report i ≠ 0))
      ∧ ∀ (inp : CycleInput) (r : State × List HidOut),
          main_cycle 0 sampleKeycode inp s1 = some r →
          ((update_inputs inp.pins inp.enc_in s1).sw_changed = true →
            ∀ i, i < 11 → r.1.gpio_out ( LED_GPIO i) = r.1.sw_val i)
          ∧ ((update_inputs inp.pins inp.enc_in s1).sw_changed = false →
            ∀ i, i < 11 → r.1.gpio_out ( LED_GPIO i) = decide (s0.lights_report i ≠ 0)) := by
  obtain ⟨L, hcb, _⟩ := set_report_returns (init (fun _ => false)) allLitPayload rfl
    (by decide)
  obtain ⟨s1, hs1⟩ := main_cycles_key 0 sampleKeycode
    (List.replicate REACTIVE_TIMEOUT_MAX quietInput) _ (show
      ({ init (fun _ => false) with
        lights_report := L, reactive_timeout_count := 0, leds_changed := true } : State).loop_mode
        = LoopMode.key from rfl)
  exact ⟨_, s1, hcb, hs1,
    C10_lighting_timeout 0 sampleKeycode (init (fun _ => false)) _ s1 allLitPayload
      (List.replicate REACTIVE_TIMEOUT_MAX quietInput) hcb rfl (by decide)
      (List.length_replicate _ _) hs1⟩

/-! ## Claims on the report functions when the transport is not ready -/

/-- C13: for every state, when `tud_hid_ready()` is false both `joy_mode` and
`key_mode` return at once, emit no report and leave the whole state as it was,
in particular `sw_changed`, `prev_sw_val`, `enc_changed`, `prev_enc_val`,
`cur_enc_val` and `report`; the pending change is still there for the next
iteration: a following call with the transport ready does what it would have
done in place of the skipped one. -/
theorem C13_not_ready_skips_without_consuming (fuel : Nat) (kc : Nat → Nat) (e : Nat → Nat)
    (s : State) :
    joy_mode fuel false e s = some (s, [])
    ∧ key_mode kc false e s = (s, [])
    ∧ (∃ r, joy_mode fuel false e s = some r
        ∧ r.2 = [] ∧ r.1.sw_changed = s.sw_changed ∧ r.1.prev_sw_val = s.prev_sw_val
        ∧ r.1.enc_changed = s.enc_changed ∧ r.1.prev_enc_val = s.prev_enc_val
        ∧ r.1.cur_enc_val = s.cur_enc_val ∧ r.1.report = s.report)
    ∧ ((key_mode kc false e s).2 = []
        ∧ (key_mode kc false e s).1.sw_changed = s.sw_changed
        ∧ (key_mode kc false e s).1.prev_sw_val = s.prev_sw_val
        ∧ (key_mode kc false e s).1.enc_changed = s.enc_changed
        ∧ (key_mode kc false e s).1.prev_enc_val = s.prev_enc_val
        ∧ (key_mode kc false e s).1.cur_enc_val = s.cur_enc_val
        ∧ (key_mode kc false e s).1.report = s.report)
    ∧ (∀ e2 : Nat → Nat,
        (joy_mode fuel false e s).bind (fun r => joy_mode fuel true e2 r.1)
          = joy_mode fuel true e2 s)
    ∧ (∀ e2 : Nat → Nat,
        key_mode kc true e2 (key_mode kc false e s).1 = key_mode kc true e2 s) :=
  ⟨rfl, rfl, ⟨(s, []), rfl, rfl, rfl, rfl, rfl, rfl, rfl, rfl⟩,
    ⟨rfl, rfl, rfl, rfl, rfl, rfl, rfl⟩, fun _ => rfl, fun _ => rfl⟩

/-! ## Claims on the switch part of `update_inputs` -/

/-- C14: for every prior state and every vector of line levels, after
`update_inputs` `sw_val[i]` is true iff line `i` reads low, for every `i` in
`0..10`; `prev_sw_val` is unchanged; `sw_changed` is true iff it was true
before or some `sw_val[i]` differs from `prev_sw_val[i]`; and `leds_changed`
is true iff it was true before or that `sw_changed` is true while
`reactive_timeout_count >= REACTIVE_TIMEOUT_MAX`. -/
theorem C14_switch_tracking (pins : Nat → Bool) (e : Nat → Nat) (s : State) :
    (∀ i, i < 11 → ((update_inputs pins e s).sw_val i = true ↔ pins ( SW_GPIO i) = false))
    ∧ (update_inputs pins e s).prev_sw_val = s.prev_sw_val
    ∧ (update_inputs pins e s).reactive_timeout_count = s.reactive_timeout_count
    ∧ ((update_inputs pins e s).sw_changed = true
        ↔ (s.sw_changed = true
          ∨ ∃ i, i < 11 ∧ (update_inputs pins e s).sw_val i ≠ s.prev_sw_val i))
    ∧ ((update_inputs pins e s).leds_changed = true
        ↔ (s.leds_changed = true
          ∨ ((update_inputs pins e s).sw_changed = true
            ∧ s.reactive_timeout_count ≥ REACTIVE_TIMEOUT_MAX))) := by
  obtain ⟨v, w, l, a, b, c, hs, hv, hw, hl⟩ := update_inputs_shape pins e s
  have hval : ∀ i, i < 11 → (update_inputs pins e s).sw_val i = !pins ( SW_GPIO i) := by
    intro i hi
    rw [hs]
    show v i = _
    rw [hv i, if_pos (show i < SW_COUNT from hi)]
  refine ⟨fun i hi => ?_, by rw [hs], by rw [hs], ?_, ?_⟩
  · rw [hval i hi]
    cases pins ( SW_GPIO i) <;> simp
  · have hsw : (update_inputs pins e s).sw_changed = w := by rw [hs]
    rw [hsw, hw]
    constructor
    · rintro (h | ⟨i, hi, h⟩)
      · exact Or.inl h
      · exact Or.inr ⟨i, hi, by rw [hval i hi]; exact h⟩
    · rintro (h | ⟨i, hi, h⟩)
      · exact Or.inl h
      · exact Or.inr ⟨i, hi, by rw [hval i hi] at h; exact h⟩
  · have hsw : (update_inputs pins e s).sw_changed = w := by rw [hs]
    have hled : (update_inputs pins e s).leds_changed = l := by rw [hs]
    rw [hsw, hled]
    exact hl

/-- Witness of C14: switch 0 pressed on the state left by `init`. -/
theorem C14_switch_tracking_witness :
    ((update_inputs (pressLine 0) (fun _ => 0) (init (fun _ => true))).sw_val 0 = true
      ↔ pressLine 0 ( SW_GPIO 0) = false) :=
  (C14_switch_tracking (pressLine 0) (fun _ => 0) (init (fun _ => true))).1 0 (by decide)

/-! ## Claims on the normalisation loop -/

/-- The counting loop returns what `normalizeLoop` returns. -/
theorem normalizeLoop_eq_iter (fuel : Nat) (p : Int) (k : Nat) :
    normalizeLoop fuel p = (normalizeLoopIter fuel p k).map Prod.fst := by
  induction fuel generalizing p k with
  | zero => rfl
  | succ n ih =>
    unfold normalizeLoop normalizeLoopIter
    split_ifs
    · exact ih _ _
    · rfl

/-- C18: for every negative position `p` for which `ENC_PULSE - p` fits a
signed 32-bit integer (`p >= -(2^31 - 1 - 96)`), the loop
`while (cur_enc_val[i] < 0) cur_enc_val[i] = ENC_PULSE - cur_enc_val[i]` ends
after exactly one pass of its body and leaves `96 - p`, which is not negative;
for `p >= 0` the body does not run and `p` is left as it is.  One test of the
condition is not enough in the first case, two are; one is enough in the second. -/
theorem C18_normalization_loop (p : Int) :
    (p < 0 → -(2 ^ 31 - 1 - 96) ≤ p →
      (∀ fuel, normalizeLoopIter (fuel + 2) p 0 = some (96 - p, 1)
        ∧ normalizeLoop (fuel + 2) p = some (96 - p))
      ∧ normalizeLoop 1 p = none ∧ (0 : Int) ≤ 96 - p)
    ∧ (0 ≤ p → ∀ fuel, normalizeLoopIter (fuel + 1) p 0 = some (p, 0)
        ∧ normalizeLoop (fuel + 1) p = some p)
    ∧ (∀ fuel k, normalizeLoop fuel p = (normalizeLoopIter fuel p k).map Prod.fst) := by
  have hp : (ENC_PULSE : Int) = 96 := by decide
  refine ⟨fun hneg hrep => ⟨fun fuel => ⟨?_, ?_⟩, ?_, by omega⟩,
    fun hpos fuel => ⟨?_, normalizeLoop_of_nonneg fuel p hpos⟩,
    fun fuel k => normalizeLoop_eq_iter fuel p k⟩
  · unfold normalizeLoopIter
    rw [if_pos hneg, toInt32_of_range _ (by omega) (by omega)]
    unfold normalizeLoopIter
    rw [if_neg (by omega), hp]
  · rw [normalizeLoop_of_neg fuel p hneg (by omega), hp]
  · unfold normalizeLoop
    rw [if_pos hneg]
    rfl
  · unfold normalizeLoopIter
    rw [if_neg (by omega)]

/-- Witness of C18 at `p = -1` and at `p = 5`. -/
theorem C18_normalization_loop_witness :
    ((∀ fuel, normalizeLoopIter (fuel + 2) (-1) 0 = some (96 - (-1), 1)
        ∧ normalizeLoop (fuel + 2) (-1) = some (96 - (-1)))
      ∧ normalizeLoop 1 (-1) = none ∧ (0 : Int) ≤ 96 - (-1))
    ∧ (∀ fuel, normalizeLoopIter (fuel + 1) 5 0 = some (5, 0)
        ∧ normalizeLoop (fuel + 1) 5 = some 5) :=
  ⟨(C18_normalization_loop (-1)).1 (by decide) (by decide),
    (C18_normalization_loop 5).2.1 (by decide)⟩

/-! ## Claims on host lighting writes -/

/-- The byte stored for indicator `i` by an applied host write. -/
theorem set_report_pattern (s : State) (buf : List Nat) (hid : buf.get? 0 = some 2)
    (hlen : 12 ≤ buf.length) (hbytes : ∀ b, b ∈ buf → b < 256) :
    ∃ s0, tud_hid_set_report_cb s 2 HidReportType.output buf = some s0
      ∧ s0.reactive_timeout_count = 0 ∧ s0.leds_changed = true
      ∧ (∀ i, i < 11 → ∀ b, buf.get? (i + 1) = some b → s0.lights_report i = b) := by
  obtain ⟨L, hcb, hL⟩ := set_report_returns s buf hid hlen
  refine ⟨_, hcb, rfl, rfl, fun i hi b hb => ?_⟩
  show L i = b
  rw [hL i hi, hb]
  exact Nat.mod_eq_of_lt (hbytes b (List.get?_mem hb))

/-- C11: for every prior state and every accepted lighting payload (the
identifier byte 2 followed by the 11 pattern bytes), the write is applied, and
the first `update_lights` call after `tud_hid_set_report_cb`, whether reached
directly or through `update_inputs` and the report function of the main loop,
drives LED line `i` high iff payload byte `i + 1` is nonzero, for every `i`
in `0..10`, and leaves `leds_changed` false. -/
theorem C11_host_write_takes_effect (fuel : Nat) (kc : Nat → Nat) (s : State)
    (buf : List Nat) (hid : buf.get? 0 = some 2) (hlen : 12 ≤ buf.length)
    (hbytes : ∀ b, b ∈ buf → b < 256) :
    ∃ s0, tud_hid_set_report_cb s 2 HidReportType.output buf = some s0
      ∧ (update_lights s0).leds_changed = false
      ∧ (∀ i, i < 11 → ∀ b, buf.get? (i + 1) = some b →
          (update_lights s0).gpio_out ( LED_GPIO i) = decide (b ≠ 0))
      ∧ (∀ (inp : CycleInput) (r : State × List HidOut),
          main_cycle fuel kc inp s0 = some r →
          r.1.leds_changed = false
          ∧ ∀ i, i < 11 → ∀ b, buf.get? (i + 1) = some b →
              r.1.gpio_out ( LED_GPIO i) = decide (b ≠ 0)) := by
  obtain ⟨s0, hcb, hc, hl, hpat⟩ := set_report_pattern s buf hid hlen hbytes
  obtain ⟨u1, u2, _, _, u5⟩ := update_lights_of_changed s0 hl
  have hcount : (update_lights s0).reactive_timeout_count = 1 := by
    rw [u2, hc]
    decide
  refine ⟨s0, hcb, u1, fun i hi b hb => ?_, fun inp r hr => ?_⟩
  · rw [u5 i hi, hcount, if_neg (by decide), hpat i hi b hb]
  · obtain ⟨_, r2, _, r4⟩ := main_cycle_after_write fuel kc inp s0 r hr hc hl
    exact ⟨r2, fun i hi b hb => by rw [r4 i hi, hpat i hi b hb]⟩

/-- Witness of C11: the payload `allLitPayload` written on the state left by `init`. -/
theorem C11_host_write_takes_effect_witness :
    ∃ s0, tud_hid_set_report_cb (init (fun _ => true)) 2 HidReportType.output allLitPayload
        = some s0
      ∧ (update_lights s0).leds_changed = false
      ∧ (∀ i, i < 11 → ∀ b, allLitPayload.get? (i + 1) = some b →
          (update_lights s0).gpio_out ( LED_GPIO i) = decide (b ≠ 0))
      ∧ (∀ (inp : CycleInput) (r : State × List HidOut),
          main_cycle 2 sampleKeycode inp s0 = some r →
          r.1.leds_changed = false
          ∧ ∀ i, i < 11 → ∀ b, allLitPayload.get? (i + 1) = some b →
              r.1.gpio_out ( LED_GPIO i) = decide (b ≠ 0)) :=
  C11_host_write_takes_effect 2 sampleKeycode (init (fun _ => true)) allLitPayload rfl
    (by decide) (by decide)

/-- C12 (the code at the failing input): a write with report identifier 2,
type OUTPUT and the 11-byte buffer `shortPayload`, whose first byte is 2,
passes the test `bufsize >= sizeof(lights_report)`.  The copy loop then runs:
its first ten passes store `buffer[1] .. buffer[10]` into `lights_report`
(entries 0 and 9 are shown), and
the eleventh reads `buffer[11]`, an index that is not below `bufsize`.  With an
empty buffer the test itself reads `buffer[0]`. -/
theorem C12_eleven_byte_write_is_not_ignored (s : State) :
    shortPayload.length = 11
    ∧ shortPayload.get? 0 = some 2
    ∧ (∃ s1, forUpOpt (set_report_copy shortPayload) 10 s = some s1
        ∧ s1.lights_report 0 = 1 ∧ s1.lights_report 9 = 1
        ∧ set_report_copy shortPayload 10 s1 = none)
    ∧ tud_hid_set_report_cb s 2 HidReportType.output shortPayload = none
    ∧ tud_hid_set_report_cb s 2 HidReportType.output [] = none := by
  obtain ⟨L, hL, hL2⟩ := set_report_copy_loop shortPayload s 10 (by decide)
  have hbytes : ∀ k, k < 10 → ((shortPayload.get? (k + 1)).getD 0) % 256 = 1 := by decide
  have hloop : forUpOpt (set_report_copy shortPayload) 11 s = none := by
    show (forUpOpt (set_report_copy shortPayload) 10 s).bind (set_report_copy shortPayload 10)
      = none
    rw [hL]
    rfl
  have hL3 : ∀ i, i < 10 → L i = 1 := fun i hi => by rw [hL2 i, if_pos hi, hbytes i hi]
  refine ⟨rfl, rfl, ⟨_, hL, hL3 0 (by decide), hL3 9 (by decide), rfl⟩, ?_, rfl⟩
  · unfold tud_hid_set_report_cb
    simp only [true_and, if_true, show shortPayload.get? 0 = some 2 from rfl, ge_iff_le,
      show 11 ≤ shortPayload.length by decide, and_self, hloop, Option.map_none']

/-! ## Invariants over the events after `init` -/

/-- What a returning `tud_hid_set_report_cb` can do: nothing, or the whole write. -/
theorem set_report_cases (s s1 : State) (report_id : Nat) (report_type : HidReportType)
    (buf : List Nat) (h : tud_hid_set_report_cb s report_id report_type buf = some s1) :
    s1 = s ∨ (report_id = 2 ∧ report_type = HidReportType.output ∧ buf.get? 0 = some 2
      ∧ 12 ≤ buf.length
      ∧ ∃ L, s1 = { s with lights_report := L, reactive_timeout_count := 0,
                           leds_changed := true }) := by
  unfold tud_hid_set_report_cb at h
  by_cases hc : report_id = 2 ∧ report_type = HidReportType.output
  · rw [if_pos hc] at h
    cases hb : buf.get? 0 with
    | none =>
      rw [hb] at h
      exact absurd h (by simp)
    | some b0 =>
      rw [hb] at h
      dsimp only at h
      by_cases hc2 : b0 = 2 ∧ buf.length ≥ 11
      · rw [if_pos hc2] at h
        obtain ⟨rfl, hlen⟩ := hc2
        by_cases h12 : 12 ≤ buf.length
        · obtain ⟨L, hL, _⟩ := set_report_copy_loop buf s 11 (by omega)
          rw [hL] at h
          simp only [Option.map_some', Option.some.injEq] at h
          exact Or.inr ⟨hc.1, hc.2, rfl, h12, L, h.symm⟩
        · exfalso
          obtain ⟨L, hL, _⟩ := set_report_copy_loop buf s 10 (by omega)
          have hnone : buf.get? (10 + 1) = none := by
            rw [List.get?_eq_none]
            omega
          have hloop : forUpOpt (set_report_copy buf) 11 s = none := by
            show (forUpOpt (set_report_copy buf) 10 s).bind (set_report_copy buf 10) = none
            rw [hL, Option.some_bind]
            unfold set_report_copy
            rw [hnone]
            rfl
          rw [hloop] at h
          exact absurd h (by simp)
      · rw [if_neg hc2] at h
        exact Or.inl (Option.some.inj h).symm
  · rw [if_neg hc] at h
    exact Or.inl (Option.some.inj h).symm

/-- The counter after `update_lights`. -/
theorem update_lights_count (s : State) :
    (update_lights s).reactive_timeout_count
      = if s.reactive_timeout_count < REACTIVE_TIMEOUT_MAX then s.reactive_timeout_count + 1
        else s.reactive_timeout_count := by
  unfold update_lights
  dsimp only
  split_ifs <;> rfl

/-- The counter and the mode after `update_inputs`. -/
theorem update_inputs_count (pins : Nat → Bool) (e : Nat → Nat) (s : State) :
    (update_inputs pins e s).reactive_timeout_count = s.reactive_timeout_count
    ∧ (update_inputs pins e s).loop_mode = s.loop_mode := by
  obtain ⟨v, w, l, a, b, c, hs, _⟩ := update_inputs_shape pins e s
  rw [hs]
  exact ⟨rfl, rfl⟩

/-- The mode after `update_lights`. -/
theorem update_lights_mode (s : State) : (update_lights s).loop_mode = s.loop_mode := by
  obtain ⟨n, g, l, hl⟩ := update_lights_shape s
  rw [hl]

/-! ## Claims on the ring buffer -/

/-- C16 (the code at the failing input): from the state left by `init`, feed
`update_inputs` the raw samples `1, 2, 3, ...`, one per call.  After 255 calls
the cursor `enc_debounce_idx[i]` is 255, and the 256th call leaves it at 0,
whereas `(255 + 1) mod ENC_DEBOUNCE_CYCLES` is 256.  After
`ENC_DEBOUNCE_CYCLES` calls slot 256 still holds the 0 of the static
initialiser, not the sample 257 of call 257, and slot 0 holds the sample 9985,
not the sample 1 of call 1: only 256 of the `ENC_DEBOUNCE_CYCLES` slots are
ever written.  The same holds for both encoders. -/
theorem C16_cursor_wraps_at_256 (pins : Nat → Bool) :
    (feed_inputs pins (rawSamples (fun k => k) 255) (init pins)).enc_debounce_idx 0 = 255
    ∧ (feed_inputs pins (rawSamples (fun k => k) 255) (init pins)).enc_debounce_idx 1 = 255
    ∧ (update_inputs pins (fun _ => 256)
        (feed_inputs pins (rawSamples (fun k => k) 255) (init pins))).enc_debounce_idx 0 = 0
    ∧ (update_inputs pins (fun _ => 256)
        (feed_inputs pins (rawSamples (fun k => k) 255) (init pins))).enc_debounce_idx 1 = 0
    ∧ (255 + 1) % ENC_DEBOUNCE_CYCLES = 256
    ∧ (feed_inputs pins (rawSamples (fun k => k) ENC_DEBOUNCE_CYCLES)
        (init pins)).enc_debounce_val 0 256 = 0
    ∧ (feed_inputs pins (rawSamples (fun k => k) ENC_DEBOUNCE_CYCLES)
        (init pins)).enc_debounce_val 1 256 = 0
    ∧ (feed_inputs pins (rawSamples (fun k => k) ENC_DEBOUNCE_CYCLES)
        (init pins)).enc_debounce_val 0 0 = 9985
    ∧ (feed_inputs pins (rawSamples (fun k => k) ENC_DEBOUNCE_CYCLES)
        (init pins)).enc_debounce_val 1 0 = 9985 := by
  have hstep : update_inputs pins (fun _ => 256)
      (feed_inputs pins (rawSamples (fun k => k) 255) (init pins))
      = feed_inputs pins (rawSamples (fun k => k) 256) (init pins) :=
    (feed_rawSamples_succ pins (fun k => k) 255 (init pins)).symm
  have hslot : ∀ i, i < 2 → (feed_inputs pins (rawSamples (fun k => k) ENC_DEBOUNCE_CYCLES)
      (init pins)).enc_debounce_val i 0 = 9985 := by
    intro i hi
    have h := feed_slot pins (fun k => k) i hi ENC_DEBOUNCE_CYCLES 9985 (by omega)
      (by unfold ENC_DEBOUNCE_CYCLES; omega) (by unfold ENC_DEBOUNCE_CYCLES; omega)
    have h9 : (9985 - 1) % 256 = 0 := by norm_num
    rw [h9] at h
    exact h
  refine ⟨feed_idx pins _ 0 (by decide) 255, feed_idx pins _ 1 (by decide) 255, ?_, ?_,
    by decide, feed_high pins _ 0 (by decide) _ 256 (le_refl _),
    feed_high pins _ 1 (by decide) _ 256 (le_refl _), hslot 0 (by decide), hslot 1 (by decide)⟩
  · rw [hstep]
    exact feed_idx pins _ 0 (by decide) 256
  · rw [hstep]
    exact feed_idx pins _ 1 (by decide) 256

/-! ## Claims on what `key_mode` leaves behind -/

/-- In keyboard mode one iteration of the main loop is `update_inputs`,
`key_mode`, `update_lights`. -/
theorem main_cycle_key_eq (fuel : Nat) (kc : Nat → Nat) (inp : CycleInput) (s : State)
    (hm : s.loop_mode = LoopMode.key) :
    main_cycle fuel kc inp s
      = some (update_lights (key_mode kc inp.ready inp.enc_rep
            (update_inputs inp.pins inp.enc_in s)).1,
          (key_mode kc inp.ready inp.enc_rep (update_inputs inp.pins inp.enc_in s)).2) := by
  have hmode : (update_inputs inp.pins inp.enc_in s).loop_mode = LoopMode.key := by
    rw [(update_inputs_count inp.pins inp.enc_in s).2, hm]
  unfold main_cycle
  simp only [hmode]

/-- The fields of the state after an iteration of the main loop in keyboard mode. -/
theorem main_cycle_key_fields (fuel : Nat) (kc : Nat → Nat) (inp : CycleInput) (s : State)
    (hm : s.loop_mode = LoopMode.key) :
    ∃ r, main_cycle fuel kc inp s = some r
      ∧ r.1.loop_mode = LoopMode.key
      ∧ r.1.prev_sw_val
          = (key_mode kc inp.ready inp.enc_rep (update_inputs inp.pins inp.enc_in s)).1.prev_sw_val
      ∧ r.1.sw_val
          = (key_mode kc inp.ready inp.enc_rep (update_inputs inp.pins inp.enc_in s)).1.sw_val
      ∧ r.1.enc_changed
          = (key_mode kc inp.ready inp.enc_rep (update_inputs inp.pins inp.enc_in s)).1.enc_changed
      ∧ r.1.sw_changed
          = (key_mode kc inp.ready inp.enc_rep (update_inputs inp.pins inp.enc_in s)).1.sw_changed
      ∧ r.1.prev_enc_val
          = (key_mode kc inp.ready inp.enc_rep (update_inputs inp.pins inp.enc_in s)).1.prev_enc_val
      ∧ r.2 = (key_mode kc inp.ready inp.enc_rep (update_inputs inp.pins inp.enc_in s)).2 := by
  refine ⟨_, main_cycle_key_eq fuel kc inp s hm, ?_⟩
  obtain ⟨n, g, l, hl⟩ := update_lights_shape
    (key_mode kc inp.ready inp.enc_rep (update_inputs inp.pins inp.enc_in s)).1
  dsimp only
  rw [hl]
  refine ⟨?_, rfl, rfl, rfl, rfl, rfl, rfl⟩
  show (key_mode kc inp.ready inp.enc_rep (update_inputs inp.pins inp.enc_in s)).1.loop_mode = _
  rw [(key_mode_frame kc inp.ready inp.enc_rep _).2.2.1,
    (update_inputs_count inp.pins inp.enc_in s).2, hm]

/-- Function `key_mode`, transport ready and `sw_changed` set: a released
switch keeps its `prev_sw_val`. -/
theorem key_mode_released (kc : Nat → Nat) (hkc : ∀ i, kc i < 256) (e : Nat → Nat) (s : State)
    (hsw : s.sw_changed = true) (i : Nat) (hrel : s.sw_val i = false) :
    (key_mode kc true e s).1.prev_sw_val i = s.prev_sw_val i
    ∧ (key_mode kc true e s).1.sw_val i = false := by
  obtain ⟨q, p, c, rest, hk, _, hq⟩ := key_mode_keyboard kc hkc e s hsw
  rw [hk]
  refine ⟨?_, hrel⟩
  show q i = _
  rw [hq i, if_neg (by rw [hrel]; simp)]

/-- A main-loop iteration in keyboard mode with the line of switch `i0`
released while `prev_sw_val[i0]` is true: a keyboard report is sent and
`prev_sw_val[i0]` is still true afterwards. -/
theorem key_cycle_stuck (fuel : Nat) (kc : Nat → Nat) (hkc : ∀ i, kc i < 256)
    (inp : CycleInput) (s : State) (hm : s.loop_mode = LoopMode.key)
    (hready : inp.ready = true) (i0 : Nat) (hi0 : i0 < SW_COUNT)
    (hpin : inp.pins ( SW_GPIO i0) = true) (hprev : s.prev_sw_val i0 = true) :
    (update_inputs inp.pins inp.enc_in s).sw_changed = true
    ∧ (key_mode kc true inp.enc_rep (update_inputs inp.pins inp.enc_in s)).1.sw_val i0 = false
    ∧ (key_mode kc true inp.enc_rep (update_inputs inp.pins inp.enc_in s)).1.prev_sw_val i0
        = true
    ∧ ∃ r, main_cycle fuel kc inp s = some r
        ∧ r.1.loop_mode = LoopMode.key ∧ r.1.sw_val i0 = false ∧ r.1.prev_sw_val i0 = true
        ∧ ∃ nk rest, r.2 = HidOut.keyboard nk :: rest := by
  obtain ⟨v, w, l, a, b, c, hs1, hv, hw, _⟩ := update_inputs_shape inp.pins inp.enc_in s
  have hw1 : (update_inputs inp.pins inp.enc_in s).sw_changed = true := by
    rw [hs1]
    refine hw.mpr (Or.inr ⟨i0, hi0, ?_⟩)
    rw [hpin, hprev]
    decide
  have hv1 : (update_inputs inp.pins inp.enc_in s).sw_val i0 = false := by
    rw [hs1]
    show v i0 = false
    rw [hv i0, if_pos hi0, hpin]
    rfl
  have hp1 : (update_inputs inp.pins inp.enc_in s).prev_sw_val i0 = true := by
    rw [hs1]
    exact hprev
  obtain ⟨k1, k2⟩ := key_mode_released kc hkc inp.enc_rep _ hw1 i0 hv1
  obtain ⟨_, _, _, rest, _, hout, _⟩ := key_mode_keyboard kc hkc inp.enc_rep _ hw1
  obtain ⟨r, hr, r1, r2, r3, _, _, _, r7⟩ := main_cycle_key_fields fuel kc inp s hm
  rw [hready] at r2 r3 r7
  refine ⟨hw1, k2, k1.trans hp1, r, hr, r1, ?_, ?_, _, rest, r7.trans hout⟩
  · rw [r3]
    exact k2
  · rw [r2]
    exact k1.trans hp1

/-- The keycodes of `sampleKeycode` are 8-bit. -/
theorem sampleKeycode_lt (i : Nat) : sampleKeycode i < 256 := by
  unfold sampleKeycode
  split_ifs <;> omega

/-- C19 (the code at the failing input): boot in keyboard mode with switch 0
held, one main-loop iteration with switch 0 still pressed, then two iterations
with every switch released, the transport always ready.  All three iterations
return.  The second `key_mode` call is entered with `sw_changed` set and
returns with `sw_val[0]` false but `prev_sw_val[0]` still true.  In the third
iteration the switch lines are the same as in the second, yet `update_inputs`
sets `sw_changed` again and `key_mode` sends a keyboard report again; the state
after it still has `prev_sw_val[0]` true and `sw_val[0]` false. -/
theorem C19_released_switch_keeps_baseline (fuel : Nat) :
    ∃ r1 r2 r3,
      (init (pressLine 0)).loop_mode = LoopMode.key
      ∧ main_cycle fuel sampleKeycode pressInput (init (pressLine 0)) = some r1
      ∧ main_cycle fuel sampleKeycode quietInput r1.1 = some r2
      ∧ main_cycle fuel sampleKeycode quietInput r2.1 = some r3
      ∧ (update_inputs quietInput.pins quietInput.enc_in r1.1).sw_changed = true
      ∧ (key_mode sampleKeycode true quietInput.enc_rep
          (update_inputs quietInput.pins quietInput.enc_in r1.1)).1.sw_val 0 = false
      ∧ (key_mode sampleKeycode true quietInput.enc_rep
          (update_inputs quietInput.pins quietInput.enc_in r1.1)).1.prev_sw_val 0 = true
      ∧ r2.1.sw_val 0 = false ∧ r2.1.prev_sw_val 0 = true
      ∧ (update_inputs quietInput.pins quietInput.enc_in r2.1).sw_changed = true
      ∧ (∃ nk rest, r3.2 = HidOut.keyboard nk :: rest)
      ∧ r3.1.sw_val 0 = false ∧ r3.1.prev_sw_val 0 = true := by
  have hm0 : (init (pressLine 0)).loop_mode = LoopMode.key := by decide
  obtain ⟨r1, hr1, m1, p1, _⟩ :=
    main_cycle_key_fields fuel sampleKeycode pressInput (init (pressLine 0)) hm0
  have hprev1 : r1.1.prev_sw_val 0 = true := by
    have h := (key_cycle_keyboard sampleKeycode sampleKeycode_lt (pressLine 0) (fun _ => 0)
      (fun _ => 0) (init (pressLine 0)) 0 (by decide) (by decide)).2.2 0 (by decide) (by decide)
    obtain ⟨n, g, l, hl⟩ := update_lights_shape (key_mode sampleKeycode true (fun _ => 0)
      (update_inputs (pressLine 0) (fun _ => 0) (init (pressLine 0)))).1
    rw [hl] at h
    rw [p1]
    exact h
  obtain ⟨a1, a2, a3, r2, hr2, m2, v2, p2, _⟩ :=
    key_cycle_stuck fuel sampleKeycode sampleKeycode_lt quietInput r1.1 m1 rfl 0 (by decide)
      rfl hprev1
  obtain ⟨b1, _, _, r3, hr3, _, v3, p3, out3⟩ :=
    key_cycle_stuck fuel sampleKeycode sampleKeycode_lt quietInput r2.1 m2 rfl 0 (by decide)
      rfl p2
  exact ⟨r1, r2, r3, hm0, hr1, hr2, hr3, a1, a2, a3, v2, p2, b1, out3, v3, p3⟩

/-- The outer encoder body of `key_mode` never writes `enc_changed[1]`. -/
theorem key_mode_enc_flag1 (e : Nat → Nat) (i : Nat) (a : Bool × (Nat → Int) × State) :
    (key_mode_enc e i a).2.2.enc_changed 1 = a.2.2.enc_changed 1 := by
  by_cases h : a.2.2.enc_changed i = true
  · rw [key_mode_enc_of_changed e i a h]
    show upd a.2.2.enc_changed 0 false 1 = _
    rw [upd_apply, if_neg (by decide)]
  · unfold key_mode_enc
    rw [if_neg h]

/-- Function `key_mode` never writes `enc_changed[1]`. -/
theorem key_mode_flag1 (kc : Nat → Nat) (ready : Bool) (e : Nat → Nat) (s : State) :
    (key_mode kc ready e s).1.enc_changed 1 = s.enc_changed 1 := by
  have hloop : ∀ k : State,
      (forUp (key_mode_enc e) ENC_COUNT (false, fun _ => 0, k)).2.2.enc_changed 1
        = k.enc_changed 1 := by
    intro k
    have hstep : forUp (key_mode_enc e) ENC_COUNT (false, fun _ => 0, k)
        = key_mode_enc e 1 (key_mode_enc e 0 (false, fun _ => 0, k)) := rfl
    rw [hstep, key_mode_enc_flag1, key_mode_enc_flag1]
  unfold key_mode
  cases ready
  · rfl
  · simp only [if_true]
    cases hsw : s.sw_changed
    · simp only [Bool.false_eq_true, if_false]
      split_ifs
      · exact hloop s
      · exact hloop s
    · simp only [if_true]
      obtain ⟨q, hq⟩ := key_mode_switch_shape kc s (fun _ => 0) SW_COUNT
      split_ifs
      · dsimp only
        rw [hloop, hq]
      · dsimp only
        rw [hloop, hq]

/-- Function `key_mode`, transport ready, no switch change, only the flag of
encoder 1 set: a mouse report is sent. -/
theorem key_mode_flag1_sends (kc : Nat → Nat) (e : Nat → Nat) (s : State)
    (hsw : s.sw_changed = false) (h0 : s.enc_changed 0 = false)
    (h1 : s.enc_changed 1 = true) :
    (key_mode kc true e s).2
      = [HidOut.mouse (mouseDelta (ENC_REV 0) (s.prev_enc_val 0) (e 0))
          (mouseDelta (ENC_REV 1) (s.prev_enc_val 1) (e 1))] := by
  have hstep : forUp (key_mode_enc e) ENC_COUNT (false, fun _ => 0, s)
      = key_mode_enc e 1 (key_mode_enc e 0 (false, fun _ => 0, s)) := rfl
  have hpass0 : key_mode_enc e 0 (false, fun _ => 0, s) = (false, fun _ => 0, s) := by
    unfold key_mode_enc
    rw [if_neg (by rw [h0]; simp)]
  have hm : forUp (key_mode_enc e) ENC_COUNT (false, fun _ => 0, s)
      = (true,
        upd (upd (fun _ => 0) 0 (mouseDelta (ENC_REV 0) (s.prev_enc_val 0) (e 0))) 1
          (mouseDelta (ENC_REV 1) (s.prev_enc_val 1) (e 1)),
        { s with
          prev_enc_val := upd (upd s.prev_enc_val 0 (e 0)) 1 (e 1)
          enc_changed := upd s.enc_changed 0 false }) := by
    rw [hstep, hpass0, key_mode_enc_of_changed e 1 _ h1]
  unfold key_mode
  simp only [if_true, hsw, Bool.false_eq_true, if_false, hm, List.nil_append]
  rfl

/-- Function `key_mode`, transport ready, no switch change, both encoder flags
set: the state it leaves. -/
theorem key_mode_both_state (kc : Nat → Nat) (e : Nat → Nat) (s : State)
    (hsw : s.sw_changed = false) (h0 : s.enc_changed 0 = true) (h1 : s.enc_changed 1 = true) :
    (key_mode kc true e s).1.enc_changed 0 = false
    ∧ (key_mode kc true e s).1.sw_changed = false
    ∧ (key_mode kc true e s).1.prev_enc_val 0 = e 0
    ∧ (key_mode kc true e s).1.prev_enc_val 1 = e 1 := by
  have hstep : forUp (key_mode_enc e) ENC_COUNT (false, fun _ => 0, s)
      = key_mode_enc e 1 (key_mode_enc e 0 (false, fun _ => 0, s)) := rfl
  have hm : ∃ D, forUp (key_mode_enc e) ENC_COUNT (false, fun _ => 0, s)
      = (true, D,
        { s with
          prev_enc_val := upd (upd (upd (upd s.prev_enc_val 0 (e 0)) 1 (e 1)) 0 (e 0)) 1 (e 1)
          enc_changed := upd (upd s.enc_changed 0 false) 0 false }) := by
    rw [hstep, key_mode_enc_of_changed e 0 _ h0, key_mode_enc_of_changed e 1 _ (by
      show upd s.enc_changed 0 false 1 = true
      rw [upd_apply, if_neg (by decide)]
      exact h1)]
    exact ⟨_, rfl⟩
  obtain ⟨D, hm⟩ := hm
  unfold key_mode
  simp only [if_true, hsw, Bool.false_eq_true, if_false, hm]
  refine ⟨?_, ?_, ?_, ?_⟩
  · show upd (upd s.enc_changed 0 false) 0 false 0 = false
    rw [upd_apply, if_pos rfl]
  · trivial
  · show upd (upd (upd (upd s.prev_enc_val 0 (e 0)) 1 (e 1)) 0 (e 0)) 1 (e 1) 0 = e 0
    rw [upd_apply, if_neg (by decide), upd_apply, if_pos rfl]
  · show upd (upd (upd (upd s.prev_enc_val 0 (e 0)) 1 (e 1)) 0 (e 0)) 1 (e 1) 1 = e 1
    rw [upd_apply, if_pos rfl]

/-- C20 (the code at the failing input): no call of `key_mode` changes
`enc_changed[1]`.  Boot in keyboard mode (all switch lines low during `init`),
then one main-loop iteration with all switches released, both encoder counters
at 1 and the transport ready: `update_inputs` sets both flags, `key_mode`
sends one mouse report, and in the state the iteration returns
`enc_changed[0]` is false but `enc_changed[1]` is still true.  A further call of
`key_mode` on that state, with the same counters and no `update_inputs` in
between, sends a mouse report again and still leaves `enc_changed[1]` true. -/
theorem C20_second_encoder_flag_stays_set (fuel : Nat) (kc : Nat → Nat) :
    (∀ (ready : Bool) (e : Nat → Nat) (s : State),
        (key_mode kc ready e s).1.enc_changed 1 = s.enc_changed 1)
    ∧ (update_inputs pulseInput.pins pulseInput.enc_in (init (fun _ => false))).enc_changed 1
        = true
    ∧ (key_mode kc true pulseInput.enc_rep
        (update_inputs pulseInput.pins pulseInput.enc_in (init (fun _ => false)))).1.enc_changed 1
        = true
    ∧ ∃ r, main_cycle fuel kc pulseInput (init (fun _ => false)) = some r
        ∧ r.2 = [HidOut.mouse 0 0]
        ∧ r.1.enc_changed 0 = false ∧ r.1.enc_changed 1 = true
        ∧ (key_mode kc true bothPulse r.1).2 = [HidOut.mouse 0 0]
        ∧ (key_mode kc true bothPulse r.1).1.enc_changed 1 = true := by
  obtain ⟨h0, h1⟩ := bothPulse_flags (fun _ => true) (fun _ => false)
  obtain ⟨v, w, l, a, b, c, hs, _, hw, _⟩ :=
    update_inputs_shape (fun _ => true) bothPulse (init (fun _ => false))
  have hsw : (update_inputs (fun _ => true) bothPulse (init (fun _ => false))).sw_changed
      = false := by
    rw [hs]
    show w = false
    cases hw' : w
    · rfl
    · exfalso
      rcases hw.mp hw' with h | ⟨i, _, h⟩
      · exact Bool.noConfusion h
      · exact h rfl
  have hout := key_mode_both_flagged kc bothPulse _ hsw h0 h1
  have hzero : mouseDelta (ENC_REV 0) (bothPulse 0) (bothPulse 0) = 0
      ∧ mouseDelta (ENC_REV 1) (bothPulse 1) (bothPulse 1) = 0 := by decide
  rw [hzero.1, hzero.2] at hout
  have hk1 : (key_mode kc true bothPulse
      (update_inputs (fun _ => true) bothPulse (init (fun _ => false)))).1.enc_changed 1
      = true := by
    rw [key_mode_flag1]
    exact h1
  obtain ⟨r, hr, _, _, _, r4, r5, r6, r7⟩ :=
    main_cycle_key_fields fuel kc
      { pins := fun _ => true, enc_in := bothPulse, enc_rep := bothPulse, ready := true }
      (init (fun _ => false)) rfl
  dsimp only at r4 r5 r6 r7
  simp only [pulseInput]
  obtain ⟨k0, k2, k3, k4⟩ := key_mode_both_state kc bothPulse _ hsw h0 h1
  have e0 : r.1.enc_changed 0 = false := by rw [r4]; exact k0
  have e1 : r.1.enc_changed 1 = true := by rw [r4]; exact hk1
  have e2 : r.1.sw_changed = false := by rw [r5]; exact k2
  have e3 : r.1.prev_enc_val 0 = bothPulse 0 := by rw [r6]; exact k3
  have e4 : r.1.prev_enc_val 1 = bothPulse 1 := by rw [r6]; exact k4
  have hout2 := key_mode_flag1_sends kc bothPulse r.1 e2 e0 e1
  rw [e3, e4, hzero.1, hzero.2] at hout2
  refine ⟨fun ready e s => key_mode_flag1 kc ready e s, h1, hk1, r, hr, r7.trans hout, e0, e1,
    hout2, ?_⟩
  rw [key_mode_flag1]
  exact e1

/-! ## Host writes on every input, and invariants over the events after `init` -/

/-- The copy loop of `tud_hid_set_report_cb` writes `lights_report` only. -/
theorem set_report_copy_mem_loop (buf : List Nat) (behind : Nat → Nat) (s : State) (n : Nat) :
    ∃ L, forUp (set_report_copy_mem buf behind) n s = { s with lights_report := L }
      ∧ ∀ i, L i = if i < n then buffer_at buf behind (i + 1) % 256 else s.lights_report i := by
  induction n with
  | zero => exact ⟨s.lights_report, rfl, fun i => by simp⟩
  | succ n ih =>
    obtain ⟨L, hL, hL2⟩ := ih
    refine ⟨upd L n (buffer_at buf behind (n + 1) % 256), ?_, fun i => ?_⟩
    · show set_report_copy_mem buf behind n (forUp (set_report_copy_mem buf behind) n s) = _
      rw [hL]
      rfl
    · rw [upd_apply]
      by_cases hin : i = n
      · subst hin
        rw [if_pos rfl, if_pos (show i < i + 1 by omega)]
      · rw [if_neg hin, hL2 i]
        by_cases hlt : i < n
        · rw [if_pos hlt, if_pos (show i < n + 1 by omega)]
        · rw [if_neg hlt, if_neg (show ¬ i < n + 1 by omega)]

/-- What `tud_hid_set_report_cb` does on any input: the whole write when its
test passes, nothing otherwise. -/
theorem set_report_mem_cases (s : State) (report_id : Nat) (report_type : HidReportType)
    (buf : List Nat) (behind : Nat → Nat) :
    ((report_id = 2 ∧ report_type = HidReportType.output
        ∧ buffer_at buf behind 0 = 2 ∧ buf.length ≥ 11) →
      ∃ L, tud_hid_set_report_cb_mem s report_id report_type buf behind
          = { s with lights_report := L, reactive_timeout_count := 0, leds_changed := true }
        ∧ ∀ i, L i = if i < 11 then buffer_at buf behind (i + 1) % 256 else s.lights_report i)
    ∧ (¬ (report_id = 2 ∧ report_type = HidReportType.output
        ∧ buffer_at buf behind 0 = 2 ∧ buf.length ≥ 11) →
      tud_hid_set_report_cb_mem s report_id report_type buf behind = s) := by
  constructor
  · intro hg
    obtain ⟨L, hL, hL2⟩ := set_report_copy_mem_loop buf behind s 11
    refine ⟨L, ?_, hL2⟩
    unfold tud_hid_set_report_cb_mem
    rw [if_pos hg]
    dsimp only
    rw [hL]
  · intro hg
    unfold tud_hid_set_report_cb_mem
    rw [if_neg hg]

/-- Where the buffer is long enough for every byte the callback reads, the
callback on every input gives the state of `tud_hid_set_report_cb`. -/
theorem set_report_mem_of_some (s s1 : State) (report_id : Nat) (report_type : HidReportType)
    (buf : List Nat) (behind : Nat → Nat)
    (h : tud_hid_set_report_cb s report_id report_type buf = some s1) :
    tud_hid_set_report_cb_mem s report_id report_type buf behind = s1 := by
  obtain ⟨hyes, hno⟩ := set_report_mem_cases s report_id report_type buf behind
  by_cases hg : report_id = 2 ∧ report_type = HidReportType.output
      ∧ buffer_at buf behind 0 = 2 ∧ buf.length ≥ 11
  · obtain ⟨L, hL, hL2⟩ := hyes hg
    obtain ⟨rfl, rfl, h0, hlen⟩ := hg
    have hget : buf.get? 0 = some 2 := by
      cases hb : buf.get? 0 with
      | none =>
        rw [List.get?_eq_none] at hb
        omega
      | some b =>
        unfold buffer_at at h0
        rw [hb] at h0
        exact congrArg some h0
    have h12 : 12 ≤ buf.length := by
      by_contra hlt
      obtain ⟨M, hM, _⟩ := set_report_copy_loop buf s 10 (by omega)
      have hnone : buf.get? (10 + 1) = none := by
        rw [List.get?_eq_none]
        omega
      have hloop : forUpOpt (set_report_copy buf) 11 s = none := by
        show (forUpOpt (set_report_copy buf) 10 s).bind (set_report_copy buf 10) = none
        rw [hM, Option.some_bind]
        unfold set_report_copy
        rw [hnone]
        rfl
      unfold tud_hid_set_report_cb at h
      simp only [true_and, if_true, hget, ge_iff_le, hlen, and_self, hloop,
        Option.map_none'] at h
      exact absurd h (by simp)
    obtain ⟨M, hM, hM2⟩ := set_report_returns s buf hget h12
    rw [hM] at h
    rw [hL, ← Option.some.inj h]
    have hLM : L = M := by
      funext i
      rw [hL2 i]
      obtain ⟨N, hN, hN2⟩ := set_report_copy_loop buf s 11 (by omega)
      have hMN : M = N := by
        have e1 : tud_hid_set_report_cb s 2 HidReportType.output buf
            = some { s with lights_report := N, reactive_timeout_count := 0,
                            leds_changed := true } := by
          unfold tud_hid_set_report_cb
          simp only [true_and, if_true, hget, ge_iff_le, hlen, and_self, hN, Option.map_some']
        rw [hM] at e1
        exact congrArg State.lights_report (Option.some.inj e1)
      rw [hMN, hN2 i]
      by_cases hi : i < 11
      · rw [if_pos hi, if_pos hi]
        cases hb : buf.get? (i + 1) with
        | none =>
          rw [List.get?_eq_none] at hb
          omega
        | some b =>
          unfold buffer_at
          rw [hb]
          rfl
      · rw [if_neg hi, if_neg hi]
    rw [hLM]
  · rw [hno hg]
    have hsome : tud_hid_set_report_cb s report_id report_type buf = some s := by
      unfold tud_hid_set_report_cb
      by_cases hc : report_id = 2 ∧ report_type = HidReportType.output
      · rw [if_pos hc]
        cases hb : buf.get? 0 with
        | none =>
          exfalso
          unfold tud_hid_set_report_cb at h
          rw [if_pos hc, hb] at h
          exact absurd h (by simp)
        | some b0 =>
          dsimp only
          have hb0 : buffer_at buf behind 0 = b0 := by
            unfold buffer_at
            rw [hb]
            rfl
          rw [if_neg (fun hc2 => hg ⟨hc.1, hc.2, hb0.trans hc2.1, hc2.2⟩)]
      · rw [if_neg hc]
    rw [hsome] at h
    exact Option.some.inj h

/-- The counter after `tud_hid_set_report_cb`, on any input. -/
theorem set_report_mem_count (s : State) (report_id : Nat) (report_type : HidReportType)
    (buf : List Nat) (behind : Nat → Nat) :
    (tud_hid_set_report_cb_mem s report_id report_type buf behind).reactive_timeout_count
      = if report_id = 2 ∧ report_type = HidReportType.output
          ∧ buffer_at buf behind 0 = 2 ∧ buf.length ≥ 11 then 0
        else s.reactive_timeout_count := by
  obtain ⟨hyes, hno⟩ := set_report_mem_cases s report_id report_type buf behind
  by_cases hg : report_id = 2 ∧ report_type = HidReportType.output
      ∧ buffer_at buf behind 0 = 2 ∧ buf.length ≥ 11
  · obtain ⟨L, hL, _⟩ := hyes hg
    rw [if_pos hg, hL]
  · rw [if_neg hg, hno hg]

/-- The mode after `tud_hid_set_report_cb`, on any input. -/
theorem set_report_mem_mode (s : State) (report_id : Nat) (report_type : HidReportType)
    (buf : List Nat) (behind : Nat → Nat) :
    (tud_hid_set_report_cb_mem s report_id report_type buf behind).loop_mode = s.loop_mode := by
  obtain ⟨hyes, hno⟩ := set_report_mem_cases s report_id report_type buf behind
  by_cases hg : report_id = 2 ∧ report_type = HidReportType.output
      ∧ buffer_at buf behind 0 = 2 ∧ buf.length ≥ 11
  · obtain ⟨L, hL, _⟩ := hyes hg
    rw [hL]
  · rw [hno hg]

/-- The counter and the mode after one event. -/
theorem apply_event_frame (fuel : Nat) (kc : Nat → Nat) (ev : Event) (s s1 : State)
    (h : apply_event fuel kc ev s = some s1) :
    s1.loop_mode = s.loop_mode
    ∧ (s.reactive_timeout_count ≤ REACTIVE_TIMEOUT_MAX
        → s1.reactive_timeout_count ≤ REACTIVE_TIMEOUT_MAX) := by
  have hstep : ∀ t : State, t.reactive_timeout_count ≤ REACTIVE_TIMEOUT_MAX →
      (update_lights t).reactive_timeout_count ≤ REACTIVE_TIMEOUT_MAX := by
    intro t ht
    rw [update_lights_count]
    split_ifs with hlt
    · exact hlt
    · exact ht
  cases ev with
  | cycle inp =>
    simp only [apply_event, Option.map_eq_some'] at h
    obtain ⟨r, hr, rfl⟩ := h
    obtain ⟨t, ht, _, t2, t3, _⟩ := main_cycle_lights fuel kc inp s r hr
    rw [ht, update_lights_mode]
    exact ⟨t3, fun hle => hstep t (t2 ▸ hle)⟩
  | write report_id report_type buffer behind =>
    simp only [apply_event, Option.some.injEq] at h
    subst h
    refine ⟨set_report_mem_mode s report_id report_type buffer behind, fun hle => ?_⟩
    rw [set_report_mem_count]
    split_ifs
    · exact Nat.zero_le _
    · exact hle
  | inputs pins enc_val =>
    simp only [apply_event, Option.some.injEq] at h
    subst h
    obtain ⟨h1, h2⟩ := update_inputs_count pins enc_val s
    rw [h1, h2]
    exact ⟨rfl, id⟩
  | lights =>
    simp only [apply_event, Option.some.injEq] at h
    subst h
    exact ⟨update_lights_mode s, hstep s⟩

/-- The counter and the mode after any list of events. -/
theorem run_events_frame (fuel : Nat) (kc : Nat → Nat) (evs : List Event) (s s1 : State)
    (h : run_events fuel kc evs s = some s1) :
    s1.loop_mode = s.loop_mode
    ∧ (s.reactive_timeout_count ≤ REACTIVE_TIMEOUT_MAX
        → s1.reactive_timeout_count ≤ REACTIVE_TIMEOUT_MAX) := by
  induction evs generalizing s with
  | nil =>
    simp only [run_events, Option.some.injEq] at h
    subst h
    exact ⟨rfl, id⟩
  | cons ev rest ih =>
    simp only [run_events, Option.bind_eq_some] at h
    obtain ⟨t, ht, hrest⟩ := h
    obtain ⟨a1, a2⟩ := apply_event_frame fuel kc ev s t ht
    obtain ⟨b1, b2⟩ := ih t hrest
    exact ⟨b1.trans a1, fun hle => b2 (a2 hle)⟩

/-- Every event but a main-loop iteration in joystick mode returns. -/
theorem apply_event_returns (fuel : Nat) (kc : Nat → Nat) (ev : Event) (s : State)
    (h : single_call ev = true ∨ s.loop_mode = LoopMode.key) :
    ∃ s1, apply_event fuel kc ev s = some s1 := by
  cases ev with
  | cycle inp =>
    rcases h with h | h
    · exact absurd h (by simp [single_call])
    · simp only [apply_event, main_cycle_key_eq fuel kc inp s h, Option.map_some']
      exact ⟨_, rfl⟩
  | write report_id report_type buffer behind => exact ⟨_, rfl⟩
  | inputs pins enc_val => exact ⟨_, rfl⟩
  | lights => exact ⟨_, rfl⟩

/-- Every list of events returns when it holds single calls only, or when the
mode is keyboard mode. -/
theorem run_events_returns (fuel : Nat) (kc : Nat → Nat) (evs : List Event) (s : State)
    (h : evs.all single_call = true ∨ s.loop_mode = LoopMode.key) :
    ∃ s1, run_events fuel kc evs s = some s1 := by
  induction evs generalizing s with
  | nil => exact ⟨s, rfl⟩
  | cons ev rest ih =>
    have hev : single_call ev = true ∨ s.loop_mode = LoopMode.key := by
      rcases h with h | h
      · rw [List.all_cons, Bool.and_eq_true] at h
        exact Or.inl h.1
      · exact Or.inr h
    obtain ⟨t, ht⟩ := apply_event_returns fuel kc ev s hev
    have hrest : rest.all single_call = true ∨ t.loop_mode = LoopMode.key := by
      rcases h with h | h
      · rw [List.all_cons, Bool.and_eq_true] at h
        exact Or.inl h.2
      · exact Or.inr ((apply_event_frame fuel kc ev s t ht).1.trans h)
    obtain ⟨s1, hs1⟩ := ih t hrest
    exact ⟨s1, by simp only [run_events, ht, Option.some_bind, hs1]⟩
/-- C15: `init` selects `joy_mode` iff the line of switch 0 reads high and
`key_mode` otherwise; none of `update_inputs`, `joy_mode`, `key_mode`,
`update_lights` and `tud_hid_set_report_cb` changes `loop_mode`, the callback
on every input, whether it applies the write or not and also when it reads
behind a short buffer; hence in every state `s` reached from `init` by
main-loop iterations, host writes of any kind and single calls of
`update_inputs` and `update_lights`, in any order, `loop_mode` is the one set by
`init`, and the next main-loop iteration calls the report function selected at
`init`.  Such states exist for every sequence when `key_mode` was selected, and
for every sequence of single calls in either mode. -/
theorem C15_mode_immutability (fuel : Nat) (kc : Nat → Nat) (pins0 : Nat → Bool)
    (evs : List Event) (s : State) (h : run_events fuel kc evs (init pins0) = some s) :
    ((init pins0).loop_mode = LoopMode.joy ↔ pins0 ( SW_GPIO 0) = true)
    ∧ ((init pins0).loop_mode = LoopMode.key ↔ pins0 ( SW_GPIO 0) = false)
    ∧ (∀ (t : State) (pins : Nat → Bool) (e : Nat → Nat),
        (update_inputs pins e t).loop_mode = t.loop_mode)
    ∧ (∀ (t : State) (n : Nat) (ready : Bool) (e : Nat → Nat) (r : State × List HidOut),
        joy_mode n ready e t = some r → r.1.loop_mode = t.loop_mode)
    ∧ (∀ (t : State) (ready : Bool) (e : Nat → Nat),
        (key_mode kc ready e t).1.loop_mode = t.loop_mode)
    ∧ (∀ t : State, (update_lights t).loop_mode = t.loop_mode)
    ∧ (∀ (t : State) (report_id : Nat) (report_type : HidReportType) (buf : List Nat)
        (behind : Nat → Nat),
        (tud_hid_set_report_cb_mem t report_id report_type buf behind).loop_mode = t.loop_mode)
    ∧ s.loop_mode = (init pins0).loop_mode
    ∧ (∀ inp : CycleInput, main_cycle fuel kc inp s =
        if pins0 ( SW_GPIO 0) = true then
          (joy_mode fuel inp.ready inp.enc_rep (update_inputs inp.pins inp.enc_in s)).map
            (fun r => (update_lights r.1, r.2))
        else
          some (update_lights (key_mode kc inp.ready inp.enc_rep
              (update_inputs inp.pins inp.enc_in s)).1,
            (key_mode kc inp.ready inp.enc_rep (update_inputs inp.pins inp.enc_in s)).2))
    ∧ (pins0 ( SW_GPIO 0) = false →
        ∀ evs2 : List Event, ∃ s2, run_events fuel kc evs2 (init pins0) = some s2)
    ∧ (∀ evs2 : List Event, evs2.all single_call = true →
        ∃ s2, run_events fuel kc evs2 (init pins0) = some s2) := by
  have hinit : (init pins0).loop_mode
      = if pins0 ( SW_GPIO 0) then LoopMode.joy else LoopMode.key := rfl
  have hs : s.loop_mode = (init pins0).loop_mode := (run_events_frame fuel kc evs _ s h).1
  refine ⟨?_, ?_, fun t pins e => (update_inputs_count pins e t).2, ?_, ?_,
    update_lights_mode, set_report_mem_mode, hs, fun inp => ?_, fun hp evs2 => ?_,
    fun evs2 h2 => run_events_returns fuel kc evs2 _ (Or.inl h2)⟩
  · rw [hinit]
    cases pins0 ( SW_GPIO 0) <;> simp
  · rw [hinit]
    cases pins0 ( SW_GPIO 0) <;> simp
  · intro t n ready e r hr
    exact (joy_mode_frame n ready e t r hr).2.2.1
  · intro t ready e
    exact (key_mode_frame kc ready e t).2.2.1
  · have hm : (update_inputs inp.pins inp.enc_in s).loop_mode
        = if pins0 ( SW_GPIO 0) then LoopMode.joy else LoopMode.key := by
      rw [(update_inputs_count inp.pins inp.enc_in s).2, hs, hinit]
    unfold main_cycle
    dsimp only
    rw [hm]
    cases pins0 ( SW_GPIO 0) <;> simp
  · refine run_events_returns fuel kc evs2 _ (Or.inr ?_)
    rw [hinit, hp]
    rfl

/-- Witness of C15: boot with switch 0 held, then a main-loop iteration, a
host write of 11 bytes, a host write of 12 bytes, a second main-loop iteration
and a host write with an empty buffer. -/
theorem C15_mode_immutability_witness :
    ∃ s, run_events 2 sampleKeycode
        [Event.cycle pressInput, Event.write 2 HidReportType.output shortPayload (fun _ => 0),
          Event.write 2 HidReportType.output allLitPayload (fun _ => 0),
          Event.cycle quietInput, Event.write 2 HidReportType.output [] (fun _ => 2)]
        (init (pressLine 0)) = some s
      ∧ s.loop_mode = LoopMode.key
      ∧ ∀ inp : CycleInput, main_cycle 2 sampleKeycode inp s
          = some (update_lights (key_mode sampleKeycode inp.ready inp.enc_rep
                (update_inputs inp.pins inp.enc_in s)).1,
              (key_mode sampleKeycode inp.ready inp.enc_rep
                (update_inputs inp.pins inp.enc_in s)).2) := by
  have hkey : (init (pressLine 0)).loop_mode = LoopMode.key := by decide
  obtain ⟨s, hs⟩ := run_events_returns 2 sampleKeycode
    [Event.cycle pressInput, Event.write 2 HidReportType.output shortPayload (fun _ => 0),
      Event.write 2 HidReportType.output allLitPayload (fun _ => 0),
      Event.cycle quietInput, Event.write 2 HidReportType.output [] (fun _ => 2)]
    (init (pressLine 0)) (Or.inr hkey)
  have H := C15_mode_immutability 2 sampleKeycode (pressLine 0) _ s hs
  refine ⟨s, hs, H.2.2.2.2.2.2.2.1.trans hkey, fun inp => ?_⟩
  have hc := H.2.2.2.2.2.2.2.2.1 inp
  rw [if_neg (by decide)] at hc
  exact hc

end PicoGameController
